import Mathlib

/-!
# haven-nodejs: the wallet and daemon RPC clients

A shallow embedding of `lib/wallet.js` and `lib/daemon.js`.

* JavaScript values are the JSON data the library handles, plus `undefined`.
* JavaScript numbers are IEEE-754 binary64 values.  A finite number is kept as
  an exact dyadic fraction `n / 2^k`; every arithmetic result is rounded to
  the nearest representable value, ties to even, with gradual underflow and
  overflow to infinity.
* A client call is either a synchronous exception or one HTTP POST together
  with the way its promise settles.
-/

namespace Haven

/-! ## Numbers -/

/-- A JavaScript number.  `fin neg n k` is the finite value `(-1)^neg * n / 2^k`;
it is kept in lowest terms (`k = 0` or `n` odd), so `fin true 0 0` is `-0`. -/
inductive JSNum where
  | nan
  | inf (neg : Bool)
  | fin (neg : Bool) (n : Nat) (k : Nat)
  deriving DecidableEq, Repr

namespace JSNum

/-- The exact rational value of a finite number. -/
def toRat : JSNum → Option ℚ
  | nan => none
  | inf _ => none
  | fin neg n k => some ((if neg then -1 else 1) * (n : ℚ) / 2 ^ k)

/-- The number whose value is the natural number `n` (below `2^53` every
natural number is a number). -/
def ofNat (n : Nat) : JSNum := fin false n 0

/-- Lowest terms of `n / 2^k`. -/
def mkFin (neg : Bool) : Nat → Nat → JSNum
  | n, 0 => fin neg n 0
  | n, k + 1 => if n % 2 = 0 then mkFin neg (n / 2) k else fin neg n (k + 1)

/-- Bit length with fuel: the number of binary digits of `n`. -/
def bitLenAux : Nat → Nat → Nat
  | 0, _ => 0
  | f + 1, n => if n = 0 then 0 else bitLenAux f (n / 2) + 1

/-- The number of binary digits of `n` (`0` for `0`). -/
def bitLen (n : Nat) : Nat := bitLenAux n n

/-- The binary exponent of the positive rational `p / d`:
the integer `e` with `2^e ≤ p / d < 2^(e+1)`. -/
def floorLog2 (p d : Nat) : Int :=
  let e0 : Int := (bitLen p : Int) - (bitLen d : Int)
  if d * 2 ^ e0.toNat ≤ p * 2 ^ (-e0).toNat then e0 else e0 - 1

/-- Round-half-even of the quotient `num / den`. -/
def roundHalfEven (num den : Nat) : Nat :=
  let q := num / den
  let r := num % den
  if den < 2 * r ∨ (2 * r = den ∧ q % 2 = 1) then q + 1 else q

/-- The binary64 value nearest to the positive rational `p / d` (ties to
even): 53 significant bits, least exponent `-1022` (below it the spacing
stays `2^-1074`), and infinity once the rounded value `n * 2^qe` reaches
`2^1024`, that is once `n` has more than `1024 - qe` binary digits. -/
def roundPos (neg : Bool) (p d : Nat) : JSNum :=
  let qe : Int := max (floorLog2 p d) (-1022) - 52
  let n := roundHalfEven (p * 2 ^ (-qe).toNat) (d * 2 ^ qe.toNat)
  if 1024 < (bitLen n : Int) + qe then inf neg
  else mkFin neg (n * 2 ^ qe.toNat) (-qe).toNat

/-- The number nearest to the signed rational `(-1)^neg * p / d`. -/
def round (neg : Bool) (p d : Nat) : JSNum :=
  if p = 0 then fin neg 0 0 else roundPos neg p d

/-- The product of two numbers (`Number::multiply`). -/
def mul : JSNum → JSNum → JSNum
  | nan, _ => nan
  | _, nan => nan
  | inf s, inf t => inf (xor s t)
  | inf s, fin t n _ => if n = 0 then nan else inf (xor s t)
  | fin s n _, inf t => if n = 0 then nan else inf (xor s t)
  | fin s n k, fin t m l => round (xor s t) (n * m) (2 ^ (k + l))

/-- The literal `1e12`. -/
def e12 : JSNum := ofNat 1000000000000

/-- Is the number `NaN`, `+0` or `-0` (the falsy numbers)? -/
def isFalsy : JSNum → Bool
  | nan => true
  | inf _ => false
  | fin _ n _ => n == 0

end JSNum

/-! ## Decimal digits -/

/-- The character of a decimal digit. -/
def digitChar : Nat → Char
  | 0 => '0' | 1 => '1' | 2 => '2' | 3 => '3' | 4 => '4'
  | 5 => '5' | 6 => '6' | 7 => '7' | 8 => '8' | _ => '9'

/-- The value of a decimal digit character. -/
def digitVal : Char → Option Nat
  | '0' => some 0 | '1' => some 1 | '2' => some 2 | '3' => some 3 | '4' => some 4
  | '5' => some 5 | '6' => some 6 | '7' => some 7 | '8' => some 8 | '9' => some 9
  | _ => none

/-- The value of a hexadecimal digit character. -/
def hexVal : Char → Option Nat
  | 'a' => some 10 | 'b' => some 11 | 'c' => some 12 | 'd' => some 13
  | 'e' => some 14 | 'f' => some 15
  | 'A' => some 10 | 'B' => some 11 | 'C' => some 12 | 'D' => some 13
  | 'E' => some 14 | 'F' => some 15
  | c => digitVal c

/-- The digit value of a character in the given radix, if it is a digit of it. -/
def radixVal (radix : Nat) (c : Char) : Option Nat :=
  match hexVal c with
  | some v => if v < radix then some v else none
  | none => none

/-- Decimal digits of `n`, most significant first, with fuel. -/
def natDigitsAux : Nat → Nat → List Char → List Char
  | 0, _, acc => acc
  | f + 1, n, acc =>
    if n < 10 then digitChar n :: acc
    else natDigitsAux f (n / 10) (digitChar (n % 10) :: acc)

/-- The decimal representation of `n` (`"0"` for `0`). -/
def natDigits (n : Nat) : List Char := natDigitsAux (n + 1) n []

/-- Splits off the longest prefix of digits of the radix, as digit values. -/
def spanDigits (radix : Nat) : List Char → List Nat × List Char
  | [] => ([], [])
  | c :: cs =>
    match radixVal radix c with
    | some v => ((spanDigits radix cs).1.cons v, (spanDigits radix cs).2)
    | none => ([], c :: cs)

/-- The value of a digit sequence, most significant first. -/
def digitsVal (radix : Nat) (ds : List Nat) : Nat :=
  ds.foldl (fun acc d => radix * acc + d) 0

/-- JavaScript white space and line terminators. -/
def isWhiteSpace (c : Char) : Bool :=
  let u := c.toNat
  (9 ≤ u && u ≤ 13) || u == 32 || u == 160 || u == 0x1680 ||
  (0x2000 ≤ u && u ≤ 0x200A) || u == 0x2028 || u == 0x2029 || u == 0x202F ||
  u == 0x205F || u == 0x3000 || u == 0xFEFF

/-- Removes leading white space. -/
def trimStart : List Char → List Char
  | [] => []
  | c :: cs => if isWhiteSpace c then trimStart cs else c :: cs

/-- Removes leading and trailing white space. -/
def trim (cs : List Char) : List Char :=
  (trimStart (trimStart cs).reverse).reverse

/-! ## Strings to numbers -/

namespace JSNum

/-- The number nearest to `(-1)^neg * m * 10^ex`. -/
def ofDecimal (neg : Bool) (m : Nat) (ex : Int) : JSNum :=
  round neg (m * 10 ^ ex.toNat) (10 ^ (-ex).toNat)

/-- The exponent part of a decimal literal: nothing, or `e`/`E`, an optional
sign and at least one digit, up to the end of the text. -/
def parseExponent : List Char → Option Int
  | [] => some 0
  | c :: cs =>
    if c = 'e' ∨ c = 'E' then
      let (neg, ds) :=
        match cs with
        | '+' :: t => (false, t)
        | '-' :: t => (true, t)
        | t => (false, t)
      match spanDigits 10 ds with
      | ([], _) => none
      | (d :: dt, []) =>
        some (if neg then -(digitsVal 10 (d :: dt) : Int) else (digitsVal 10 (d :: dt) : Int))
      | (_ :: _, _ :: _) => none
    else none

/-- An unsigned decimal literal (`StrUnsignedDecimalLiteral`): `Infinity`, or
digits with an optional fraction and exponent, at least one digit in all. -/
def parseUnsigned (neg : Bool) (cs : List Char) : JSNum :=
  if cs = ['I', 'n', 'f', 'i', 'n', 'i', 't', 'y'] then inf neg
  else
    let ip := spanDigits 10 cs
    let fp : List Nat × List Char :=
      match ip.2 with
      | '.' :: t => spanDigits 10 t
      | t => ([], t)
    if ip.1 = [] ∧ fp.1 = [] then nan
    else
      match parseExponent fp.2 with
      | none => nan
      | some ex => ofDecimal neg (digitsVal 10 (ip.1 ++ fp.1)) (ex - fp.1.length)

/-- A literal of radix 2, 8 or 16 after its prefix: at least one digit and
nothing else. -/
def parseRadix (radix : Nat) (cs : List Char) : JSNum :=
  match spanDigits radix cs with
  | ([], _) => nan
  | (d :: dt, []) => round false (digitsVal radix (d :: dt)) 1
  | (_ :: _, _ :: _) => nan

/-- The number a text denotes (`StringToNumber`): white space is trimmed, the
empty text is `+0`, and a text that is not a numeric literal is `NaN`. -/
def ofChars (cs : List Char) : JSNum :=
  match trim cs with
  | [] => fin false 0 0
  | '0' :: 'x' :: t => parseRadix 16 t
  | '0' :: 'X' :: t => parseRadix 16 t
  | '0' :: 'o' :: t => parseRadix 8 t
  | '0' :: 'O' :: t => parseRadix 8 t
  | '0' :: 'b' :: t => parseRadix 2 t
  | '0' :: 'B' :: t => parseRadix 2 t
  | '+' :: t => parseUnsigned false t
  | '-' :: t => parseUnsigned true t
  | t => parseUnsigned false t

/-! ## Numbers to strings -/

/-- The least `j` (up to the fuel) with `d ≤ p * 10^j`, counted from `j`. -/
def negExp10 (p d : Nat) : Nat → Nat → Nat
  | 0, j => j
  | f + 1, j => if d ≤ p * 10 ^ j then j else negExp10 p d f (j + 1)

/-- The decimal exponent of the positive rational `p / d`: the integer `n`
with `10^(n-1) ≤ p / d < 10^n`. -/
def exp10 (p d : Nat) : Int :=
  if d ≤ p then ((natDigits (p / d)).length : Int)
  else 1 - (negExp10 p d 400 1 : Int)

/-- The shortest decimal `s * 10^(n - k)`, with `k` digits in `s`, that reads
back as the positive number `n2 / 2^k2`; of several the one nearest to
it, of two equally near the even one.  The search runs over the digit count,
starting at `kd`; `n10` is the decimal exponent of the number. -/
def shortestAux (n2 k2 : Nat) (n10 : Int) : Nat → Nat → Nat × Int
  | 0, _ => (n2 / 2 ^ k2, n10)
  | f + 1, kd =>
    let e : Int := (kd : Int) - n10
    let num := n2 * 10 ^ e.toNat
    let den := 2 ^ k2 * 10 ^ (-e).toNat
    let lo := num / den
    let hi := lo + 1
    let okLo := decide (10 ^ (kd - 1) ≤ lo) &&
      decide (round false (lo * 10 ^ (-e).toNat) (10 ^ e.toNat) = fin false n2 k2)
    let okHi :=
      decide (round false (hi * 10 ^ (-e).toNat) (10 ^ e.toNat) = fin false n2 k2)
    let loNearer := decide (2 * (num % den) < den) ||
      (decide (2 * (num % den) = den) && decide (lo % 2 = 0))
    let hiOut : Nat × Int := if hi = 10 ^ kd then (10 ^ (kd - 1), n10 + 1) else (hi, n10)
    if okLo && (loNearer || !okHi) then (lo, n10)
    else if okHi then hiOut
    else shortestAux n2 k2 n10 f (kd + 1)

/-- The text of a positive finite number from its shortest digits `ds` and
decimal exponent `n` (`Number::toString`, radix 10). -/
def formatPos (ds : List Char) (n : Int) : List Char :=
  let k : Int := ds.length
  if k ≤ n ∧ n ≤ 21 then ds ++ List.replicate (n - k).toNat '0'
  else if 0 < n ∧ n ≤ 21 then ds.take n.toNat ++ '.' :: ds.drop n.toNat
  else if -6 < n ∧ n ≤ 0 then '0' :: '.' :: (List.replicate (-n).toNat '0' ++ ds)
  else
    let ex := (if n - 1 < 0 then '-' else '+') :: natDigits (n - 1).natAbs
    match ds with
    | [] => []
    | [c] => c :: 'e' :: ex
    | c :: cs => c :: '.' :: (cs ++ 'e' :: ex)

/-- The text of a number (`Number::toString`, radix 10). -/
def toChars : JSNum → List Char
  | nan => ['N', 'a', 'N']
  | inf neg =>
    (if neg then ['-'] else []) ++ ['I', 'n', 'f', 'i', 'n', 'i', 't', 'y']
  | fin neg n k =>
    if n = 0 then ['0']
    else
      let sn := shortestAux n k (exp10 n (2 ^ k)) 17 1
      (if neg then ['-'] else []) ++ formatPos (natDigits sn.1) sn.2

/-- The integer nearest to `n / 2^k`, the larger one of two equally near. -/
def roundHalfUp (n k : Nat) : Nat := (2 * n + 2 ^ k) / 2 ^ (k + 1)

/-- The text `x.toFixed(0)`: the nearest integer in decimal digits, the text
of the number itself when it is not finite or is `10^21` or more in
magnitude. -/
def toFixed0 : JSNum → List Char
  | nan => toChars nan
  | inf neg => toChars (inf neg)
  | fin neg n k =>
    (if neg ∧ n ≠ 0 then ['-'] else []) ++
      (if 10 ^ 21 * 2 ^ k ≤ n then toChars (fin false n k)
       else natDigits (roundHalfUp n k))

end JSNum

/-! ## Values -/

/-- A JavaScript value: the JSON data the clients send and receive, and
`undefined`.  An object is a plain record, its own properties in insertion
order. -/
inductive JSVal where
  | undefined
  | null
  | bool (b : Bool)
  | num (x : JSNum)
  | str (s : String)
  | arr (items : List JSVal)
  | obj (fields : List (String × JSVal))

/-- What a call can throw: a `TypeError`, or an `Error` with its message. -/
inductive JSError where
  | typeError
  | error (message : String)
  deriving DecidableEq, Repr

namespace JSVal

/-- The value of the first field named `key`. -/
def lookup (key : String) : List (String × JSVal) → Option JSVal
  | [] => none
  | (k, v) :: rest => if k = key then some v else lookup key rest

/-- Does the record have an own property `key`? -/
def hasKey (key : String) (fields : List (String × JSVal)) : Bool :=
  (lookup key fields).isSome

/-- Sets the field `key` of a record: in place when it exists, appended
otherwise. -/
def assign (key : String) (v : JSVal) : List (String × JSVal) → List (String × JSVal)
  | [] => [(key, v)]
  | (k, w) :: rest => if k = key then (k, v) :: rest else (k, w) :: assign key v rest

/-- Truthiness (`ToBoolean`). -/
def truthy : JSVal → Bool
  | undefined => false
  | null => false
  | bool b => b
  | num x => !x.isFalsy
  | str s => s != ""
  | arr _ => true
  | obj _ => true

/-- The expression `a || b`. -/
def or (a b : JSVal) : JSVal := if a.truthy then a else b

/-- The test `typeof v === 'undefined'`. -/
def isUndefined : JSVal → Bool
  | undefined => true
  | _ => false

/-- The test `typeof v === 'number'`. -/
def isNumber : JSVal → Bool
  | num _ => true
  | _ => false

/-- The test `typeof v === 'string'`. -/
def isString : JSVal → Bool
  | str _ => true
  | _ => false

/-- The test `Array.isArray(v)`. -/
def isArray : JSVal → Bool
  | arr _ => true
  | _ => false

/-- The property read `v.key`, for the property names the clients read
(`amount`, `result`, the option names), none of which is inherited or built
in: reading from `undefined` or `null` throws, a value without the property
gives `undefined`. -/
def get (target : JSVal) (key : String) : Except JSError JSVal :=
  match target with
  | undefined => .error .typeError
  | null => .error .typeError
  | obj fields => .ok ((lookup key fields).getD undefined)
  | _ => .ok undefined

/-- The strict-mode assignment `target.key = v` (both files are
`'use strict'`): it throws on `undefined`, `null` and on a primitive value.
On an array it adds a named property, which is no part of the array's JSON
data, so the data is unchanged. -/
def set (target : JSVal) (key : String) (v : JSVal) : Except JSError JSVal :=
  match target with
  | obj fields => .ok (obj (assign key v fields))
  | arr items => .ok (arr items)
  | _ => .error .typeError

mutual
/-- The text of a value (`ToString`).  An array is the texts of its items
joined by commas; a record is `[object Object]`, unless an own property
shadows `toString`, which then is not callable. -/
def toStr : JSVal → Except JSError String
  | undefined => .ok "undefined"
  | null => .ok "null"
  | bool b => .ok (if b then "true" else "false")
  | num x => .ok (String.mk x.toChars)
  | str s => .ok s
  | arr items => join items
  | obj fields => if hasKey "toString" fields then .error .typeError else .ok "[object Object]"
termination_by structural v => v
/-- The items of an array joined by commas (`Array.prototype.join`):
`undefined` and `null` items are empty. -/
def join : List JSVal → Except JSError String
  | [] => .ok ""
  | [x] =>
    match x with
    | undefined => .ok ""
    | null => .ok ""
    | y => toStr y
  | x :: y :: rest =>
    (match x with
     | undefined => .ok ""
     | null => .ok ""
     | z => toStr z) >>= fun a =>
    join (y :: rest) >>= fun b => .ok (a ++ "," ++ b)
termination_by structural items => items
end

/-- The call `Number(v)` (`ToNumber`): an array or record goes through its
text. -/
def toNumber : JSVal → Except JSError JSNum
  | undefined => .ok .nan
  | null => .ok (.fin false 0 0)
  | bool b => .ok (.fin false (if b then 1 else 0) 0)
  | num x => .ok x
  | str s => .ok (JSNum.ofChars s.data)
  | v => (toStr v).map fun s => JSNum.ofChars s.data

/-- The call `parseInt(v)` without a radix: the text of `v` without leading
white space, an optional sign, an optional `0x` prefix, then the longest run
of digits; `NaN` when there is none. -/
def parseInt (v : JSVal) : Except JSError JSNum :=
  (toStr v).map fun s =>
    let signed : Bool × List Char :=
      match trimStart s.data with
      | '-' :: t => (true, t)
      | '+' :: t => (false, t)
      | t => (false, t)
    let based : Nat × List Char :=
      match signed.2 with
      | '0' :: 'x' :: t => (16, t)
      | '0' :: 'X' :: t => (16, t)
      | t => (10, t)
    match (spanDigits based.1 based.2).1 with
    | [] => .nan
    | d :: ds => JSNum.round signed.1 (digitsVal based.1 (d :: ds)) 1

end JSVal

/-! ## Amount conversion -/

/-- The helper `convert(amount)`:
`Number((Number(amount) * 1e12).toFixed(0))`. -/
def convert (amount : JSVal) : Except JSError JSNum :=
  amount.toNumber.map fun x => JSNum.ofChars (JSNum.toFixed0 (JSNum.mul x JSNum.e12))

/-! ## The shared request function -/

/-- The connection settings of a client, as the constructor stores them. -/
structure Client where
  hostname : JSVal
  port : JSVal
  user : JSVal
  pass : JSVal
  timeout : JSVal

/-- The constructor of `Wallet` and of `Daemon`: each argument, or its default
when the argument is falsy. -/
def Client.create (hostname port user pass timeout : JSVal) : Client where
  hostname := hostname.or (.str "127.0.0.1")
  port := port.or (.num (.ofNat 18082))
  user := user.or (.str "")
  pass := pass.or (.str "")
  timeout := timeout.or (.num (.ofNat 5000))

/-- The `auth` option of a request; `sendImmediately` is always `false`. -/
structure Auth where
  user : JSVal
  pass : JSVal
  sendImmediately : Bool

/-- The options object handed to `request.post`.  `json` is the request body,
absent when the option is not set; the agent is a new keep-alive agent with
the given socket limit. -/
structure Options where
  forever : Bool
  timeout : JSVal
  agentKeepAlive : Bool
  agentMaxSockets : Nat
  json : Option JSVal
  auth : Option Auth

/-- How the HTTP request ends: with a decoded response body, or with a
failure of the transport. -/
inductive Reply where
  | body (b : JSVal)
  | failure

/-- How the promise of a call settles. -/
inductive Settled where
  | resolved (v : JSVal)
  | rejected (e : JSError)

/-- What a client method does: it throws before any request is made, or it
posts one request to `url` and returns a promise. -/
inductive Call where
  | thrown (e : JSError)
  | posted (url : String) (options : Options) (promise : Settled)

/-- The network: the reply to a request. -/
abbrev Net := String → Options → Reply

/-- The URL of a request: `http://` hostname `:` port `/` interface. -/
def Client.url (self : Client) (interfaceName : JSVal) : Except JSError String :=
  self.hostname.toStr >>= fun h =>
  self.port.toStr >>= fun p =>
  interfaceName.toStr >>= fun i =>
  .ok ("http://" ++ h ++ ":" ++ p ++ "/" ++ i)

/-- The `auth` option: set when the user name is truthy. -/
def Client.auth (self : Client) : Option Auth :=
  if self.user.truthy then some ⟨self.user, self.pass, false⟩ else none

/-- The call `result.hasOwnProperty('result')` on a response body: it throws
on `undefined` and `null`, and on a record whose own property shadows
`hasOwnProperty` (a JSON value is not callable); arrays and primitive values
have no own property `result`. -/
def hasOwnResult : JSVal → Except JSError Bool
  | .undefined => .error .typeError
  | .null => .error .typeError
  | .obj fields =>
    if JSVal.hasKey "hasOwnProperty" fields then .error .typeError
    else .ok (JSVal.hasKey "result" fields)
  | _ => .ok false

/-- The `then` handler of a request: the `result` property of the body when
the body has one, the body itself otherwise. -/
def unwrap (result : JSVal) : Except JSError JSVal :=
  hasOwnResult result >>= fun has =>
  if has then result.get "result" else .ok result

/-- The error every failed call is rejected with. -/
def unreachable : JSError := .error "Server is not reachable."

/-- The promise chain `request.post(..).then(..).catch(..)`: the `catch`
handler replaces every failure, of the transport or of the `then` handler,
by the one error. -/
def settle : Reply → Settled
  | .failure => .rejected unreachable
  | .body b =>
    match unwrap b with
    | .ok v => .resolved v
    | .error _ => .rejected unreachable

/-- The JSON-RPC envelope without parameters. -/
def envelope (method : JSVal) : List (String × JSVal) :=
  [("jsonrpc", .str "2.0"), ("id", .str "0"), ("method", method)]

/-- The default value of a parameter: used when the argument is `undefined`. -/
def dflt (arg d : JSVal) : JSVal := if arg.isUndefined then d else arg

/-- The options `Wallet.prototype._request` builds (`params = ''` by
default): the envelope, with `params` when they are truthy. -/
def Wallet.options (self : Client) (method params : JSVal) : Options where
  forever := true
  timeout := self.timeout
  agentKeepAlive := true
  agentMaxSockets := 1
  json := some (.obj (
    if (dflt params (.str "")).truthy then
      JSVal.assign "params" (dflt params (.str "")) (envelope method)
    else envelope method))
  auth := self.auth

/-- The general wallet request, `Wallet.prototype._request`. -/
def Wallet._request (self : Client) (net : Net) (method params : JSVal) : Call :=
  match self.url (.str "json_rpc") with
  | .error e => .thrown e
  | .ok url =>
    .posted url (Wallet.options self method params)
      (settle (net url (Wallet.options self method params)))

/-- The options `Daemon.prototype._request` builds (`params = ''`,
`interfaceName = 'json_rpc'` by default).  The envelope is set on the
`json_rpc` interface only; truthy `params` are then stored into
`options['json']`, which throws when `json` was not set. -/
def Daemon.options (self : Client) (method params interfaceName : JSVal) :
    Except JSError Options :=
  let json : Option (List (String × JSVal)) :=
    match dflt interfaceName (.str "json_rpc") with
    | .str "json_rpc" => some (envelope method)
    | _ => none
  (if (dflt params (.str "")).truthy then
    match json with
    | none => .error .typeError
    | some fields => .ok (some (JSVal.assign "params" (dflt params (.str "")) fields))
   else .ok json) >>= fun body =>
  .ok {
    forever := true
    timeout := self.timeout
    agentKeepAlive := true
    agentMaxSockets := 1
    json := body.map JSVal.obj
    auth := self.auth }

/-- The general daemon request, `Daemon.prototype._request`. -/
def Daemon._request (self : Client) (net : Net) (method params interfaceName : JSVal) :
    Call :=
  match Daemon.options self method params interfaceName with
  | .error e => .thrown e
  | .ok options =>
    match self.url (dflt interfaceName (.str "json_rpc")) with
    | .error e => .thrown e
    | .ok url => .posted url options (settle (net url options))

/-! ## Wallet methods that move value -/

/-- The number `0` as a value. -/
def zero : JSVal := .num (.ofNat 0)

/-- The statement `dest.amount = convert(dest.amount)`. -/
def convertAmount (dest : JSVal) : Except JSError JSVal :=
  dest.get "amount" >>= fun amount =>
  convert amount >>= fun atomic =>
  dest.set "amount" (.num atomic)

/-- The `destinations` argument as the caller holds it.  An array holds
references to objects, and one object can fill several of its slots:
`shared objects slots` is the array whose `i`-th slot refers to the object
`objects[slots[i]]`, a slot that names no object holding `undefined`.
`value v` is a value none of whose objects is referred to twice: a single
destination, or an array of distinct objects. -/
inductive Destinations where
  | value (v : JSVal)
  | shared (objects : List JSVal) (slots : List Nat)

/-- The items of an array, read through its slots. -/
def readSlots (objects : List JSVal) (slots : List Nat) : List JSVal :=
  slots.map fun slot => objects.getD slot .undefined

/-- One round of the loop: `dest.amount = convert(dest.amount)`, with `dest`
the object the slot refers to.  The object itself is overwritten, so every
slot that refers to it sees the new amount. -/
def convertSlot (objects : List JSVal) (slot : Nat) : Except JSError (List JSVal) :=
  convertAmount (objects.getD slot .undefined) >>= fun d => .ok (objects.set slot d)

/-- The loop `destinations.forEach((dest) => dest.amount = convert(dest.amount))`:
slot after slot, each round on the objects as the rounds before left them. -/
def convertAll : List JSVal → List Nat → Except JSError (List JSVal)
  | objects, [] => .ok objects
  | objects, slot :: rest =>
    convertSlot objects slot >>= fun converted => convertAll converted rest

/-- The branch of an array: the loop runs, and the array is later sent with
its items read through the slots. -/
def normalizeArray (objects : List JSVal) (slots : List Nat) : Except JSError JSVal :=
  (convertAll objects slots).map fun converted => JSVal.arr (readSlots converted slots)

/-- The opening of every destination-taking method: an array
(`Array.isArray`) has the amount of the object of each slot converted in
place; anything else has its own amount converted and is wrapped into a
one-item list.  The result is the new value of the variable `destinations`,
as it is sent. -/
def normalizeDestinations : Destinations → Except JSError JSVal
  | .shared objects slots => normalizeArray objects slots
  | .value (.arr items) => normalizeArray items (List.range items.length)
  | .value single => (convertAmount single).map fun d => JSVal.arr [d]

/-- The expression `parseInt(options.key) || d`. -/
def intOption (options : JSVal) (key : String) (d : Nat) : Except JSError JSVal :=
  options.get key >>= fun v =>
  v.parseInt >>= fun x =>
  .ok ((JSVal.num x).or (.num (.ofNat d)))

/-- The expression `options.key || false`. -/
def flagOption (options : JSVal) (key : String) : Except JSError JSVal :=
  options.get key >>= fun v =>
  .ok (v.or (.bool false))

/-- The eight option fields every value-moving method sends, in the order of
the source; `unlock_time` is read from `unlockTime` and `get_tx_keys` from
`get_tx_key`. -/
def optionFields (options : JSVal) : Except JSError (List (String × JSVal)) :=
  intOption options "priority" 0 >>= fun priority =>
  intOption options "mixin" 10 >>= fun mixin =>
  intOption options "ring_size" 11 >>= fun ringSize =>
  intOption options "unlockTime" 0 >>= fun unlockTime =>
  flagOption options "do_not_relay" >>= fun doNotRelay =>
  flagOption options "get_tx_hex" >>= fun getTxHex =>
  flagOption options "get_tx_key" >>= fun getTxKey =>
  flagOption options "get_tx_metadata" >>= fun getTxMetadata =>
  .ok [("priority", priority), ("mixin", mixin), ("ring_size", ringSize),
    ("unlock_time", unlockTime), ("do_not_relay", doNotRelay),
    ("get_tx_hex", getTxHex), ("get_tx_keys", getTxKey),
    ("get_tx_metadata", getTxMetadata)]

/-- The field `new_algorithm: options.new_algorithm || false`. -/
def newAlgorithm (options : JSVal) : Except JSError (List (String × JSVal)) :=
  flagOption options "new_algorithm" >>= fun f => .ok [("new_algorithm", f)]

/-- The statement
`if(typeof options === 'undefined') options = {};`. -/
def bag (options : JSVal) : JSVal := if options.isUndefined then .obj [] else options

/-- Sends the parameters when they were built, throws otherwise. -/
def Wallet.send (self : Client) (net : Net) (method : String)
    (params : Except JSError (List (String × JSVal))) : Call :=
  match params with
  | .error e => .thrown e
  | .ok fields => Wallet._request self net (.str method) (.obj fields)

/-- The parameters of `transfer`. -/
def Wallet.transferParams (destinations : Destinations)
    (accountIndex subaddrIndices options : JSVal) :
    Except JSError (List (String × JSVal)) :=
  normalizeDestinations destinations >>= fun dests =>
  optionFields (bag options) >>= fun opts =>
  .ok ([("destinations", dests), ("account_index", dflt accountIndex zero),
    ("subaddr_indices", dflt subaddrIndices zero)] ++ opts)

/-- The method `transfer(destinations, account_index = 0, subaddr_indices = 0,
options)`. -/
def Wallet.transfer (self : Client) (net : Net)
    (destinations : Destinations) (accountIndex subaddrIndices options : JSVal) : Call :=
  Wallet.send self net "transfer"
    (Wallet.transferParams destinations accountIndex subaddrIndices options)

/-- The parameters of `transfer_split`, `onshore`, `offshore` and
`offshore_transfer`: those of `transfer` and `new_algorithm`. -/
def Wallet.splitParams (destinations : Destinations)
    (accountIndex subaddrIndices options : JSVal) :
    Except JSError (List (String × JSVal)) :=
  normalizeDestinations destinations >>= fun dests =>
  optionFields (bag options) >>= fun opts =>
  newAlgorithm (bag options) >>= fun alg =>
  .ok ([("destinations", dests), ("account_index", dflt accountIndex zero),
    ("subaddr_indices", dflt subaddrIndices zero)] ++ opts ++ alg)

/-- The method `transfer_split`. -/
def Wallet.transfer_split (self : Client) (net : Net)
    (destinations : Destinations) (accountIndex subaddrIndices options : JSVal) : Call :=
  Wallet.send self net "transfer_split"
    (Wallet.splitParams destinations accountIndex subaddrIndices options)

/-- The method `onshore`. -/
def Wallet.onshore (self : Client) (net : Net)
    (destinations : Destinations) (accountIndex subaddrIndices options : JSVal) : Call :=
  Wallet.send self net "onshore"
    (Wallet.splitParams destinations accountIndex subaddrIndices options)

/-- The method `offshore`. -/
def Wallet.offshore (self : Client) (net : Net)
    (destinations : Destinations) (accountIndex subaddrIndices options : JSVal) : Call :=
  Wallet.send self net "offshore"
    (Wallet.splitParams destinations accountIndex subaddrIndices options)

/-- The method `offshore_transfer`. -/
def Wallet.offshore_transfer (self : Client) (net : Net)
    (destinations : Destinations) (accountIndex subaddrIndices options : JSVal) : Call :=
  Wallet.send self net "offshore_transfer"
    (Wallet.splitParams destinations accountIndex subaddrIndices options)

/-- The parameters of `xusd_to_xasset`, `xasset_to_xusd` and
`xasset_transfer`: those of `transfer_split` with `asset_type` after the
destinations. -/
def Wallet.assetParams (destinations : Destinations)
    (assetType accountIndex subaddrIndices options : JSVal) :
    Except JSError (List (String × JSVal)) :=
  normalizeDestinations destinations >>= fun dests =>
  optionFields (bag options) >>= fun opts =>
  newAlgorithm (bag options) >>= fun alg =>
  .ok ([("destinations", dests), ("asset_type", assetType),
    ("account_index", dflt accountIndex zero),
    ("subaddr_indices", dflt subaddrIndices zero)] ++ opts ++ alg)

/-- The method `xusd_to_xasset(destinations, convert_to, ..)`. -/
def Wallet.xusd_to_xasset (self : Client) (net : Net)
    (destinations : Destinations) (convertTo accountIndex subaddrIndices options : JSVal) :
    Call :=
  Wallet.send self net "xusd_to_xasset"
    (Wallet.assetParams destinations convertTo accountIndex subaddrIndices options)

/-- The method `xasset_to_xusd(destinations, convert_from, ..)`. -/
def Wallet.xasset_to_xusd (self : Client) (net : Net)
    (destinations : Destinations) (convertFrom accountIndex subaddrIndices options : JSVal) :
    Call :=
  Wallet.send self net "xasset_to_xusd"
    (Wallet.assetParams destinations convertFrom accountIndex subaddrIndices options)

/-- The method `xasset_transfer(destinations, asset_type, ..)`. -/
def Wallet.xasset_transfer (self : Client) (net : Net)
    (destinations : Destinations) (assetType accountIndex subaddrIndices options : JSVal) :
    Call :=
  Wallet.send self net "xasset_transfer"
    (Wallet.assetParams destinations assetType accountIndex subaddrIndices options)

/-! ## Wallet methods that sweep -/

/-- The statement
`if(typeof options.below_amount === 'number') params.below_amount = options.below_amount;`. -/
def belowAmount (options : JSVal) (params : List (String × JSVal)) :
    Except JSError (List (String × JSVal)) :=
  options.get "below_amount" >>= fun v =>
  if v.isNumber then
    options.get "below_amount" >>= fun w => .ok (JSVal.assign "below_amount" w params)
  else .ok params

/-- The parameters of `sweep_all` and `offshore_sweep_all`.  The options are
read as they were passed: there is no default for them. -/
def Wallet.sweepParams (address accountIndex subaddrIndices options : JSVal) :
    Except JSError (List (String × JSVal)) :=
  optionFields options >>= fun opts =>
  belowAmount options ([("address", address), ("account_index", dflt accountIndex zero),
    ("subaddr_indices", dflt subaddrIndices zero)] ++ opts)

/-- The method `sweep_all(address, account_index = 0, subaddr_indices = 0,
options)`. -/
def Wallet.sweep_all (self : Client) (net : Net)
    (address accountIndex subaddrIndices options : JSVal) : Call :=
  Wallet.send self net "sweep_all"
    (Wallet.sweepParams address accountIndex subaddrIndices options)

/-- The method `offshore_sweep_all`. -/
def Wallet.offshore_sweep_all (self : Client) (net : Net)
    (address accountIndex subaddrIndices options : JSVal) : Call :=
  Wallet.send self net "offshore_sweep_all"
    (Wallet.sweepParams address accountIndex subaddrIndices options)

/-- The parameters of `sweep_single`. -/
def Wallet.sweepSingleParams (address keyImage accountIndex subaddrIndices options : JSVal) :
    Except JSError (List (String × JSVal)) :=
  optionFields options >>= fun opts =>
  belowAmount options ([("address", address), ("key_image", keyImage),
    ("account_index", dflt accountIndex zero),
    ("subaddr_indices", dflt subaddrIndices zero)] ++ opts)

/-- The method `sweep_single(address, key_image, account_index = 0,
subaddr_indices = 0, options)`. -/
def Wallet.sweep_single (self : Client) (net : Net)
    (address keyImage accountIndex subaddrIndices options : JSVal) : Call :=
  Wallet.send self net "sweep_single"
    (Wallet.sweepSingleParams address keyImage accountIndex subaddrIndices options)

/-! ## Daemon methods -/

/-- The `params` object `set_bans(bans)` builds: a string (a primitive one;
string objects are not modelled) becomes a one-item list. -/
def Daemon.setBansParams (bans : JSVal) : List (String × JSVal) :=
  [("bans", if bans.isString then JSVal.arr [bans] else bans)]

/-- The method `set_bans(bans)`: it builds its `params`, then makes the
request with the method name alone (`return this._request(method);`). -/
def Daemon.set_bans (self : Client) (net : Net) (bans : JSVal) : Call :=
  let _params := Daemon.setBansParams bans
  Daemon._request self net (.str "set_bans") .undefined .undefined

/-- The method `get_transactions(txs_hashes, decode_as_json = true,
prune = false)`: the request is made without a method name, on the interface
`get_transactions`. -/
def Daemon.get_transactions (self : Client) (net : Net)
    (txsHashes decodeAsJson prune : JSVal) : Call :=
  Daemon._request self net .null
    (.obj [("txs_hashes", txsHashes),
      ("decode_as_json", dflt decodeAsJson (.bool true)),
      ("prune", dflt prune (.bool false))])
    (.str "get_transactions")

/-! ## The other wallet methods -/

/-- The method `create_wallet(filename, password, language)`. -/
def Wallet.create_wallet (self : Client) (net : Net) (filename password language : JSVal) :
    Call :=
  Wallet._request self net (.str "create_wallet")
    (.obj [("filename", filename.or (.str "haven_wallet")),
      ("password", password.or (.str "")),
      ("language", language.or (.str "English"))])

/-- The method `open_wallet(filename, password)`. -/
def Wallet.open_wallet (self : Client) (net : Net) (filename password : JSVal) : Call :=
  Wallet._request self net (.str "open_wallet")
    (.obj [("filename", filename.or (.str "haven_wallet")),
      ("password", password.or (.str ""))])

/-- The method `get_height()`. -/
def Wallet.get_height (self : Client) (net : Net) : Call :=
  Wallet._request self net (.str "get_height") .undefined

/-- The method `stop_wallet()`. -/
def Wallet.stop_wallet (self : Client) (net : Net) : Call :=
  Wallet._request self net (.str "stop_wallet") .undefined

/-- The method `get_balance(asset_name = 'XHV', account_index = 0,
address_indices = 0)`. -/
def Wallet.get_balance (self : Client) (net : Net)
    (assetName accountIndex addressIndices : JSVal) : Call :=
  Wallet._request self net (.str "get_balance")
    (.obj [("asset_type", dflt assetName (.str "XHV")),
      ("account_index", dflt accountIndex zero),
      ("address_indices", dflt addressIndices zero)])

/-- The method `get_address(account_index = 0, address_indices = 0)`. -/
def Wallet.get_address (self : Client) (net : Net) (accountIndex addressIndices : JSVal) :
    Call :=
  Wallet._request self net (.str "get_address")
    (.obj [("account_index", dflt accountIndex zero),
      ("address_indices", dflt addressIndices zero)])

/-- The method `create_account(tag = '')`. -/
def Wallet.create_account (self : Client) (net : Net) (tag : JSVal) : Call :=
  Wallet._request self net (.str "create_account") (.obj [("tag", dflt tag (.str ""))])

/-- The method `label_account(account_index = 0, label = '')`. -/
def Wallet.label_account (self : Client) (net : Net) (accountIndex label : JSVal) : Call :=
  Wallet._request self net (.str "label_account")
    (.obj [("account_index", dflt accountIndex zero), ("label", dflt label (.str ""))])

/-- The method `get_account_tags()`. -/
def Wallet.get_account_tags (self : Client) (net : Net) : Call :=
  Wallet._request self net (.str "get_account_tags") .undefined

/-- The method `tag_accounts(tag = '', accounts = [])`. -/
def Wallet.tag_accounts (self : Client) (net : Net) (tag accounts : JSVal) : Call :=
  Wallet._request self net (.str "tag_accounts")
    (.obj [("tag", dflt tag (.str "")), ("account", dflt accounts (.arr []))])

/-- The method `untag_accounts(accounts = [])`. -/
def Wallet.untag_accounts (self : Client) (net : Net) (accounts : JSVal) : Call :=
  Wallet._request self net (.str "untag_accounts")
    (.obj [("account", dflt accounts (.arr []))])

/-- The method `set_account_tag_description(tag = '', description = '')`. -/
def Wallet.set_account_tag_description (self : Client) (net : Net)
    (tag description : JSVal) : Call :=
  Wallet._request self net (.str "set_account_tag_description")
    (.obj [("tag", dflt tag (.str "")), ("description", dflt description (.str ""))])

/-- The method `create_address(account_index = 0, label = '')`. -/
def Wallet.create_address (self : Client) (net : Net) (accountIndex label : JSVal) : Call :=
  Wallet._request self net (.str "create_address")
    (.obj [("account_index", dflt accountIndex zero), ("label", dflt label (.str ""))])

/-- The method `label_address(account_index = 0, address_indices = 0,
label = '')`: the two indices go under `index` as `major` and `minor`. -/
def Wallet.label_address (self : Client) (net : Net)
    (accountIndex addressIndices label : JSVal) : Call :=
  Wallet._request self net (.str "label_address")
    (.obj [("index", .obj [("major", dflt accountIndex zero),
        ("minor", dflt addressIndices zero)]),
      ("label", dflt label (.str ""))])

/-- The method `sweep_dust()`. -/
def Wallet.sweep_dust (self : Client) (net : Net) : Call :=
  Wallet._request self net (.str "sweep_dust") .undefined

/-- The parameters of `get_transfers`.  The two heights are read from the
options, `parseInt(options.min_height)` and `parseInt(options.max_height)`;
the positional `min_height` and `max_height` are not used, and the options
have no default. -/
def Wallet.getTransfersParams
    (txIn txOut txPending txFailed txPool filterByHeight _minHeight _maxHeight
      accountIndex subaddrIndices options : JSVal) :
    Except JSError (List (String × JSVal)) :=
  options.get "min_height" >>= fun lo =>
  lo.parseInt >>= fun minHeight =>
  options.get "max_height" >>= fun hi =>
  hi.parseInt >>= fun maxHeight =>
  .ok [("in", txIn.or (.bool false)), ("out", txOut.or (.bool false)),
    ("pending", txPending.or (.bool false)), ("failed", txFailed.or (.bool false)),
    ("pool", txPool.or (.bool false)),
    ("filter_by_height", filterByHeight.or (.bool false)),
    ("min_height", .num minHeight), ("max_height", .num maxHeight),
    ("account_index", dflt accountIndex zero),
    ("subaddr_indices", dflt subaddrIndices zero)]

/-- The method `get_transfers(tx_in, tx_out, tx_pending, tx_failed, tx_pool,
filter_by_height, min_height, max_height, account_index = 0,
subaddr_indices = 0, options)`. -/
def Wallet.get_transfers (self : Client) (net : Net)
    (txIn txOut txPending txFailed txPool filterByHeight minHeight maxHeight
      accountIndex subaddrIndices options : JSVal) : Call :=
  Wallet.send self net "get_transfers"
    (Wallet.getTransfersParams txIn txOut txPending txFailed txPool filterByHeight
      minHeight maxHeight accountIndex subaddrIndices options)

/-- The method `get_transfer_by_txid(txid, account_index = 0)`. -/
def Wallet.get_transfer_by_txid (self : Client) (net : Net) (txid accountIndex : JSVal) :
    Call :=
  Wallet._request self net (.str "get_transfer_by_txid")
    (.obj [("txid", txid), ("account_index", dflt accountIndex zero)])

/-- The method `getPayments(pid, types)`. -/
def Wallet.getPayments (self : Client) (net : Net) (pid types : JSVal) : Call :=
  Wallet._request self net (.str "get_payments")
    (.obj [("payment_id", pid), ("types", types)])

/-- The method `getBulkPayments(pids, minHeight, types)`. -/
def Wallet.getBulkPayments (self : Client) (net : Net) (pids minHeight types : JSVal) :
    Call :=
  Wallet._request self net (.str "get_bulk_payments")
    (.obj [("payment_ids", pids), ("min_block_height", minHeight), ("types", types)])

/-- The method `incomingTransfers(type)`. -/
def Wallet.incomingTransfers (self : Client) (net : Net) (type : JSVal) : Call :=
  Wallet._request self net (.str "incoming_transfers") (.obj [("transfer_type", type)])

/-- The method `queryKey(type)`. -/
def Wallet.queryKey (self : Client) (net : Net) (type : JSVal) : Call :=
  Wallet._request self net (.str "query_key") (.obj [("key_type", type)])

/-- The method `integratedAddress(pid)`. -/
def Wallet.integratedAddress (self : Client) (net : Net) (pid : JSVal) : Call :=
  Wallet._request self net (.str "make_integrated_address") (.obj [("payment_id", pid)])

/-- The method `splitIntegrated(address)`. -/
def Wallet.splitIntegrated (self : Client) (net : Net) (address : JSVal) : Call :=
  Wallet._request self net (.str "split_integrated_address")
    (.obj [("integrated_address", address)])

/-- The method `height()`, which sends `getheight`. -/
def Wallet.height (self : Client) (net : Net) : Call :=
  Wallet._request self net (.str "getheight") .undefined

/-- The method `stopWallet()`, which sends `stop_wallet`. -/
def Wallet.stopWallet (self : Client) (net : Net) : Call :=
  Wallet._request self net (.str "stop_wallet") .undefined

/-- The method `store()`. -/
def Wallet.store (self : Client) (net : Net) : Call :=
  Wallet._request self net (.str "store") .undefined

/-- The method `init()` of the wallet: it requests `get_balance`, logs the
result and resolves to `undefined`; a failure is logged and thrown again. -/
def Wallet.init (self : Client) (net : Net) : Call :=
  match Wallet._request self net (.str "get_balance") .undefined with
  | .thrown e => .thrown e
  | .posted url options promise =>
    .posted url options
      (match promise with
       | .resolved _ => .resolved .undefined
       | .rejected e => .rejected e)

/-! ## The other daemon methods -/

/-- The method `getblockcount()`. -/
def Daemon.getblockcount (self : Client) (net : Net) : Call :=
  Daemon._request self net (.str "getblockcount") .undefined .undefined

/-- The method `get_coinbase_tx_sum(height, count)`. -/
def Daemon.get_coinbase_tx_sum (self : Client) (net : Net) (height count : JSVal) : Call :=
  Daemon._request self net (.str "get_coinbase_tx_sum")
    (.obj [("height", height.or zero), ("count", count.or (.num (.ofNat 1)))]) .undefined

/-- The method `on_getblockhash(height)`. -/
def Daemon.on_getblockhash (self : Client) (net : Net) (height : JSVal) : Call :=
  Daemon._request self net (.str "on_getblockhash")
    (.obj [("height", height.or zero)]) .undefined

/-- The method `getlastblockheader()`. -/
def Daemon.getlastblockheader (self : Client) (net : Net) : Call :=
  Daemon._request self net (.str "getlastblockheader") .undefined .undefined

/-- The `params` object `getblockheaderbyhash(hash)` and
`get_block_by_hash(hash)` build. -/
def Daemon.hashParams (hash : JSVal) : List (String × JSVal) := [("hash", hash)]

/-- The method `getblockheaderbyhash(hash)`: it builds its `params`, then
makes the request with the method name alone (`return this._request(method);`). -/
def Daemon.getblockheaderbyhash (self : Client) (net : Net) (hash : JSVal) : Call :=
  let _params := Daemon.hashParams hash
  Daemon._request self net (.str "getblockheaderbyhash") .undefined .undefined

/-- The method `getblockheaderbyheight(height)`. -/
def Daemon.getblockheaderbyheight (self : Client) (net : Net) (height : JSVal) : Call :=
  Daemon._request self net (.str "getblockheaderbyheight")
    (.obj [("height", height.or zero)]) .undefined

/-- The method `get_block_by_hash(hash)`, which sends `get_block`: it builds
its `params`, then makes the request with the method name alone. -/
def Daemon.get_block_by_hash (self : Client) (net : Net) (hash : JSVal) : Call :=
  let _params := Daemon.hashParams hash
  Daemon._request self net (.str "get_block") .undefined .undefined

/-- The method `get_block_by_height(height)`, which sends `get_block`. -/
def Daemon.get_block_by_height (self : Client) (net : Net) (height : JSVal) : Call :=
  Daemon._request self net (.str "get_block") (.obj [("height", height.or zero)]) .undefined

/-- The method `get_connections()`. -/
def Daemon.get_connections (self : Client) (net : Net) : Call :=
  Daemon._request self net (.str "get_connections") .undefined .undefined

/-- The method `get_info()`. -/
def Daemon.get_info (self : Client) (net : Net) : Call :=
  Daemon._request self net (.str "get_info") .undefined .undefined

/-- The method `get_bans()`. -/
def Daemon.get_bans (self : Client) (net : Net) : Call :=
  Daemon._request self net (.str "get_bans") .undefined .undefined

/-- The method `init()` of the daemon: it requests `get_info`; both handlers
are empty (`// Proceed`), so the promise resolves to `undefined` whether the
request succeeded or failed. -/
def Daemon.init (self : Client) (net : Net) : Call :=
  match Daemon._request self net (.str "get_info") .undefined .undefined with
  | .thrown e => .thrown e
  | .posted url options promise =>
    .posted url options
      (match promise with
       | .resolved _ => .resolved .undefined
       | .rejected _ => .resolved .undefined)

/-! ## Every method of a client -/

/-- A call of a wallet method, with its arguments in the order of the
source. -/
inductive WalletMethod where
  | init
  | create_wallet (filename password language : JSVal)
  | open_wallet (filename password : JSVal)
  | get_height
  | stop_wallet
  | get_balance (assetName accountIndex addressIndices : JSVal)
  | get_address (accountIndex addressIndices : JSVal)
  | create_account (tag : JSVal)
  | label_account (accountIndex label : JSVal)
  | get_account_tags
  | tag_accounts (tag accounts : JSVal)
  | untag_accounts (accounts : JSVal)
  | set_account_tag_description (tag description : JSVal)
  | create_address (accountIndex label : JSVal)
  | label_address (accountIndex addressIndices label : JSVal)
  | transfer (destinations : Destinations) (accountIndex subaddrIndices options : JSVal)
  | transfer_split (destinations : Destinations) (accountIndex subaddrIndices options : JSVal)
  | sweep_dust
  | sweep_all (address accountIndex subaddrIndices options : JSVal)
  | sweep_single (address keyImage accountIndex subaddrIndices options : JSVal)
  | onshore (destinations : Destinations) (accountIndex subaddrIndices options : JSVal)
  | offshore (destinations : Destinations) (accountIndex subaddrIndices options : JSVal)
  | offshore_transfer (destinations : Destinations) (accountIndex subaddrIndices options : JSVal)
  | offshore_sweep_all (address accountIndex subaddrIndices options : JSVal)
  | xusd_to_xasset (destinations : Destinations)
      (convertTo accountIndex subaddrIndices options : JSVal)
  | xasset_to_xusd (destinations : Destinations)
      (convertFrom accountIndex subaddrIndices options : JSVal)
  | xasset_transfer (destinations : Destinations)
      (assetType accountIndex subaddrIndices options : JSVal)
  | get_transfers (txIn txOut txPending txFailed txPool filterByHeight minHeight maxHeight
      accountIndex subaddrIndices options : JSVal)
  | get_transfer_by_txid (txid accountIndex : JSVal)
  | getPayments (pid types : JSVal)
  | getBulkPayments (pids minHeight types : JSVal)
  | incomingTransfers (type : JSVal)
  | queryKey (type : JSVal)
  | integratedAddress (pid : JSVal)
  | splitIntegrated (address : JSVal)
  | height
  | stopWallet
  | store

/-- What a call of a wallet method does. -/
def Wallet.call (self : Client) (net : Net) : WalletMethod → Call
  | .init => Wallet.init self net
  | .create_wallet f p l => Wallet.create_wallet self net f p l
  | .open_wallet f p => Wallet.open_wallet self net f p
  | .get_height => Wallet.get_height self net
  | .stop_wallet => Wallet.stop_wallet self net
  | .get_balance a i j => Wallet.get_balance self net a i j
  | .get_address i j => Wallet.get_address self net i j
  | .create_account t => Wallet.create_account self net t
  | .label_account i l => Wallet.label_account self net i l
  | .get_account_tags => Wallet.get_account_tags self net
  | .tag_accounts t a => Wallet.tag_accounts self net t a
  | .untag_accounts a => Wallet.untag_accounts self net a
  | .set_account_tag_description t d => Wallet.set_account_tag_description self net t d
  | .create_address i l => Wallet.create_address self net i l
  | .label_address i j l => Wallet.label_address self net i j l
  | .transfer d i j o => Wallet.transfer self net d i j o
  | .transfer_split d i j o => Wallet.transfer_split self net d i j o
  | .sweep_dust => Wallet.sweep_dust self net
  | .sweep_all a i j o => Wallet.sweep_all self net a i j o
  | .sweep_single a k i j o => Wallet.sweep_single self net a k i j o
  | .onshore d i j o => Wallet.onshore self net d i j o
  | .offshore d i j o => Wallet.offshore self net d i j o
  | .offshore_transfer d i j o => Wallet.offshore_transfer self net d i j o
  | .offshore_sweep_all a i j o => Wallet.offshore_sweep_all self net a i j o
  | .xusd_to_xasset d c i j o => Wallet.xusd_to_xasset self net d c i j o
  | .xasset_to_xusd d c i j o => Wallet.xasset_to_xusd self net d c i j o
  | .xasset_transfer d c i j o => Wallet.xasset_transfer self net d c i j o
  | .get_transfers a b c d e f g h i j o =>
    Wallet.get_transfers self net a b c d e f g h i j o
  | .get_transfer_by_txid t i => Wallet.get_transfer_by_txid self net t i
  | .getPayments p t => Wallet.getPayments self net p t
  | .getBulkPayments p m t => Wallet.getBulkPayments self net p m t
  | .incomingTransfers t => Wallet.incomingTransfers self net t
  | .queryKey t => Wallet.queryKey self net t
  | .integratedAddress p => Wallet.integratedAddress self net p
  | .splitIntegrated a => Wallet.splitIntegrated self net a
  | .height => Wallet.height self net
  | .stopWallet => Wallet.stopWallet self net
  | .store => Wallet.store self net

/-- A call of a daemon method, with its arguments in the order of the
source. -/
inductive DaemonMethod where
  | init
  | getblockcount
  | get_coinbase_tx_sum (height count : JSVal)
  | on_getblockhash (height : JSVal)
  | getlastblockheader
  | getblockheaderbyhash (hash : JSVal)
  | getblockheaderbyheight (height : JSVal)
  | get_block_by_hash (hash : JSVal)
  | get_block_by_height (height : JSVal)
  | get_connections
  | get_info
  | set_bans (bans : JSVal)
  | get_bans
  | get_transactions (txsHashes decodeAsJson prune : JSVal)

/-- What a call of a daemon method does. -/
def Daemon.call (self : Client) (net : Net) : DaemonMethod → Call
  | .init => Daemon.init self net
  | .getblockcount => Daemon.getblockcount self net
  | .get_coinbase_tx_sum h c => Daemon.get_coinbase_tx_sum self net h c
  | .on_getblockhash h => Daemon.on_getblockhash self net h
  | .getlastblockheader => Daemon.getlastblockheader self net
  | .getblockheaderbyhash h => Daemon.getblockheaderbyhash self net h
  | .getblockheaderbyheight h => Daemon.getblockheaderbyheight self net h
  | .get_block_by_hash h => Daemon.get_block_by_hash self net h
  | .get_block_by_height h => Daemon.get_block_by_height self net h
  | .get_connections => Daemon.get_connections self net
  | .get_info => Daemon.get_info self net
  | .set_bans b => Daemon.set_bans self net b
  | .get_bans => Daemon.get_bans self net
  | .get_transactions t d p => Daemon.get_transactions self net t d p

/-- A method call as a step of the client: the client after the call and
what the call did.  No method assigns to a field of `this` (only the
constructor does), so the client after the call is the client before it. -/
def Wallet.step (self : Client) (net : Net) (m : WalletMethod) : Client × Call :=
  (self, Wallet.call self net m)

/-- A method call as a step of the daemon client; as for the wallet, no
method assigns to a field of `this`. -/
def Daemon.step (self : Client) (net : Net) (m : DaemonMethod) : Client × Call :=
  (self, Daemon.call self net m)

/-! ## Failures of the transport and mutation of the arguments -/

/-- How the HTTP request ends, as `request.post` reports it: the decoded
body, or the error of a failed request. -/
inductive Response where
  | completed (body : JSVal)
  | failed (error : JSVal)

/-- The response as the promise chain uses it.  The `catch` handler is
`(error) => { throw new Error('Server is not reachable.'); }`: it receives
the error of a failed request and does not read it. -/
def Response.reply : Response → Reply
  | .completed body => .body body
  | .failed _ => .failure

/-- Is the argument an array (`Array.isArray(destinations)`)? -/
def Destinations.isArray : Destinations → Bool
  | .shared _ _ => true
  | .value v => v.isArray

/-- The objects and the slots of an argument that is an array; an array given
as a value has one object for each slot. -/
def Destinations.array : Destinations → Option (List JSVal × List Nat)
  | .shared objects slots => some (objects, slots)
  | .value (.arr items) => some (items, List.range items.length)
  | .value _ => none

/-- The argument as a value: an array is read through its slots. -/
def Destinations.read : Destinations → JSVal
  | .shared objects slots => .arr (readSlots objects slots)
  | .value v => v

/-- The caller's `destinations` argument after the opening of a
destination-taking method: the method writes the converted amounts into the
caller's own objects, the objects of an array or the single object. -/
def mutateDestinations : Destinations → Except JSError Destinations
  | .shared objects slots =>
    (convertAll objects slots).map fun converted => .shared converted slots
  | .value (.arr items) =>
    (convertAll items (List.range items.length)).map fun converted =>
      .shared converted (List.range items.length)
  | .value single => (convertAmount single).map .value

/-! ## What a call sends -/

/-- The request body of a call that posted, `options.json`. -/
def Call.sentBody : Call → Option JSVal
  | .posted _ options _ => options.json
  | .thrown _ => none

/-- The `params` of the request body of a call. -/
def Call.sentParams (c : Call) : Option JSVal :=
  match c.sentBody with
  | some (.obj fields) => JSVal.lookup "params" fields
  | _ => none

/-- The field `key` of the `params` a call sends. -/
def Call.sentField (c : Call) (key : String) : Option JSVal :=
  match c.sentParams with
  | some (.obj fields) => JSVal.lookup key fields
  | _ => none

/-- The promise of a call, when the call posted a request. -/
def Call.promise : Call → Option Settled
  | .posted _ _ promise => some promise
  | .thrown _ => none

/-- Every posted request of the call is rejected with the unreachable-server
error. -/
def Call.rejectsUnreachable (c : Call) : Prop :=
  ∀ p, c.promise = some p → p = .rejected (.error "Server is not reachable.")

/-- Is the number an integer or an infinity (not `NaN`, no fraction)? -/
def JSNum.isWhole : JSNum → Bool
  | .nan => false
  | .inf _ => true
  | .fin _ _ k => k == 0

/-- The calls of the eight destination-taking methods and of the three sweep
methods with the same options: the transfer family. -/
def Wallet.transferFamily (self : Client) (net : Net) (destinations : Destinations)
    (address keyImage assetType accountIndex subaddrIndices options : JSVal) : List Call :=
  [Wallet.transfer self net destinations accountIndex subaddrIndices options,
   Wallet.transfer_split self net destinations accountIndex subaddrIndices options,
   Wallet.onshore self net destinations accountIndex subaddrIndices options,
   Wallet.offshore self net destinations accountIndex subaddrIndices options,
   Wallet.offshore_transfer self net destinations accountIndex subaddrIndices options,
   Wallet.xusd_to_xasset self net destinations assetType accountIndex subaddrIndices options,
   Wallet.xasset_to_xusd self net destinations assetType accountIndex subaddrIndices options,
   Wallet.xasset_transfer self net destinations assetType accountIndex subaddrIndices options,
   Wallet.sweep_all self net address accountIndex subaddrIndices options,
   Wallet.sweep_single self net address keyImage accountIndex subaddrIndices options,
   Wallet.offshore_sweep_all self net address accountIndex subaddrIndices options]

/-! ## Well-formed arguments -/

/-- A primitive value: not an array and not a record. -/
def JSVal.isPrimitive : JSVal → Bool
  | .arr _ => false
  | .obj _ => false
  | _ => true

/-- An options bag: omitted, or a record of primitive values. -/
def isOptionsBag : JSVal → Bool
  | .undefined => true
  | .obj fields => fields.all fun f => f.2.isPrimitive
  | _ => false

/-- A destination: a record whose `amount`, when present, is a primitive
value (a number or a decimal string in the documented use). -/
def isDestination : JSVal → Bool
  | .obj fields => ((JSVal.lookup "amount" fields).getD .undefined).isPrimitive
  | _ => false

/-- A destinations argument: an array whose slots all refer to destinations,
or a single destination. -/
def isDestinations : Destinations → Bool
  | .shared objects slots => slots.all fun slot => isDestination (objects.getD slot .undefined)
  | .value (.arr items) => items.all isDestination
  | .value single => isDestination single

/-- How one destination leaves the conversion loop: the same record with its
`amount` replaced by the converted amount. -/
def Converted (d d' : JSVal) : Prop :=
  ∃ fields c, d = .obj fields ∧
    convert ((JSVal.lookup "amount" fields).getD .undefined) = .ok c ∧
    d' = .obj (JSVal.assign "amount" (.num c) fields)

/-- The text of a decimal amount from its digits: the integer digits `ip`,
then a point and the fraction digits `fp` when there are any. -/
def decimalChars (ip fp : List Nat) : List Char :=
  ip.map digitChar ++ (if fp = [] then [] else '.' :: fp.map digitChar)

/-- A character of a plain decimal text: a digit or the point. -/
def isDecimalChar (c : Char) : Bool := (digitVal c).isSome || c == '.'

/-- The client with the default settings, `new Wallet()`. -/
def defaultClient : Client :=
  Client.create .undefined .undefined .undefined .undefined .undefined

/-- The URL of the default client. -/
def defaultUrl : String := "http://127.0.0.1:18082/json_rpc"

/-! # Theorems

## Basic facts -/

theorem defaultClient_url : defaultClient.url (.str "json_rpc") = .ok defaultUrl := by
  rfl

theorem dflt_truthy (p : JSVal) : (dflt p (.str "")).truthy = p.truthy := by
  cases p <;> rfl

theorem dflt_of_truthy (p : JSVal) (h : p.truthy = true) : dflt p (.str "") = p := by
  cases p <;> first | rfl | simp [JSVal.truthy] at h

theorem assign_params_envelope (m p : JSVal) :
    JSVal.assign "params" p (envelope m) = envelope m ++ [("params", p)] := by
  simp [envelope, JSVal.assign]

theorem wallet_request_posted (self : Client) (net : Net) (method params : JSVal)
    (url : String) (hurl : self.url (.str "json_rpc") = .ok url) :
    Wallet._request self net method params =
      .posted url (Wallet.options self method params)
        (settle (net url (Wallet.options self method params))) := by
  simp [Wallet._request, hurl]

/-! ## Responses and request bodies -/

theorem settle_body (b : JSVal) (hu : b ≠ .undefined) (hn : b ≠ .null)
    (hs : ∀ fields, b = .obj fields → JSVal.hasKey "hasOwnProperty" fields = false) :
    settle (.body b) = .resolved
      (match b with
       | .obj fields => (JSVal.lookup "result" fields).getD b
       | _ => b) := by
  cases b with
  | undefined => exact absurd rfl hu
  | null => exact absurd rfl hn
  | obj fields =>
    have h := hs fields rfl
    cases hr : JSVal.lookup "result" fields <;>
      simp [settle, unwrap, hasOwnResult, h, hr, bind, Except.bind, JSVal.get] <;>
      simp [JSVal.hasKey, hr]
  | _ => rfl

theorem daemon_request_posted (self : Client) (net : Net) (method params iface : JSVal)
    (o : Options) (url : String)
    (ho : Daemon.options self method params iface = .ok o)
    (hurl : self.url (dflt iface (.str "json_rpc")) = .ok url) :
    Daemon._request self net method params iface = .posted url o (settle (net url o)) := by
  simp [Daemon._request, ho, hurl]

theorem daemon_options_json_rpc (self : Client) (method params iface : JSVal)
    (hi : iface = .undefined ∨ iface = .str "json_rpc") :
    Daemon.options self method params iface = .ok (Wallet.options self method params) := by
  have hd : dflt iface (.str "json_rpc") = .str "json_rpc" := by
    rcases hi with rfl | rfl <;> rfl
  unfold Daemon.options Wallet.options
  rw [hd]
  generalize dflt params (.str "") = q
  by_cases hp : q.truthy = true <;> simp [hp, bind, Except.bind]

theorem wallet_options_json (self : Client) (m p : JSVal) :
    (Wallet.options self m p).json =
      some (.obj (envelope m ++ if p.truthy then [("params", p)] else [])) := by
  unfold Wallet.options
  simp only [dflt_truthy]
  by_cases hp : p.truthy = true
  · simp [hp, dflt_of_truthy p hp, assign_params_envelope]
  · simp [hp]

/-- C1 (amended): a response body that is not `null` or `undefined` and has no
own `hasOwnProperty` member resolves the call, of the wallet and of the
daemon: to the value of its own `result` key when it has one, to the whole
body otherwise. -/
theorem response_unwrapping (self : Client) (net : Net) (method params iface : JSVal)
    (url : String) (b : JSVal) (hu : b ≠ .undefined) (hn : b ≠ .null)
    (hs : ∀ fields, b = .obj fields → JSVal.hasKey "hasOwnProperty" fields = false) :
    (self.url (.str "json_rpc") = .ok url →
      net url (Wallet.options self method params) = .body b →
      Wallet._request self net method params =
        .posted url (Wallet.options self method params)
          (.resolved (match b with
            | .obj fields => (JSVal.lookup "result" fields).getD b
            | _ => b))) ∧
    (∀ o, Daemon.options self method params iface = .ok o →
      self.url (dflt iface (.str "json_rpc")) = .ok url →
      net url o = .body b →
      Daemon._request self net method params iface =
        .posted url o
          (.resolved (match b with
            | .obj fields => (JSVal.lookup "result" fields).getD b
            | _ => b))) := by
  constructor
  · intro hurl hnet
    rw [wallet_request_posted self net method params url hurl, hnet, settle_body b hu hn hs]
  · intro o ho hurl hnet
    rw [daemon_request_posted self net method params iface o url ho hurl, hnet,
      settle_body b hu hn hs]

/-- C1 (witness): with the default wallet and daemon, a body with a `result`
resolves to that result, and a body carrying only an `error` object resolves
to the whole body. -/
theorem response_unwrapping_witness :
    Wallet._request defaultClient
        (fun _ _ => .body (.obj [("error", .obj [("code", .num (.fin true 21 0))])]))
        (.str "create_wallet") .undefined =
      .posted defaultUrl (Wallet.options defaultClient (.str "create_wallet") .undefined)
        (.resolved (.obj [("error", .obj [("code", .num (.fin true 21 0))])])) ∧
    Daemon._request defaultClient
        (fun _ _ => .body (.obj [("id", .str "0"), ("result", .obj [("count", .num (.ofNat 7))])]))
        (.str "getblockcount") .undefined .undefined =
      .posted defaultUrl (Wallet.options defaultClient (.str "getblockcount") .undefined)
        (.resolved (.obj [("count", .num (.ofNat 7))])) :=
  ⟨(response_unwrapping defaultClient _ (.str "create_wallet") .undefined .undefined
      defaultUrl (.obj [("error", .obj [("code", .num (.fin true 21 0))])])
      (by simp) (by simp) (by intro fields h; cases h; rfl)).1 defaultClient_url rfl,
   (response_unwrapping defaultClient _ (.str "getblockcount") .undefined .undefined
      defaultUrl (.obj [("id", .str "0"), ("result", .obj [("count", .num (.ofNat 7))])])
      (by simp) (by simp) (by intro fields h; cases h; rfl)).2 _
      (daemon_options_json_rpc _ _ _ _ (Or.inl rfl)) defaultClient_url rfl⟩

/-- C1 (counterexample): a `null` body, and a body with an own
`hasOwnProperty` member, make the `then` handler throw; the call is rejected
with the unreachable-server error instead of resolving to the body. -/
theorem response_unwrapping_counterexample :
    Wallet._request defaultClient (fun _ _ => .body .null) (.str "get_height") .undefined =
      .posted defaultUrl (Wallet.options defaultClient (.str "get_height") .undefined)
        (.rejected (.error "Server is not reachable.")) ∧
    Wallet._request defaultClient
        (fun _ _ => .body (.obj [("hasOwnProperty", .bool true), ("result", .str "ok")]))
        (.str "get_height") .undefined =
      .posted defaultUrl (Wallet.options defaultClient (.str "get_height") .undefined)
        (.rejected (.error "Server is not reachable.")) ∧
    Settled.rejected (.error "Server is not reachable.") ≠ Settled.resolved .null :=
  ⟨rfl, rfl, by simp⟩

/-- C2: the request body of the wallet, and of the daemon on the `json_rpc`
interface (named or by default), is the envelope `jsonrpc: "2.0"`, `id: "0"`,
`method: m`, followed by `params: p` exactly when `p` is truthy; omitted,
empty-string and other falsy params add no key. -/
theorem request_envelope (self : Client) (m : String) (p : JSVal) :
    (Wallet.options self (.str m) p).json =
      some (.obj ([("jsonrpc", .str "2.0"), ("id", .str "0"), ("method", .str m)] ++
        if p.truthy then [("params", p)] else [])) ∧
    (∃ o, Daemon.options self (.str m) p .undefined = .ok o ∧
      o.json = some (.obj ([("jsonrpc", .str "2.0"), ("id", .str "0"), ("method", .str m)] ++
        if p.truthy then [("params", p)] else []))) ∧
    (∃ o, Daemon.options self (.str m) p (.str "json_rpc") = .ok o ∧
      o.json = some (.obj ([("jsonrpc", .str "2.0"), ("id", .str "0"), ("method", .str m)] ++
        if p.truthy then [("params", p)] else []))) ∧
    (Wallet.options self (.str m) .undefined).json =
      some (.obj [("jsonrpc", .str "2.0"), ("id", .str "0"), ("method", .str m)]) ∧
    (Wallet.options self (.str m) (.str "")).json =
      some (.obj [("jsonrpc", .str "2.0"), ("id", .str "0"), ("method", .str m)]) :=
  ⟨wallet_options_json self _ p,
   ⟨_, daemon_options_json_rpc self _ p _ (Or.inl rfl), wallet_options_json self _ p⟩,
   ⟨_, daemon_options_json_rpc self _ p _ (Or.inr rfl), wallet_options_json self _ p⟩,
   rfl, rfl⟩

/-! ## Methods that drop or lose their parameters -/

theorem sentParams_wallet_request (self : Client) (net : Net) (method params : JSVal) (url : String)
    (hurl : self.url (.str "json_rpc") = .ok url) (hp : params.truthy = true) :
    (Wallet._request self net method params).sentParams = some params := by
  rw [wallet_request_posted self net method params url hurl]
  simp [Call.sentParams, Call.sentBody, wallet_options_json, hp, envelope, JSVal.lookup]

theorem optionFields_undefined : optionFields .undefined = .error .typeError := rfl

/-- C7 (the code at every input): `set_bans` builds `params.bans`, a string
wrapped into a one-item list and a list kept as it is, but the request it
makes carries no `params` at all. -/
theorem set_bans_sends_no_params (self : Client) (net : Net) (bans : JSVal) (s : String)
    (l : List JSVal) :
    Daemon.setBansParams (.str s) = [("bans", .arr [.str s])] ∧
    Daemon.setBansParams (.arr l) = [("bans", .arr l)] ∧
    (Daemon.set_bans self net bans).sentParams = none ∧
    Daemon.set_bans defaultClient (fun _ _ => .failure) (.str "1.2.3.4") =
      .posted defaultUrl
        { forever := true, timeout := .num (.ofNat 5000), agentKeepAlive := true,
          agentMaxSockets := 1,
          json := some (.obj [("jsonrpc", .str "2.0"), ("id", .str "0"),
            ("method", .str "set_bans")]),
          auth := none }
        (.rejected (.error "Server is not reachable.")) := by
  refine ⟨rfl, rfl, ?_, rfl⟩
  simp only [Daemon.set_bans, Daemon._request,
    daemon_options_json_rpc self (.str "set_bans") .undefined .undefined (Or.inl rfl)]
  cases self.url (dflt .undefined (.str "json_rpc")) with
  | error e => rfl
  | ok url => rfl

/-- C8 (the code at every input): `get_transactions` throws a `TypeError`
before any request is made, because it stores its parameters into a request
body that the flat interface never creates. -/
theorem get_transactions_throws (self : Client) (net : Net)
    (txsHashes decodeAsJson prune : JSVal) :
    Daemon.get_transactions self net txsHashes decodeAsJson prune = .thrown .typeError := by
  rfl

/-- C9 (the code at every input): with the options omitted, `sweep_all`,
`sweep_single` and `offshore_sweep_all` throw a `TypeError` before any request
is made; with an empty options bag they send the documented defaults. -/
theorem sweep_without_options_throws (self : Client) (net : Net) (a k : JSVal) :
    Wallet.sweep_all self net a .undefined .undefined .undefined = .thrown .typeError ∧
    Wallet.sweep_single self net a k .undefined .undefined .undefined = .thrown .typeError ∧
    Wallet.offshore_sweep_all self net a .undefined .undefined .undefined =
      .thrown .typeError ∧
    Wallet.sweepParams a .undefined .undefined (.obj []) =
      .ok [("address", a), ("account_index", .num (.ofNat 0)),
        ("subaddr_indices", .num (.ofNat 0)), ("priority", .num (.ofNat 0)),
        ("mixin", .num (.ofNat 10)), ("ring_size", .num (.ofNat 11)),
        ("unlock_time", .num (.ofNat 0)), ("do_not_relay", .bool false),
        ("get_tx_hex", .bool false), ("get_tx_keys", .bool false),
        ("get_tx_metadata", .bool false)] :=
  ⟨rfl, rfl, rfl, rfl⟩

/-! ## Well-formed arguments never throw -/

theorem toStr_primitive (v : JSVal) (h : v.isPrimitive = true) : ∃ s, v.toStr = .ok s := by
  cases v <;> first | exact ⟨_, rfl⟩ | simp [JSVal.isPrimitive] at h

theorem toNumber_primitive (v : JSVal) (h : v.isPrimitive = true) : ∃ x, v.toNumber = .ok x := by
  cases v <;> first | exact ⟨_, rfl⟩ | simp [JSVal.isPrimitive] at h

theorem convert_primitive (v : JSVal) (h : v.isPrimitive = true) : ∃ c, convert v = .ok c := by
  obtain ⟨x, hx⟩ := toNumber_primitive v h
  exact ⟨_, by simp [convert, hx, Except.map]; rfl⟩

theorem parseInt_primitive (v : JSVal) (h : v.isPrimitive = true) : ∃ x, v.parseInt = .ok x := by
  obtain ⟨s, hs⟩ := toStr_primitive v h
  exact ⟨_, by rw [JSVal.parseInt, hs]; rfl⟩

theorem lookup_primitive (key : String) (fields : List (String × JSVal))
    (h : (fields.all fun f => f.2.isPrimitive) = true) :
    ((JSVal.lookup key fields).getD .undefined).isPrimitive = true := by
  induction fields with
  | nil => rfl
  | cons f rest ih =>
    obtain ⟨k, v⟩ := f
    simp only [List.all_cons, Bool.and_eq_true] at h
    by_cases hk : k = key
    · simp [JSVal.lookup, hk, h.1]
    · simp [JSVal.lookup, hk, ih h.2]

theorem bag_cases (options : JSVal) (h : isOptionsBag options = true) :
    ∃ fields, bag options = .obj fields ∧ (fields.all fun f => f.2.isPrimitive) = true := by
  cases options <;> first
    | exact ⟨[], rfl, rfl⟩
    | exact ⟨_, rfl, h⟩
    | simp [isOptionsBag] at h

theorem intOption_obj (fields : List (String × JSVal)) (key : String) (d : Nat)
    (h : (fields.all fun f => f.2.isPrimitive) = true) :
    ∃ v, intOption (.obj fields) key d = .ok v := by
  obtain ⟨x, hx⟩ := parseInt_primitive _ (lookup_primitive key fields h)
  exact ⟨_, by simp [intOption, JSVal.get, bind, Except.bind, hx]; rfl⟩

theorem flagOption_obj (fields : List (String × JSVal)) (key : String) :
    ∃ v, flagOption (.obj fields) key = .ok v :=
  ⟨_, rfl⟩

theorem optionFields_bag (options : JSVal) (h : isOptionsBag options = true) :
    ∃ opts, optionFields (bag options) = .ok opts := by
  obtain ⟨fields, hb, hp⟩ := bag_cases options h
  obtain ⟨v1, h1⟩ := intOption_obj fields "priority" 0 hp
  obtain ⟨v2, h2⟩ := intOption_obj fields "mixin" 10 hp
  obtain ⟨v3, h3⟩ := intOption_obj fields "ring_size" 11 hp
  obtain ⟨v4, h4⟩ := intOption_obj fields "unlockTime" 0 hp
  obtain ⟨v5, h5⟩ := flagOption_obj fields "do_not_relay"
  obtain ⟨v6, h6⟩ := flagOption_obj fields "get_tx_hex"
  obtain ⟨v7, h7⟩ := flagOption_obj fields "get_tx_key"
  obtain ⟨v8, h8⟩ := flagOption_obj fields "get_tx_metadata"
  exact ⟨[("priority", v1), ("mixin", v2), ("ring_size", v3), ("unlock_time", v4),
    ("do_not_relay", v5), ("get_tx_hex", v6), ("get_tx_keys", v7), ("get_tx_metadata", v8)],
    by simp only [optionFields, hb, h1, h2, h3, h4, h5, h6, h7, h8, bind, Except.bind]⟩

theorem newAlgorithm_bag (options : JSVal) (h : isOptionsBag options = true) :
    ∃ alg, newAlgorithm (bag options) = .ok alg := by
  obtain ⟨fields, hb, _⟩ := bag_cases options h
  exact ⟨_, by rw [hb]; rfl⟩

/-! ## Destinations -/

theorem lookup_assign_same (key : String) (v : JSVal) (fields : List (String × JSVal)) :
    JSVal.lookup key (JSVal.assign key v fields) = some v := by
  induction fields with
  | nil => simp [JSVal.assign, JSVal.lookup]
  | cons f rest ih =>
    obtain ⟨k, w⟩ := f
    by_cases hk : k = key <;> simp [JSVal.assign, JSVal.lookup, hk, ih]

theorem lookup_assign_other (key other : String) (v : JSVal) (fields : List (String × JSVal))
    (h : other ≠ key) :
    JSVal.lookup other (JSVal.assign key v fields) = JSVal.lookup other fields := by
  induction fields with
  | nil => simp [JSVal.assign, JSVal.lookup, Ne.symm h]
  | cons f rest ih =>
    obtain ⟨k, w⟩ := f
    by_cases hk : k = key
    · subst hk
      simp [JSVal.assign, JSVal.lookup, Ne.symm h]
    · by_cases ho : k = other
      · subst ho
        simp [JSVal.assign, JSVal.lookup, hk]
      · simp [JSVal.assign, JSVal.lookup, hk, ho, ih]

theorem convertAmount_obj (fields : List (String × JSVal)) (c : JSNum)
    (h : convert ((JSVal.lookup "amount" fields).getD .undefined) = .ok c) :
    convertAmount (.obj fields) = .ok (.obj (JSVal.assign "amount" (.num c) fields)) := by
  simp [convertAmount, JSVal.get, JSVal.set, bind, Except.bind, h]

theorem convertAmount_destination (d : JSVal) (h : isDestination d = true) :
    ∃ fields c, d = .obj fields ∧
      convert ((JSVal.lookup "amount" fields).getD .undefined) = .ok c ∧
      convertAmount d = .ok (.obj (JSVal.assign "amount" (.num c) fields)) := by
  cases d with
  | obj fields =>
    obtain ⟨c, hc⟩ := convert_primitive _ h
    exact ⟨fields, c, rfl, hc, convertAmount_obj fields c hc⟩
  | _ => simp [isDestination] at h

theorem converted_isDestination (d d' : JSVal) (h : Converted d d') :
    isDestination d' = true := by
  obtain ⟨fields, c, _, _, rfl⟩ := h
  simp [isDestination, lookup_assign_same, JSVal.isPrimitive]

theorem getD_set (objects : List JSVal) (slot s : Nat) (d : JSVal) :
    (objects.set slot d).getD s .undefined =
      if slot = s ∧ slot < objects.length then d else objects.getD s .undefined := by
  simp only [List.getD_eq_getElem?_getD, List.getElem?_set]
  by_cases h : slot = s
  · subst h
    by_cases hl : slot < objects.length
    · simp [hl]
    · simp [hl, List.getElem?_eq_none (Nat.le_of_not_lt hl)]
  · simp [h]

theorem convertSlot_destination (objects : List JSVal) (slot : Nat)
    (h : isDestination (objects.getD slot .undefined) = true) :
    ∃ d', Converted (objects.getD slot .undefined) d' ∧
      convertSlot objects slot = .ok (objects.set slot d') ∧ slot < objects.length := by
  obtain ⟨fields, c, hd, hc, hconv⟩ := convertAmount_destination _ h
  refine ⟨_, ⟨fields, c, hd, hc, rfl⟩, ?_, ?_⟩
  · simp only [convertSlot, hconv, bind, Except.bind]
  · by_contra hl
    rw [List.getD_eq_getElem?_getD, List.getElem?_eq_none (by omega)] at h
    simp [isDestination] at h

theorem convertAll_ok (slots : List Nat) (objects : List JSVal)
    (h : ∀ s ∈ slots, isDestination (objects.getD s .undefined) = true) :
    ∃ out, convertAll objects slots = .ok out ∧ out.length = objects.length := by
  induction slots generalizing objects with
  | nil => exact ⟨objects, rfl, rfl⟩
  | cons slot rest ih =>
    obtain ⟨d', hd', hslot, _⟩ := convertSlot_destination objects slot
      (h slot (List.mem_cons_self _ _))
    obtain ⟨out, hout, hlen⟩ := ih (objects.set slot d') (fun s hs => by
      rw [getD_set]
      split
      · exact converted_isDestination _ _ hd'
      · exact h s (List.mem_cons_of_mem _ hs))
    refine ⟨out, ?_, by simpa using hlen⟩
    simp [convertAll, hslot, hout, bind, Except.bind]

theorem convertAll_nodup (slots : List Nat) (objects : List JSVal)
    (hn : slots.Nodup)
    (h : ∀ s ∈ slots, isDestination (objects.getD s .undefined) = true) :
    ∃ out, convertAll objects slots = .ok out ∧
      (∀ s ∈ slots, Converted (objects.getD s .undefined) (out.getD s .undefined)) ∧
      (∀ s, s ∉ slots → out.getD s .undefined = objects.getD s .undefined) := by
  induction slots generalizing objects with
  | nil => exact ⟨objects, rfl, by simp, by simp⟩
  | cons slot rest ih =>
    obtain ⟨hnot, hrest⟩ := List.nodup_cons.mp hn
    obtain ⟨d', hd', hslot, hlt⟩ := convertSlot_destination objects slot
      (h slot (List.mem_cons_self _ _))
    have hother : ∀ s ∈ rest, (objects.set slot d').getD s .undefined =
        objects.getD s .undefined := by
      intro s hs
      rw [getD_set, if_neg]
      rintro ⟨rfl, _⟩
      exact hnot hs
    obtain ⟨out, hout, hconv, hkeep⟩ := ih (objects.set slot d') hrest (fun s hs => by
      rw [hother s hs]
      exact h s (List.mem_cons_of_mem _ hs))
    refine ⟨out, ?_, ?_, ?_⟩
    · simp [convertAll, hslot, hout, bind, Except.bind]
    · intro s hs
      rcases List.mem_cons.mp hs with rfl | hs
      · rw [hkeep s hnot, getD_set, if_pos ⟨rfl, hlt⟩]
        exact hd'
      · rw [← hother s hs]
        exact hconv s hs
    · intro s hs
      have h1 : s ≠ slot := fun e => hs (e ▸ List.mem_cons_self _ _)
      have h2 : s ∉ rest := fun e => hs (List.mem_cons_of_mem _ e)
      rw [hkeep s h2, getD_set, if_neg]
      rintro ⟨rfl, _⟩
      exact h1 rfl

theorem readSlots_getElem? (objects : List JSVal) (slots : List Nat) (i : Nat) :
    (readSlots objects slots)[i]? = slots[i]?.map fun s => objects.getD s .undefined := by
  simp [readSlots]

theorem sentParams_send (self : Client) (net : Net) (method : String)
    (fields : List (String × JSVal)) (url : String)
    (hurl : self.url (.str "json_rpc") = .ok url) :
    (Wallet.send self net method (.ok fields)).sentParams = some (.obj fields) :=
  sentParams_wallet_request self net _ _ url hurl rfl

theorem sentField_send (self : Client) (net : Net) (method : String)
    (fields : List (String × JSVal)) (url : String) (key : String)
    (hurl : self.url (.str "json_rpc") = .ok url) :
    (Wallet.send self net method (.ok fields)).sentField key = JSVal.lookup key fields := by
  simp [Call.sentField, sentParams_send self net method fields url hurl]

theorem converted_fields (d d' : JSVal) (h : Converted d d') :
    ∃ x c, d.get "amount" = .ok x ∧ convert x = .ok c ∧
      d'.get "amount" = .ok (.num c) ∧ d'.get "address" = d.get "address" := by
  obtain ⟨fields, c, rfl, hc, rfl⟩ := h
  refine ⟨_, c, rfl, hc, ?_, ?_⟩
  · simp [JSVal.get, lookup_assign_same]
  · simp [JSVal.get, lookup_assign_other "amount" "address" _ fields (by decide)]

theorem normalize_shared (objects : List JSVal) (slots : List Nat) (out : List JSVal)
    (h : convertAll objects slots = .ok out) :
    normalizeDestinations (.shared objects slots) = .ok (.arr (readSlots out slots)) := by
  simp [normalizeDestinations, normalizeArray, h, Except.map]

theorem normalize_array (items : List JSVal) :
    normalizeDestinations (.value (.arr items)) =
      normalizeDestinations (.shared items (List.range items.length)) :=
  rfl

theorem normalize_of_array (destinations : Destinations) (objects : List JSVal)
    (slots : List Nat) (h : destinations.array = some (objects, slots)) :
    normalizeDestinations destinations = normalizeDestinations (.shared objects slots) := by
  cases destinations with
  | shared o s =>
    simp only [Destinations.array, Option.some.injEq, Prod.mk.injEq] at h
    rw [h.1, h.2]
  | value v =>
    cases v with
    | arr items =>
      simp only [Destinations.array, Option.some.injEq, Prod.mk.injEq] at h
      rw [← h.1, ← h.2]
      rfl
    | _ => simp [Destinations.array] at h

theorem normalize_single (fields : List (String × JSVal)) (c : JSNum)
    (h : convert ((JSVal.lookup "amount" fields).getD .undefined) = .ok c) :
    normalizeDestinations (.value (.obj fields)) =
      .ok (.arr [.obj (JSVal.assign "amount" (.num c) fields)]) := by
  simp [normalizeDestinations, convertAmount_obj fields c h, Except.map]

theorem transferParams_ok (destinations : Destinations) (dests ai si options : JSVal)
    (opts : List (String × JSVal))
    (hn : normalizeDestinations destinations = .ok dests)
    (hopts : optionFields (bag options) = .ok opts) :
    Wallet.transferParams destinations ai si options =
      .ok ([("destinations", dests), ("account_index", dflt ai zero),
        ("subaddr_indices", dflt si zero)] ++ opts) := by
  simp only [Wallet.transferParams, hn, hopts, bind, Except.bind]

theorem splitParams_ok (destinations : Destinations) (dests ai si options : JSVal)
    (opts alg : List (String × JSVal))
    (hn : normalizeDestinations destinations = .ok dests)
    (hopts : optionFields (bag options) = .ok opts)
    (halg : newAlgorithm (bag options) = .ok alg) :
    Wallet.splitParams destinations ai si options =
      .ok ([("destinations", dests), ("account_index", dflt ai zero),
        ("subaddr_indices", dflt si zero)] ++ opts ++ alg) := by
  simp only [Wallet.splitParams, hn, hopts, halg, bind, Except.bind]

theorem assetParams_ok (destinations : Destinations)
    (dests assetType ai si options : JSVal)
    (opts alg : List (String × JSVal))
    (hn : normalizeDestinations destinations = .ok dests)
    (hopts : optionFields (bag options) = .ok opts)
    (halg : newAlgorithm (bag options) = .ok alg) :
    Wallet.assetParams destinations assetType ai si options =
      .ok ([("destinations", dests), ("asset_type", assetType),
        ("account_index", dflt ai zero), ("subaddr_indices", dflt si zero)] ++ opts ++ alg) := by
  simp only [Wallet.assetParams, hn, hopts, halg, bind, Except.bind]

theorem methods_destinations (self : Client) (net : Net) (destinations : Destinations)
    (dests assetType ai si options : JSVal) (url : String)
    (hn : normalizeDestinations destinations = .ok dests)
    (ho : isOptionsBag options = true)
    (hurl : self.url (.str "json_rpc") = .ok url) :
    (Wallet.transfer self net destinations ai si options).sentField "destinations" =
      some dests ∧
    (Wallet.transfer_split self net destinations ai si options).sentField "destinations" =
      some dests ∧
    (Wallet.onshore self net destinations ai si options).sentField "destinations" =
      some dests ∧
    (Wallet.offshore self net destinations ai si options).sentField "destinations" =
      some dests ∧
    (Wallet.offshore_transfer self net destinations ai si options).sentField "destinations" =
      some dests ∧
    (Wallet.xusd_to_xasset self net destinations assetType ai si options).sentField
      "destinations" = some dests ∧
    (Wallet.xasset_to_xusd self net destinations assetType ai si options).sentField
      "destinations" = some dests ∧
    (Wallet.xasset_transfer self net destinations assetType ai si options).sentField
      "destinations" = some dests := by
  obtain ⟨opts, hopts⟩ := optionFields_bag options ho
  obtain ⟨alg, halg⟩ := newAlgorithm_bag options ho
  simp [Wallet.transfer, Wallet.transfer_split, Wallet.onshore, Wallet.offshore,
    Wallet.offshore_transfer, Wallet.xusd_to_xasset, Wallet.xasset_to_xusd,
    Wallet.xasset_transfer, transferParams_ok _ _ ai si _ _ hn hopts,
    splitParams_ok _ _ ai si _ _ _ hn hopts halg,
    assetParams_ok _ _ assetType ai si _ _ _ hn hopts halg,
    sentField_send _ _ _ _ url _ hurl, JSVal.lookup]

theorem normalize_ok (destinations : Destinations)
    (h : isDestinations destinations = true) :
    ∃ dests, normalizeDestinations destinations = .ok dests := by
  cases destinations with
  | shared objects slots =>
    obtain ⟨out, hout, _⟩ := convertAll_ok slots objects (fun s hs => by
      simp only [isDestinations, List.all_eq_true] at h
      exact h s hs)
    exact ⟨_, normalize_shared objects slots out hout⟩
  | value v =>
    cases v with
    | arr items =>
      obtain ⟨out, hout, _⟩ := convertAll_ok (List.range items.length) items (fun s hs => by
        simp only [isDestinations, List.all_eq_true] at h
        have hlt : s < items.length := List.mem_range.mp hs
        rw [List.getD_eq_getElem?_getD, List.getElem?_eq_getElem hlt]
        exact h _ (List.getElem_mem _))
      exact ⟨_, (normalize_array items).trans (normalize_shared items _ out hout)⟩
    | obj fields =>
      obtain ⟨c, hc⟩ := convert_primitive _ h
      exact ⟨_, normalize_single fields c hc⟩
    | _ => simp [isDestinations, isDestination] at h

/-- C5: a single destination record passed in place of a list, with address
`a` and a primitive amount `x`, is sent by each of the eight
destination-taking methods as a list of exactly one record, whose address is
`a` and whose amount is `convert(x)`. -/
theorem single_destination_normalized (self : Client) (net : Net)
    (fields : List (String × JSVal)) (a x assetType ai si options : JSVal) (url : String)
    (ha : JSVal.lookup "address" fields = some a)
    (hx : JSVal.lookup "amount" fields = some x)
    (hp : x.isPrimitive = true)
    (ho : isOptionsBag options = true)
    (hurl : self.url (.str "json_rpc") = .ok url) :
    ∃ c d', convert x = .ok c ∧ d'.get "address" = .ok a ∧ d'.get "amount" = .ok (.num c) ∧
      (Wallet.transfer self net (.value (.obj fields)) ai si options).sentField
        "destinations" = some (.arr [d']) ∧
      (Wallet.transfer_split self net (.value (.obj fields)) ai si options).sentField
        "destinations" = some (.arr [d']) ∧
      (Wallet.onshore self net (.value (.obj fields)) ai si options).sentField
        "destinations" = some (.arr [d']) ∧
      (Wallet.offshore self net (.value (.obj fields)) ai si options).sentField
        "destinations" = some (.arr [d']) ∧
      (Wallet.offshore_transfer self net (.value (.obj fields)) ai si options).sentField
        "destinations" = some (.arr [d']) ∧
      (Wallet.xusd_to_xasset self net (.value (.obj fields)) assetType ai si options).sentField
        "destinations" = some (.arr [d']) ∧
      (Wallet.xasset_to_xusd self net (.value (.obj fields)) assetType ai si options).sentField
        "destinations" = some (.arr [d']) ∧
      (Wallet.xasset_transfer self net (.value (.obj fields)) assetType ai si options).sentField
        "destinations" = some (.arr [d']) := by
  obtain ⟨c, hc⟩ := convert_primitive x hp
  have hc' : convert ((JSVal.lookup "amount" fields).getD .undefined) = .ok c := by
    simpa [hx] using hc
  refine ⟨c, .obj (JSVal.assign "amount" (.num c) fields), hc, ?_, ?_,
    methods_destinations self net _ _ assetType ai si options url
      (normalize_single fields c hc') ho hurl⟩
  · simp [JSVal.get, lookup_assign_other "amount" "address" _ fields (by decide), ha]
  · simp [JSVal.get, lookup_assign_same]

/-- C5 (witness): the destination `{address: "hvx1", amount: "1.25"}` with the
default wallet. -/
theorem single_destination_normalized_witness :
    ∃ c d', convert (.str "1.25") = .ok c ∧ d'.get "address" = .ok (.str "hvx1") ∧
      d'.get "amount" = .ok (.num c) ∧
      (Wallet.transfer defaultClient (fun _ _ => .failure)
        (.value (.obj [("address", .str "hvx1"), ("amount", .str "1.25")]))
        .undefined .undefined .undefined).sentField "destinations" = some (.arr [d']) :=
  have h := single_destination_normalized defaultClient (fun _ _ => .failure)
    [("address", .str "hvx1"), ("amount", .str "1.25")] (.str "hvx1") (.str "1.25")
    (.str "XBTC") .undefined .undefined .undefined defaultUrl rfl rfl rfl rfl
    defaultClient_url
  let ⟨c, d', h1, h2, h3, h4, _⟩ := h
  ⟨c, d', h1, h2, h3, h4⟩

/-- C6 (amended): a list of destination records in which no object fills two
slots is sent by each of the eight destination-taking methods as a list of the
same length and order, whose `i`-th record keeps the `i`-th address and carries
as amount `convert` of the `i`-th input amount: converted once. -/
theorem destination_list_converted (self : Client) (net : Net) (destinations : Destinations)
    (objects : List JSVal) (slots : List Nat) (assetType ai si options : JSVal) (url : String)
    (ha : destinations.array = some (objects, slots))
    (hn : slots.Nodup)
    (hd : ∀ s ∈ slots, isDestination (objects.getD s .undefined) = true)
    (ho : isOptionsBag options = true)
    (hurl : self.url (.str "json_rpc") = .ok url) :
    ∃ out : List JSVal, out.length = (readSlots objects slots).length ∧
      (∀ (i : Nat) (d : JSVal), (readSlots objects slots)[i]? = some d →
        ∃ (d' : JSVal) (x : JSVal) (c : JSNum), out[i]? = some d' ∧
        d.get "amount" = .ok x ∧ convert x = .ok c ∧
        d'.get "amount" = .ok (.num c) ∧ d'.get "address" = d.get "address") ∧
      (Wallet.transfer self net destinations ai si options).sentField "destinations" =
        some (.arr out) ∧
      (Wallet.transfer_split self net destinations ai si options).sentField "destinations" =
        some (.arr out) ∧
      (Wallet.onshore self net destinations ai si options).sentField "destinations" =
        some (.arr out) ∧
      (Wallet.offshore self net destinations ai si options).sentField "destinations" =
        some (.arr out) ∧
      (Wallet.offshore_transfer self net destinations ai si options).sentField
        "destinations" = some (.arr out) ∧
      (Wallet.xusd_to_xasset self net destinations assetType ai si options).sentField
        "destinations" = some (.arr out) ∧
      (Wallet.xasset_to_xusd self net destinations assetType ai si options).sentField
        "destinations" = some (.arr out) ∧
      (Wallet.xasset_transfer self net destinations assetType ai si options).sentField
        "destinations" = some (.arr out) := by
  obtain ⟨out, hout, hconv, _⟩ := convertAll_nodup slots objects hn hd
  refine ⟨readSlots out slots, by simp [readSlots], ?_,
    methods_destinations self net _ _ assetType ai si options url
      ((normalize_of_array destinations objects slots ha).trans
        (normalize_shared objects slots out hout)) ho hurl⟩
  intro i d hi
  rw [readSlots_getElem?] at hi
  cases hs : slots[i]? with
  | none => simp [hs] at hi
  | some s =>
    simp only [hs, Option.map_some', Option.some.injEq] at hi
    subst hi
    obtain ⟨x, c, h1, h2, h3, h4⟩ :=
      converted_fields _ _ (hconv s (List.getElem?_mem hs))
    exact ⟨_, x, c, by simp [readSlots_getElem?, hs], h1, h2, h3, h4⟩

set_option maxRecDepth 100000 in
/-- C6 (witness): two destinations, each its own object, with the default
wallet; they are sent with the amounts `10^12` and `1.25 * 10^12`. -/
theorem destination_list_converted_witness :
    (∃ out : List JSVal, out.length = 2 ∧
      (Wallet.transfer defaultClient (fun _ _ => .failure)
        (.value (.arr [.obj [("address", .str "hvx1"), ("amount", .num (.ofNat 1))],
          .obj [("address", .str "hvx2"), ("amount", .str "1.25")]]))
        .undefined .undefined .undefined).sentField "destinations" = some (.arr out)) ∧
    (Wallet.transfer defaultClient (fun _ _ => .failure)
        (.value (.arr [.obj [("address", .str "hvx1"), ("amount", .num (.ofNat 1))],
          .obj [("address", .str "hvx2"), ("amount", .str "1.25")]]))
        .undefined .undefined .undefined).sentField "destinations" =
      some (.arr [.obj [("address", .str "hvx1"), ("amount", .num (.ofNat 1000000000000))],
        .obj [("address", .str "hvx2"), ("amount", .num (.ofNat 1250000000000))]]) :=
  have h := destination_list_converted defaultClient (fun _ _ => .failure)
    (.value (.arr [.obj [("address", .str "hvx1"), ("amount", .num (.ofNat 1))],
      .obj [("address", .str "hvx2"), ("amount", .str "1.25")]]))
    [.obj [("address", .str "hvx1"), ("amount", .num (.ofNat 1))],
      .obj [("address", .str "hvx2"), ("amount", .str "1.25")]] [0, 1]
    (.str "XBTC") .undefined .undefined .undefined defaultUrl rfl (by decide)
    (by intro s hs; simp at hs; rcases hs with rfl | rfl <;> rfl) rfl defaultClient_url
  let ⟨out, h1, _, h3, _⟩ := h
  ⟨⟨out, h1, h3⟩, by rfl⟩

set_option maxRecDepth 100000 in
/-- C6 (counterexample): the list `[d, d]` that holds one destination object
twice, with `d.amount = 1`.  The loop converts the amount of the object once
per slot, so both items are sent with the amount `convert(convert(1))`, the
number nearest to `10^24`, and not with `convert(1) = 10^12`. -/
theorem destination_list_counterexample :
    (Wallet.transfer defaultClient (fun _ _ => .failure)
        (.shared [.obj [("address", .str "hvx1"), ("amount", .num (.ofNat 1))]] [0, 0])
        .undefined .undefined .undefined).sentField "destinations" =
      some (.arr [.obj [("address", .str "hvx1"),
          ("amount", .num (JSNum.round false (10 ^ 24) 1))],
        .obj [("address", .str "hvx1"), ("amount", .num (JSNum.round false (10 ^ 24) 1))]]) ∧
    readSlots [.obj [("address", .str "hvx1"), ("amount", .num (.ofNat 1))]] [0, 0] =
      [.obj [("address", .str "hvx1"), ("amount", .num (.ofNat 1))],
        .obj [("address", .str "hvx1"), ("amount", .num (.ofNat 1))]] ∧
    convert (.num (.ofNat 1)) = .ok (.ofNat 1000000000000) ∧
    JSNum.round false (10 ^ 24) 1 ≠ .ofNat 1000000000000 := by
  refine ⟨by rfl, by rfl, by rfl, by decide⟩

/-- C10: for a destination or a list of destinations, `transfer` called with
the account index, the subaddress indices and the options omitted, or with an
empty options bag, sends the defaults `account_index 0`, `subaddr_indices 0`,
`priority 0`, `mixin 10`, `ring_size 11`, `unlock_time 0` and `false` for
`do_not_relay`, `get_tx_hex`, `get_tx_keys`, `get_tx_metadata`;
`transfer_split` adds `new_algorithm false`. -/
theorem transfer_defaults (self : Client) (net : Net) (destinations : Destinations)
    (options : JSVal) (url : String)
    (hd : isDestinations destinations = true)
    (hopt : options = .undefined ∨ options = .obj [])
    (hurl : self.url (.str "json_rpc") = .ok url) :
    ∃ dests, normalizeDestinations destinations = .ok dests ∧
      (Wallet.transfer self net destinations .undefined .undefined options).sentParams =
        some (.obj [("destinations", dests), ("account_index", .num (.ofNat 0)),
          ("subaddr_indices", .num (.ofNat 0)), ("priority", .num (.ofNat 0)),
          ("mixin", .num (.ofNat 10)), ("ring_size", .num (.ofNat 11)),
          ("unlock_time", .num (.ofNat 0)), ("do_not_relay", .bool false),
          ("get_tx_hex", .bool false), ("get_tx_keys", .bool false),
          ("get_tx_metadata", .bool false)]) ∧
      (Wallet.transfer_split self net destinations .undefined .undefined options).sentParams =
        some (.obj [("destinations", dests), ("account_index", .num (.ofNat 0)),
          ("subaddr_indices", .num (.ofNat 0)), ("priority", .num (.ofNat 0)),
          ("mixin", .num (.ofNat 10)), ("ring_size", .num (.ofNat 11)),
          ("unlock_time", .num (.ofNat 0)), ("do_not_relay", .bool false),
          ("get_tx_hex", .bool false), ("get_tx_keys", .bool false),
          ("get_tx_metadata", .bool false), ("new_algorithm", .bool false)]) := by
  obtain ⟨dests, hn⟩ := normalize_ok destinations hd
  have hb : bag options = .obj [] := by rcases hopt with rfl | rfl <;> rfl
  have hopts : optionFields (bag options) = .ok [("priority", .num (.ofNat 0)),
      ("mixin", .num (.ofNat 10)), ("ring_size", .num (.ofNat 11)),
      ("unlock_time", .num (.ofNat 0)), ("do_not_relay", .bool false),
      ("get_tx_hex", .bool false), ("get_tx_keys", .bool false),
      ("get_tx_metadata", .bool false)] := by rw [hb]; rfl
  have halg : newAlgorithm (bag options) = .ok [("new_algorithm", .bool false)] := by
    rw [hb]; rfl
  refine ⟨dests, hn, ?_, ?_⟩
  · rw [Wallet.transfer, transferParams_ok _ _ _ _ _ _ hn hopts,
      sentParams_send _ _ _ _ url hurl]
    rfl
  · rw [Wallet.transfer_split, splitParams_ok _ _ _ _ _ _ _ hn hopts halg,
      sentParams_send _ _ _ _ url hurl]
    rfl

/-- C10 (witness): one destination, options omitted, with the default
wallet. -/
theorem transfer_defaults_witness :
    ∃ dests, normalizeDestinations
        (.value (.obj [("address", .str "hvx1"), ("amount", .num (.ofNat 1))])) = .ok dests ∧
      (Wallet.transfer defaultClient (fun _ _ => .failure)
        (.value (.obj [("address", .str "hvx1"), ("amount", .num (.ofNat 1))]))
        .undefined .undefined .undefined).sentParams =
        some (.obj [("destinations", dests), ("account_index", .num (.ofNat 0)),
          ("subaddr_indices", .num (.ofNat 0)), ("priority", .num (.ofNat 0)),
          ("mixin", .num (.ofNat 10)), ("ring_size", .num (.ofNat 11)),
          ("unlock_time", .num (.ofNat 0)), ("do_not_relay", .bool false),
          ("get_tx_hex", .bool false), ("get_tx_keys", .bool false),
          ("get_tx_metadata", .bool false)]) :=
  have h := transfer_defaults defaultClient (fun _ _ => .failure)
    (.value (.obj [("address", .str "hvx1"), ("amount", .num (.ofNat 1))])) .undefined
    defaultUrl
    rfl (Or.inl rfl) defaultClient_url
  let ⟨dests, h1, h2, _⟩ := h
  ⟨dests, h1, h2⟩

/-! ## Rounding to binary64 -/

namespace JSNum

theorem bitLenAux_zero (f : Nat) : bitLenAux f 0 = 0 := by
  cases f <;> simp [bitLenAux]

theorem lt_two_pow_bitLenAux (f n : Nat) (h : n ≤ f) : n < 2 ^ bitLenAux f n := by
  induction f generalizing n with
  | zero =>
    have : n = 0 := by omega
    subst this
    simp [bitLenAux]
  | succ f ih =>
    by_cases h0 : n = 0
    · subst h0
      simp [bitLenAux]
    · have h2 := ih (n / 2) (by omega)
      simp only [bitLenAux, h0, if_false, pow_succ]
      omega

theorem two_pow_bitLenAux_le (f n : Nat) (h : n ≤ f) (hpos : 0 < n) :
    2 ^ bitLenAux f n ≤ 2 * n := by
  induction f generalizing n with
  | zero => omega
  | succ f ih =>
    have h0 : n ≠ 0 := by omega
    simp only [bitLenAux, h0, if_false, pow_succ]
    by_cases h1 : n / 2 = 0
    · rw [h1, bitLenAux_zero]
      omega
    · have h2 := ih (n / 2) (by omega) (by omega)
      omega

theorem lt_two_pow_bitLen (n : Nat) : n < 2 ^ bitLen n :=
  lt_two_pow_bitLenAux n n (le_refl n)

theorem two_pow_bitLen_le (n : Nat) (hpos : 0 < n) : 2 ^ bitLen n ≤ 2 * n :=
  two_pow_bitLenAux_le n n (le_refl n) hpos

theorem bitLen_le_of_lt (n j : Nat) (h : n < 2 ^ j) : bitLen n ≤ j := by
  by_cases h0 : n = 0
  · subst h0
    simp [bitLen, bitLenAux]
  · have h1 := two_pow_bitLen_le n (by omega)
    have h2 : 2 ^ bitLen n < 2 ^ (j + 1) := by
      rw [pow_succ]
      omega
    have := (Nat.pow_lt_pow_iff_right (by norm_num : 1 < 2)).1 h2
    omega

theorem bitLen_pos (n : Nat) (hpos : 0 < n) : 0 < bitLen n := by
  have h := lt_two_pow_bitLen n
  by_contra hc
  have : bitLen n = 0 := by omega
  rw [this] at h
  simp at h
  omega

/-- A power of two with an integer exponent, split into numerator and
denominator. -/
theorem zpow_two_split (z : Int) : (2 : ℚ) ^ z = 2 ^ z.toNat / 2 ^ (-z).toNat := by
  rcases le_total 0 z with h | h
  · have h1 : (-z).toNat = 0 := by omega
    rw [h1, pow_zero, div_one]
    conv_lhs => rw [← Int.toNat_of_nonneg h]
    exact zpow_natCast 2 _
  · have h1 : z.toNat = 0 := by omega
    have h2 : z = -((-z).toNat : Int) := by omega
    rw [h1, pow_zero]
    conv_lhs => rw [h2]
    rw [zpow_neg, zpow_natCast, one_div]

theorem two_zpow_floorLog2_le (p d : Nat) (hp : 0 < p) (hd : 0 < d) :
    (2 : ℚ) ^ floorLog2 p d ≤ (p : ℚ) / d := by
  have hdq : (0 : ℚ) < d := by exact_mod_cast hd
  unfold floorLog2
  simp only
  split
  · rename_i hc
    rw [zpow_two_split, div_le_div_iff₀ (by positivity) hdq]
    have : ((d * 2 ^ ((bitLen p : Int) - (bitLen d : Int)).toNat : Nat) : ℚ) ≤
        ((p * 2 ^ (-((bitLen p : Int) - (bitLen d : Int))).toNat : Nat) : ℚ) := by
      exact_mod_cast hc
    push_cast at this
    linarith
  · have h1 := two_pow_bitLen_le p hp
    have h2 := lt_two_pow_bitLen d
    have h1q : (2 : ℚ) ^ bitLen p ≤ 2 * p := by exact_mod_cast h1
    have h2q : (d : ℚ) < 2 ^ bitLen d := by exact_mod_cast h2
    have he : (2 : ℚ) ^ ((bitLen p : Int) - (bitLen d : Int) - 1) =
        2 ^ bitLen p / (2 * 2 ^ bitLen d) := by
      rw [zpow_sub₀ (by norm_num), zpow_sub₀ (by norm_num), zpow_natCast, zpow_natCast,
        zpow_one, div_div, mul_comm]
    rw [he, div_le_div_iff₀ (by positivity) hdq]
    have h3 : (2 : ℚ) ^ bitLen p * d ≤ 2 * p * d := by
      exact mul_le_mul_of_nonneg_right h1q hdq.le
    have h4 : 2 * (p : ℚ) * d ≤ p * (2 * 2 ^ bitLen d) := by
      have hpq : (0 : ℚ) ≤ p := by positivity
      nlinarith
    linarith

theorem roundHalfEven_error (num den : Nat) (hden : 0 < den) :
    |(roundHalfEven num den : ℚ) - (num : ℚ) / den| ≤ 1 / 2 := by
  have hdq : (0 : ℚ) < den := by exact_mod_cast hden
  have hdm : ((den * (num / den) + num % den : Nat) : ℚ) = num := by
    exact_mod_cast congrArg (Nat.cast : Nat → ℚ) (Nat.div_add_mod num den)
  push_cast at hdm
  have hq : (num : ℚ) / den = (num / den : Nat) + ((num % den : Nat) : ℚ) / den := by
    field_simp
    linarith
  have hr : num % den < den := Nat.mod_lt _ hden
  have hrq : ((num % den : Nat) : ℚ) < den := by exact_mod_cast hr
  have hr0 : (0 : ℚ) ≤ ((num % den : Nat) : ℚ) := by positivity
  unfold roundHalfEven
  simp only
  split
  · rename_i hc
    have h2 : den ≤ 2 * (num % den) := by omega
    have h2q : (den : ℚ) ≤ 2 * ((num % den : Nat) : ℚ) := by exact_mod_cast h2
    rw [hq, abs_le]
    push_cast
    constructor
    · have : ((num % den : Nat) : ℚ) / den ≤ 1 := by
        rw [div_le_one hdq]; exact hrq.le
      linarith
    · have : (1 : ℚ) / 2 ≤ ((num % den : Nat) : ℚ) / den := by
        rw [le_div_iff₀ hdq]; linarith
      linarith
  · rename_i hc
    have h2 : 2 * (num % den) ≤ den := by omega
    have h2q : 2 * ((num % den : Nat) : ℚ) ≤ den := by exact_mod_cast h2
    have h3 : (0 : ℚ) ≤ ((num % den : Nat) : ℚ) / den := by positivity
    have h4 : ((num % den : Nat) : ℚ) / den ≤ 1 / 2 := by
      rw [div_le_iff₀ hdq]; linarith
    rw [hq, sub_add_cancel_left, abs_neg, abs_of_nonneg h3]
    exact h4

theorem mkFin_value (neg : Bool) (n k : Nat) :
    ∃ n' k', mkFin neg n k = fin neg n' k' ∧ (n' : ℚ) / 2 ^ k' = (n : ℚ) / 2 ^ k := by
  induction k generalizing n with
  | zero => exact ⟨n, 0, rfl, rfl⟩
  | succ k ih =>
    by_cases h : n % 2 = 0
    · obtain ⟨n', k', h1, h2⟩ := ih (n / 2)
      refine ⟨n', k', by simp [mkFin, h, h1], ?_⟩
      rw [h2]
      have hn : n = 2 * (n / 2) := by omega
      have hnq : (n : ℚ) = 2 * ((n / 2 : Nat) : ℚ) := by exact_mod_cast hn
      rw [hnq, pow_succ]
      field_simp
      ring
    · exact ⟨n, k + 1, by simp [mkFin, h], rfl⟩

theorem mkFin_mul_pow (neg : Bool) (n s : Nat) : mkFin neg (n * 2 ^ s) s = fin neg n 0 := by
  induction s with
  | zero => simp [mkFin]
  | succ s ih =>
    have h1 : (n * 2 ^ (s + 1)) % 2 = 0 := by
      rw [pow_succ, ← mul_assoc]; exact Nat.mul_mod_left _ _
    have h2 : (n * 2 ^ (s + 1)) / 2 = n * 2 ^ s := by
      rw [pow_succ, ← mul_assoc]; exact Nat.mul_div_cancel _ (by norm_num)
    simp [mkFin, h1, h2, ih]

/-- The rounding error of `roundPos`: below `2^(E+1)` the result is finite
and within half a unit in the last place, `2^(E-53)`, of the exact value. -/
theorem roundPos_value (neg : Bool) (p d : Nat) (E : Int) (hp : 0 < p) (hd : 0 < d)
    (hE : -1022 ≤ E) (hE' : E ≤ 1022) (hlt : (p : ℚ) / d < 2 ^ (E + 1)) :
    ∃ n k, roundPos neg p d = fin neg n k ∧
      |(n : ℚ) / 2 ^ k - (p : ℚ) / d| ≤ 2 ^ (E - 53) := by
  have hdq : (0 : ℚ) < d := by exact_mod_cast hd
  have he : floorLog2 p d ≤ E := by
    have h1 := two_zpow_floorLog2_le p d hp hd
    have h2 : (2 : ℚ) ^ floorLog2 p d < 2 ^ (E + 1) := lt_of_le_of_lt h1 hlt
    have := (zpow_lt_zpow_iff_right₀ (by norm_num : (1 : ℚ) < 2)).1 h2
    omega
  unfold roundPos
  simp only
  generalize hqe : max (floorLog2 p d) (-1022) - 52 = qe
  have hqe' : qe ≤ E - 52 := by
    have : max (floorLog2 p d) (-1022) ≤ E := max_le he hE
    omega
  generalize hnn : roundHalfEven (p * 2 ^ (-qe).toNat) (d * 2 ^ qe.toNat) = nn
  have hden : 0 < d * 2 ^ qe.toNat := by positivity
  have herr := roundHalfEven_error (p * 2 ^ (-qe).toNat) (d * 2 ^ qe.toNat) hden
  rw [hnn] at herr
  have hscaled : ((p * 2 ^ (-qe).toNat : Nat) : ℚ) / ((d * 2 ^ qe.toNat : Nat) : ℚ) =
      (p : ℚ) / d * 2 ^ (-qe) := by
    rw [zpow_two_split (-qe), neg_neg]
    push_cast
    field_simp
  rw [hscaled] at herr
  have hpow : (0 : ℚ) < 2 ^ qe := by positivity
  have hmul : (2 : ℚ) ^ (-qe) * 2 ^ qe = 1 := by
    rw [← zpow_add₀ (by norm_num : (2 : ℚ) ≠ 0)]; simp
  -- the rounded value is within half a unit of the exact value
  have hval : |(nn : ℚ) * 2 ^ qe - (p : ℚ) / d| ≤ 2 ^ (E - 53) := by
    have h1 : (nn : ℚ) * 2 ^ qe - (p : ℚ) / d =
        ((nn : ℚ) - (p : ℚ) / d * 2 ^ (-qe)) * 2 ^ qe := by
      rw [sub_mul, mul_assoc, hmul, mul_one]
    rw [h1, abs_mul, abs_of_pos hpow]
    have h2 : (2 : ℚ) ^ qe ≤ 2 ^ (E - 52) :=
      (zpow_le_zpow_iff_right₀ (by norm_num : (1 : ℚ) < 2)).2 hqe'
    have h3 : (2 : ℚ) ^ (E - 53) = 1 / 2 * 2 ^ (E - 52) := by
      rw [show E - 53 = (E - 52) - 1 by ring, zpow_sub₀ (by norm_num), zpow_one]
      ring
    rw [h3]
    exact mul_le_mul herr h2 hpow.le (by norm_num)
  -- no overflow
  have hfin : ¬ (1024 < (bitLen nn : Int) + qe) := by
    have hw : 0 ≤ E + 1 - qe := by omega
    have h1 : (nn : ℚ) ≤ (p : ℚ) / d * 2 ^ (-qe) + 1 / 2 := by
      have := (abs_le.1 herr).2
      linarith
    have h2 : (p : ℚ) / d * 2 ^ (-qe) < 2 ^ (E + 1 - qe) := by
      rw [show E + 1 - qe = (E + 1) + (-qe) by ring, zpow_add₀ (by norm_num : (2 : ℚ) ≠ 0)]
      exact mul_lt_mul_of_pos_right hlt (by positivity)
    have h3 : (2 : ℚ) ^ (E + 1 - qe) = ((2 ^ (E + 1 - qe).toNat : Nat) : ℚ) := by
      conv_lhs => rw [← Int.toNat_of_nonneg hw]
      rw [zpow_natCast]
      push_cast
      rfl
    have h4 : (nn : ℚ) < ((2 ^ (E + 1 - qe).toNat + 1 : Nat) : ℚ) := by
      push_cast
      rw [h3] at h2
      push_cast at h2
      linarith
    have h5 : nn < 2 ^ (E + 1 - qe).toNat + 1 := by exact_mod_cast h4
    have h6 : nn < 2 ^ ((E + 1 - qe).toNat + 1) := by
      rw [pow_succ]
      have : 0 < 2 ^ (E + 1 - qe).toNat := by positivity
      omega
    have h7 := bitLen_le_of_lt nn _ h6
    omega
  rw [if_neg hfin]
  obtain ⟨n, k, h1, h2⟩ := mkFin_value neg (nn * 2 ^ qe.toNat) (-qe).toNat
  refine ⟨n, k, h1, ?_⟩
  rw [h2]
  have h3 : ((nn * 2 ^ qe.toNat : Nat) : ℚ) / 2 ^ (-qe).toNat = (nn : ℚ) * 2 ^ qe := by
    rw [zpow_two_split qe]
    push_cast
    ring
  rw [h3]
  exact hval

theorem bitLen_one : bitLen 1 = 1 := by decide

/-- A positive natural number below `2^53` is a number: rounding keeps it. -/
theorem roundPos_nat (neg : Bool) (N : Nat) (hpos : 0 < N) (hlt : N < 2 ^ 53) :
    roundPos neg N 1 = fin neg N 0 := by
  have hb1 := bitLen_pos N hpos
  have hb2 := bitLen_le_of_lt N 53 hlt
  have hlow := two_pow_bitLen_le N hpos
  have hup := lt_two_pow_bitLen N
  have hfl : floorLog2 N 1 = (bitLen N : Int) - 1 := by
    unfold floorLog2
    simp only [bitLen_one]
    have h1 : ((bitLen N : Int) - ((1 : Nat) : Int)).toNat = bitLen N - 1 := by omega
    have h2 : (-((bitLen N : Int) - ((1 : Nat) : Int))).toNat = 0 := by omega
    rw [h1, h2, if_pos]
    · simp
    · have : 2 ^ bitLen N = 2 * 2 ^ (bitLen N - 1) := by
        conv_lhs => rw [show bitLen N = (bitLen N - 1) + 1 by omega]
        rw [pow_succ]; ring
      omega
  unfold roundPos
  simp only [hfl]
  have hq : max ((bitLen N : Int) - 1) (-1022) - 52 = (bitLen N : Int) - 53 := by
    rw [max_eq_left (by omega)]; ring
  rw [hq]
  have h1 : ((bitLen N : Int) - 53).toNat = 0 := by omega
  have h2 : (-((bitLen N : Int) - 53)).toNat = 53 - bitLen N := by omega
  rw [h1, h2]
  have h3 : roundHalfEven (N * 2 ^ (53 - bitLen N)) (1 * 2 ^ 0) = N * 2 ^ (53 - bitLen N) := by
    simp [roundHalfEven, Nat.mod_one]
  rw [h3]
  have h4 : N * 2 ^ (53 - bitLen N) < 2 ^ 53 := by
    calc N * 2 ^ (53 - bitLen N) < 2 ^ bitLen N * 2 ^ (53 - bitLen N) :=
          Nat.mul_lt_mul_of_pos_right hup (by positivity)
      _ = 2 ^ 53 := by rw [← pow_add]; congr 1; omega
  have h5 := bitLen_le_of_lt _ 53 h4
  rw [if_neg (by omega)]
  simp [mkFin_mul_pow]

/-- A natural number below `2^53` is a number: rounding keeps it. -/
theorem round_nat (N : Nat) (hlt : N < 2 ^ 53) : round false N 1 = ofNat N := by
  unfold round
  by_cases h : N = 0
  · simp [h, ofNat]
  · rw [if_neg h, roundPos_nat false N (by omega) hlt, ofNat]

end JSNum

/-! ## Plain decimal texts -/

theorem radixVal_digitChar (d : Nat) (h : d < 10) : radixVal 10 (digitChar d) = some d := by
  interval_cases d <;> rfl

theorem isDecimalChar_digitChar (d : Nat) : isDecimalChar (digitChar d) = true := by
  unfold digitChar
  split <;> rfl

theorem isWhiteSpace_of_decimal (c : Char) (h : isDecimalChar c = true) :
    isWhiteSpace c = false := by
  unfold isDecimalChar at h
  simp only [Bool.or_eq_true, beq_iff_eq] at h
  rcases h with h | h
  · unfold digitVal at h
    split at h <;> first | rfl | simp at h
  · subst h; rfl

theorem digitsVal_append (radix : Nat) (ds : List Nat) (d : Nat) :
    digitsVal radix (ds ++ [d]) = radix * digitsVal radix ds + d := by
  simp [digitsVal, List.foldl_append]

theorem natDigitsAux_spec (f n : Nat) (acc : List Char) (h : n < f) :
    ∃ ds : List Nat, (∀ d ∈ ds, d < 10) ∧ ds ≠ [] ∧
      natDigitsAux f n acc = ds.map digitChar ++ acc ∧ digitsVal 10 ds = n := by
  induction f generalizing n acc with
  | zero => omega
  | succ f ih =>
    by_cases h10 : n < 10
    · refine ⟨[n], by simpa using h10, by simp, by simp [natDigitsAux, h10], by simp [digitsVal]⟩
    · obtain ⟨ds, h1, _, h3, h4⟩ := ih (n / 10) (digitChar (n % 10) :: acc) (by omega)
      refine ⟨ds ++ [n % 10], ?_, by simp, ?_, ?_⟩
      · intro d hd
        rcases List.mem_append.1 hd with hd | hd
        · exact h1 d hd
        · simp at hd; omega
      · simp [natDigitsAux, h10, h3]
      · rw [digitsVal_append, h4]; omega

theorem natDigits_spec (n : Nat) :
    ∃ ds : List Nat, (∀ d ∈ ds, d < 10) ∧ ds ≠ [] ∧
      natDigits n = ds.map digitChar ∧ digitsVal 10 ds = n := by
  obtain ⟨ds, h1, h2, h3, h4⟩ := natDigitsAux_spec (n + 1) n [] (by omega)
  exact ⟨ds, h1, h2, by simpa [natDigits] using h3, h4⟩

theorem spanDigits_digits (ds : List Nat) (rest : List Char) (h : ∀ d ∈ ds, d < 10)
    (hrest : rest = [] ∨ ∃ t, rest = '.' :: t) :
    spanDigits 10 (ds.map digitChar ++ rest) = (ds, rest) := by
  induction ds with
  | nil =>
    rcases hrest with rfl | ⟨t, rfl⟩
    · rfl
    · rfl
  | cons d ds ih =>
    have hd := radixVal_digitChar d (h d (List.mem_cons_self _ _))
    have := ih (fun e he => h e (List.mem_cons_of_mem _ he))
    simp [spanDigits, hd, this]

theorem trimStart_cons (c : Char) (cs : List Char) (h : isWhiteSpace c = false) :
    trimStart (c :: cs) = c :: cs := by
  simp [trimStart, h]

theorem trimStart_of_all (cs : List Char) (h : ∀ c ∈ cs, isWhiteSpace c = false) :
    trimStart cs = cs := by
  cases cs with
  | nil => rfl
  | cons c cs => exact trimStart_cons c cs (h c (List.mem_cons_self _ _))

theorem trim_of_all (cs : List Char) (h : ∀ c ∈ cs, isWhiteSpace c = false) :
    trim cs = cs := by
  unfold trim
  rw [trimStart_of_all cs h, trimStart_of_all cs.reverse (fun c hc => h c (List.mem_reverse.1 hc))]
  simp

theorem decimalChars_all (ip fp : List Nat) :
    ∀ c ∈ decimalChars ip fp, isDecimalChar c = true := by
  intro c hc
  unfold decimalChars at hc
  rcases List.mem_append.1 hc with hc | hc
  · obtain ⟨d, _, rfl⟩ := List.mem_map.1 hc
    exact isDecimalChar_digitChar d
  · split at hc
    · simp at hc
    · rcases List.mem_cons.1 hc with rfl | hc
      · rfl
      · obtain ⟨d, _, rfl⟩ := List.mem_map.1 hc
        exact isDecimalChar_digitChar d

namespace JSNum

theorem parseUnsigned_decimal (neg : Bool) (ip fp : List Nat)
    (hip : ∀ d ∈ ip, d < 10) (hfp : ∀ d ∈ fp, d < 10) (hne : ip ≠ [] ∨ fp ≠ []) :
    parseUnsigned neg (decimalChars ip fp) =
      ofDecimal neg (digitsVal 10 (ip ++ fp)) (-(fp.length : Int)) := by
  have hall := decimalChars_all ip fp
  have hinf : decimalChars ip fp ≠ ['I', 'n', 'f', 'i', 'n', 'i', 't', 'y'] := by
    intro h
    have := hall 'I' (by rw [h]; simp)
    revert this
    decide
  unfold parseUnsigned
  rw [if_neg hinf]
  by_cases hf : fp = []
  · subst hf
    have hi : ip ≠ [] := by simpa using hne
    have hs : spanDigits 10 (decimalChars ip []) = (ip, []) := by
      have := spanDigits_digits ip [] hip (Or.inl rfl)
      simpa [decimalChars] using this
    simp [hs, hi, spanDigits, parseExponent]
  · have hs : spanDigits 10 (decimalChars ip fp) = (ip, '.' :: fp.map digitChar) := by
      have := spanDigits_digits ip ('.' :: fp.map digitChar) hip (Or.inr ⟨_, rfl⟩)
      simpa [decimalChars, hf] using this
    have hs2 : spanDigits 10 (fp.map digitChar) = (fp, []) := by
      have := spanDigits_digits fp [] hfp (Or.inl rfl)
      simpa using this
    simp [hs, hs2, hf, parseExponent]

theorem ofChars_decimal (ip fp : List Nat)
    (hip : ∀ d ∈ ip, d < 10) (hfp : ∀ d ∈ fp, d < 10) :
    ofChars (decimalChars ip fp) =
      ofDecimal false (digitsVal 10 (ip ++ fp)) (-(fp.length : Int)) := by
  have hall := decimalChars_all ip fp
  by_cases hne : ip ≠ [] ∨ fp ≠ []
  · rw [← parseUnsigned_decimal false ip fp hip hfp hne]
    unfold ofChars
    rw [trim_of_all _ (fun c hc => isWhiteSpace_of_decimal c (hall c hc))]
    split
    · rename_i h
      exfalso
      unfold decimalChars at h
      rcases hne with h1 | h1
      · cases ip with
        | nil => exact h1 rfl
        | cons d ds => simp at h
      · simp [h1] at h
    all_goals first
      | rfl
      | (rename_i h
         exfalso
         rw [h] at hall
         first
           | (have h0 := hall _ (List.mem_cons_self _ _)
              revert h0
              decide)
           | (have h1 := hall _ (List.mem_cons_of_mem _ (List.mem_cons_self _ _))
              revert h1
              decide))
  · have h1 : ip = [] := by
      by_contra h; exact hne (Or.inl h)
    have h2 : fp = [] := by
      by_contra h; exact hne (Or.inr h)
    subst h1 h2
    rfl

theorem ofChars_neg_decimal (ip fp : List Nat)
    (hip : ∀ d ∈ ip, d < 10) (hfp : ∀ d ∈ fp, d < 10) (hne : ip ≠ [] ∨ fp ≠ []) :
    ofChars ('-' :: decimalChars ip fp) =
      ofDecimal true (digitsVal 10 (ip ++ fp)) (-(fp.length : Int)) := by
  have hall := decimalChars_all ip fp
  rw [← parseUnsigned_decimal true ip fp hip hfp hne]
  unfold ofChars
  rw [trim_of_all _ (fun c hc => by
    rcases List.mem_cons.1 hc with rfl | hc
    · rfl
    · exact isWhiteSpace_of_decimal c (hall c hc))]
  rfl

/-! ## Amount conversion: exactness and rounding -/

theorem ofDecimal_zero (neg : Bool) (N : Nat) : ofDecimal neg N 0 = round neg N 1 := by
  simp [ofDecimal]

theorem ofDecimal_neg (neg : Bool) (m k : Nat) :
    ofDecimal neg m (-(k : Int)) = round neg m (10 ^ k) := by
  simp [ofDecimal]

theorem ofChars_natDigits (N : Nat) : ofChars (natDigits N) = round false N 1 := by
  obtain ⟨ds, h1, _, h3, h4⟩ := natDigits_spec N
  have := ofChars_decimal ds [] h1 (by simp)
  simp only [decimalChars, if_true, List.append_nil, List.length_nil, Nat.cast_zero,
    neg_zero, h4, ofDecimal_zero] at this
  rw [h3, this]

theorem ofChars_neg_natDigits (N : Nat) : ofChars ('-' :: natDigits N) = round true N 1 := by
  obtain ⟨ds, h1, h2, h3, h4⟩ := natDigits_spec N
  have := ofChars_neg_decimal ds [] h1 (by simp) (Or.inl h2)
  simp only [decimalChars, if_true, List.append_nil, List.length_nil, Nat.cast_zero,
    neg_zero, h4, ofDecimal_zero] at this
  rw [h3, this]

theorem round_signed_nat (neg : Bool) (N : Nat) (hlt : N < 2 ^ 53) :
    round neg N 1 = fin neg N 0 := by
  unfold round
  by_cases h : N = 0
  · simp [h]
  · rw [if_neg h, roundPos_nat neg N (by omega) hlt]

theorem roundHalfUp_bounds (n k : Nat) :
    (roundHalfUp n k : ℚ) - 1 / 2 ≤ (n : ℚ) / 2 ^ k ∧
      (n : ℚ) / 2 ^ k < (roundHalfUp n k : ℚ) + 1 / 2 := by
  have hpos : 0 < 2 ^ (k + 1) := by positivity
  have h1 : roundHalfUp n k * 2 ^ (k + 1) ≤ 2 * n + 2 ^ k := Nat.div_mul_le_self _ _
  have h2 : 2 * n + 2 ^ k < (roundHalfUp n k + 1) * 2 ^ (k + 1) := by
    have := Nat.lt_mul_div_succ (2 * n + 2 ^ k) hpos
    unfold roundHalfUp
    rw [Nat.mul_comm ((2 * n + 2 ^ k) / 2 ^ (k + 1) + 1)]
    exact this
  have h1q : (roundHalfUp n k : ℚ) * 2 ^ (k + 1) ≤ 2 * n + 2 ^ k := by exact_mod_cast h1
  have h2q : 2 * (n : ℚ) + 2 ^ k < ((roundHalfUp n k : ℚ) + 1) * 2 ^ (k + 1) := by
    exact_mod_cast h2
  have hk : (0 : ℚ) < 2 ^ k := by positivity
  rw [pow_succ] at h1q h2q
  constructor
  · rw [le_div_iff₀ hk]; nlinarith
  · rw [div_lt_iff₀ hk]; nlinarith

theorem roundHalfUp_eq (n k N : Nat) (hlo : (N : ℚ) - 1 / 2 ≤ (n : ℚ) / 2 ^ k)
    (hhi : (n : ℚ) / 2 ^ k < (N : ℚ) + 1 / 2) : roundHalfUp n k = N := by
  have hk : (0 : ℚ) < 2 ^ k := by positivity
  rw [le_div_iff₀ hk] at hlo
  rw [div_lt_iff₀ hk] at hhi
  apply Nat.div_eq_of_lt_le
  · have : (N : ℚ) * 2 ^ (k + 1) ≤ 2 * n + 2 ^ k := by
      rw [pow_succ]; nlinarith
    exact_mod_cast this
  · have : 2 * (n : ℚ) + 2 ^ k < ((N : ℚ) + 1) * 2 ^ (k + 1) := by
      rw [pow_succ]; nlinarith
    exact_mod_cast this

end JSNum

/-- The conversion from the scaled product: when `Number(amount) * 1e12` is
the non-zero finite number `(-1)^s * n / 2^k` and `N < 2^53` is the natural
number nearest to its magnitude (the larger of two), `convert` gives
`(-1)^s * N`. -/
theorem convert_of_scaled (a : JSVal) (x : JSNum) (s : Bool) (n k N : Nat)
    (hx : a.toNumber = .ok x) (hy : JSNum.mul x JSNum.e12 = .fin s n k) (hn : n ≠ 0)
    (hlo : (N : ℚ) - 1 / 2 ≤ (n : ℚ) / 2 ^ k) (hhi : (n : ℚ) / 2 ^ k < (N : ℚ) + 1 / 2)
    (hN : N < 2 ^ 53) :
    convert a = .ok (.fin s N 0) := by
  have hk : (0 : ℚ) < 2 ^ k := by positivity
  have hsmall : ¬ (10 ^ 21 * 2 ^ k ≤ n) := by
    intro h
    have hq : ((10 ^ 21 * 2 ^ k : Nat) : ℚ) ≤ n := by exact_mod_cast h
    push_cast at hq
    rw [div_lt_iff₀ hk] at hhi
    have hNq : (N : ℚ) < 2 ^ 53 := by exact_mod_cast hN
    nlinarith
  have hr := JSNum.roundHalfUp_eq n k N hlo hhi
  simp only [convert, hx, Except.map, hy, JSNum.toFixed0, hsmall, if_false, hr]
  cases s with
  | false =>
    simp only [Bool.false_eq_true, false_and, if_false, List.nil_append,
      JSNum.ofChars_natDigits, JSNum.round_signed_nat false N hN]
  | true =>
    simp only [true_and, hn, ne_eq, not_false_eq_true, if_true, List.singleton_append,
      JSNum.ofChars_neg_natDigits, JSNum.round_signed_nat true N hN]

theorem convert_decimal (m k : Nat) (hk : k ≤ 12) (hlt : m < 4096 * 10 ^ k) (a : JSVal)
    (ha : a.toNumber = .ok (JSNum.round false m (10 ^ k))) :
    convert a = .ok (.ofNat (m * 10 ^ (12 - k))) := by
  by_cases hm : m = 0
  · subst hm
    have hx : a.toNumber = .ok (.fin false 0 0) := by simpa [JSNum.round] using ha
    simp only [convert, hx, Except.map, Nat.zero_mul]
    rfl
  · have hmpos : 0 < m := Nat.pos_of_ne_zero hm
    have h10 : 0 < 10 ^ k := by positivity
    -- the amount and its scaled value
    have hsplit : 10 ^ 12 = 10 ^ k * 10 ^ (12 - k) := by
      rw [← pow_add]; congr 1; omega
    have hN : m * 10 ^ (12 - k) < 4096 * 10 ^ 12 := by
      rw [hsplit, ← mul_assoc]
      exact Nat.mul_lt_mul_of_pos_right hlt (by positivity)
    have hNpos : 0 < m * 10 ^ (12 - k) := by positivity
    have hkq : (0 : ℚ) < 10 ^ k := by positivity
    have hNq : ((m * 10 ^ (12 - k) : Nat) : ℚ) = (m : ℚ) / 10 ^ k * 10 ^ 12 := by
      have : (10 : ℚ) ^ 12 = 10 ^ k * 10 ^ (12 - k) := by exact_mod_cast hsplit
      push_cast
      rw [this]
      field_simp
      ring
    generalize hNdef : m * 10 ^ (12 - k) = N at hN hNpos hNq ⊢
    have hN1 : (1 : ℚ) ≤ N := by exact_mod_cast hNpos
    have hN2 : (N : ℚ) ≤ 4096 * 10 ^ 12 - 1 := by
      have : N + 1 ≤ 4096 * 10 ^ 12 := hN
      have : ((N + 1 : Nat) : ℚ) ≤ ((4096 * 10 ^ 12 : Nat) : ℚ) := by exact_mod_cast this
      push_cast at this
      linarith
    -- first rounding: the amount as a number
    have hA : (m : ℚ) / ((10 ^ k : Nat) : ℚ) < 2 ^ ((11 : Int) + 1) := by
      have hq : (m : ℚ) < 4096 * 10 ^ k := by exact_mod_cast hlt
      push_cast
      rw [div_lt_iff₀ hkq]
      norm_num
      linarith
    obtain ⟨n, j, hr, herr⟩ := JSNum.roundPos_value false m (10 ^ k) 11 hmpos h10
      (by norm_num) (by norm_num) hA
    have hx : a.toNumber = .ok (.fin false n j) := by
      rw [ha, JSNum.round, if_neg hm, hr]
    have h42 : (2 : ℚ) ^ ((11 : Int) - 53) = 1 / 4398046511104 := by norm_num
    rw [h42] at herr
    push_cast at herr
    have hjq : (0 : ℚ) < 2 ^ j := by positivity
    -- the scaled product before rounding
    have hX : |(n : ℚ) / 2 ^ j * 10 ^ 12 - N| ≤ 10 ^ 12 / 4398046511104 := by
      rw [hNq, ← sub_mul, abs_mul, abs_of_pos (by positivity : (0 : ℚ) < 10 ^ 12)]
      have := mul_le_mul_of_nonneg_right herr (by positivity : (0 : ℚ) ≤ 10 ^ 12)
      linarith
    have hXlo := (abs_le.1 hX).1
    have hXhi := (abs_le.1 hX).2
    have hn : n ≠ 0 := by
      intro h0
      rw [h0] at hXlo
      norm_num at hXlo
      linarith
    have hnpos : 0 < n * 10 ^ 12 := by positivity
    have hprod : ((n * 10 ^ 12 : Nat) : ℚ) / ((2 ^ j : Nat) : ℚ) = (n : ℚ) / 2 ^ j * 10 ^ 12 := by
      push_cast
      ring
    have hB : ((n * 10 ^ 12 : Nat) : ℚ) / ((2 ^ j : Nat) : ℚ) < 2 ^ ((51 : Int) + 1) := by
      rw [hprod]
      norm_num
      norm_num at hXhi
      linarith
    obtain ⟨n', j', hr', herr'⟩ := JSNum.roundPos_value false (n * 10 ^ 12) (2 ^ j) 51 hnpos
      (by positivity) (by norm_num) (by norm_num) hB
    rw [hprod] at herr'
    have h2 : (2 : ℚ) ^ ((51 : Int) - 53) = 1 / 4 := by norm_num
    rw [h2] at herr'
    have hYlo := (abs_le.1 herr').1
    have hYhi := (abs_le.1 herr').2
    have hy : JSNum.mul (.fin false n j) JSNum.e12 = .fin false n' j' := by
      have h12 : (1000000000000 : Nat) = 10 ^ 12 := by norm_num
      simp only [JSNum.mul, JSNum.e12, JSNum.ofNat, Bool.xor_false, Nat.add_zero, JSNum.round,
        h12]
      rw [if_neg (Nat.ne_of_gt hnpos), hr']
    have hn' : n' ≠ 0 := by
      intro h0
      rw [h0] at hYlo
      norm_num at hYlo hXlo
      linarith
    have hNlt : N < 2 ^ 53 := by
      have : 4096 * 10 ^ 12 < 2 ^ 53 := by norm_num
      omega
    refine convert_of_scaled a _ false n' j' N hx hy hn' ?_ ?_ hNlt
    · norm_num at hXhi hXlo
      linarith
    · norm_num at hXhi hXlo
      linarith

/-- C3 (amended): `convert` multiplies the amount by `10^12` exactly for every
non-negative decimal amount below 4096 with at most 12 fraction digits, given
as the text of its digits or as the number its literal denotes: the result is
the integer `amount * 10^12`. -/
theorem convert_exact_below_4096 (ip fp : List Nat)
    (hip : ∀ d ∈ ip, d < 10) (hfp : ∀ d ∈ fp, d < 10) (hk : fp.length ≤ 12)
    (hlt : digitsVal 10 (ip ++ fp) < 4096 * 10 ^ fp.length) :
    convert (.str (String.mk (decimalChars ip fp))) =
      .ok (.ofNat (digitsVal 10 (ip ++ fp) * 10 ^ (12 - fp.length))) ∧
    convert (.num (JSNum.ofDecimal false (digitsVal 10 (ip ++ fp)) (-(fp.length : Int)))) =
      .ok (.ofNat (digitsVal 10 (ip ++ fp) * 10 ^ (12 - fp.length))) := by
  constructor
  · apply convert_decimal _ _ hk hlt
    simp only [JSVal.toNumber, JSNum.ofChars_decimal ip fp hip hfp, JSNum.ofDecimal_neg]
  · apply convert_decimal _ _ hk hlt
    simp only [JSVal.toNumber, JSNum.ofDecimal_neg]

/-- C3 (witness): the amounts `1.25`, `0.5` and `1`, as texts and as numbers. -/
theorem convert_exact_below_4096_witness :
    (convert (.str "1.25") = .ok (.ofNat 1250000000000) ∧
      convert (.num (.fin false 5 2)) = .ok (.ofNat 1250000000000)) ∧
    (convert (.str "0.5") = .ok (.ofNat 500000000000) ∧
      convert (.num (.fin false 1 1)) = .ok (.ofNat 500000000000)) ∧
    (convert (.str "1") = .ok (.ofNat 1000000000000) ∧
      convert (.num (.ofNat 1)) = .ok (.ofNat 1000000000000)) :=
  ⟨convert_exact_below_4096 [1] [2, 5] (by decide) (by decide) (by decide) (by decide),
   convert_exact_below_4096 [0] [5] (by decide) (by decide) (by decide) (by decide),
   convert_exact_below_4096 [1] [] (by decide) (by decide) (by decide) (by decide)⟩

set_option maxRecDepth 100000 in
/-- C3 (counterexample): the amount `8192.270911092722` has 12 fraction digits
and `8192270911092722` atomic units, but `convert` gives `8192270911092723`:
the double-precision product `Number(amount) * 1e12` is already that integer. -/
theorem convert_exact_counterexample :
    convert (.str "8192.270911092722") = .ok (.ofNat 8192270911092723) ∧
    JSNum.mul (JSNum.ofChars "8192.270911092722".data) JSNum.e12 =
      .ofNat 8192270911092723 ∧
    convert (.str "8192.270911092722") ≠ .ok (.ofNat (8192270911092722 * 10 ^ (12 - 12))) := by
  have h : convert (.str "8192.270911092722") = .ok (.ofNat 8192270911092723) := by rfl
  refine ⟨h, by rfl, ?_⟩
  rw [h]
  simp [JSNum.ofNat]

/-- C4 (amended): whenever the product `Number(amount) * 1e12` is a non-zero
finite number below `2^52` in magnitude, `convert(amount)` is that product
rounded to the nearest integer, a half rounding away from zero: the result
`(-1)^s * N` has `N - 1/2 ≤ |product| < N + 1/2`. The fraction left after
scaling is rounded, not truncated. -/
theorem convert_rounds_to_nearest (a : JSVal) (x : JSNum) (s : Bool) (n k : Nat)
    (hx : a.toNumber = .ok x) (hy : JSNum.mul x JSNum.e12 = .fin s n k) (hn : n ≠ 0)
    (hlt : n < 2 ^ 52 * 2 ^ k) :
    ∃ N : Nat, convert a = .ok (.fin s N 0) ∧
      (N : ℚ) - 1 / 2 ≤ (n : ℚ) / 2 ^ k ∧ (n : ℚ) / 2 ^ k < (N : ℚ) + 1 / 2 := by
  obtain ⟨hlo, hhi⟩ := JSNum.roundHalfUp_bounds n k
  refine ⟨JSNum.roundHalfUp n k, ?_, hlo, hhi⟩
  apply convert_of_scaled a x s n k _ hx hy hn hlo hhi
  have hk : (0 : ℚ) < 2 ^ k := by positivity
  have hq : (n : ℚ) < 2 ^ 52 * 2 ^ k := by exact_mod_cast hlt
  have h1 : (n : ℚ) / 2 ^ k < 2 ^ 52 := by
    rw [div_lt_iff₀ hk]; exact hq
  have h2 : (JSNum.roundHalfUp n k : ℚ) < ((2 ^ 53 : Nat) : ℚ) := by
    push_cast
    linarith
  exact_mod_cast h2

set_option maxRecDepth 100000 in
/-- C4 (witness): the amount `0.0000000000019`, whose product with `1e12` is
the number `4278419646001971 / 2^51`, a little above 1.9. -/
theorem convert_rounds_to_nearest_witness :
    ∃ N : Nat, convert (.str "0.0000000000019") = .ok (.fin false N 0) ∧
      (N : ℚ) - 1 / 2 ≤ (4278419646001971 : Nat) / 2 ^ 51 ∧
      ((4278419646001971 : Nat) : ℚ) / 2 ^ 51 < (N : ℚ) + 1 / 2 :=
  convert_rounds_to_nearest (.str "0.0000000000019") (.fin false 4704172149284445 91)
    false 4278419646001971 51 (by rfl) (by rfl) (by decide) (by norm_num)

set_option maxRecDepth 100000 in
/-- C4 (counterexample): the amount `0.0000000000019` scales to 1.9 atomic
units; `convert` gives 2, while rounding toward zero would give 1. -/
theorem convert_truncation_counterexample :
    convert (.str "0.0000000000019") = .ok (.ofNat 2) ∧
    19 * 10 ^ 12 / 10 ^ 13 = 1 ∧
    convert (.str "0.0000000000019") ≠ .ok (.ofNat (19 * 10 ^ 12 / 10 ^ 13)) := by
  have h : convert (.str "0.0000000000019") = .ok (.ofNat 2) := by rfl
  refine ⟨h, by norm_num, ?_⟩
  rw [h]
  simp [JSNum.ofNat]

/-! ## Parameters that never leave, and parameters that do -/

theorem daemon_request_no_params (self : Client) (net : Net) (method : String) :
    (Daemon._request self net (.str method) .undefined .undefined).sentParams = none := by
  simp only [Daemon._request,
    daemon_options_json_rpc self (.str method) .undefined .undefined (Or.inl rfl)]
  cases self.url (dflt .undefined (.str "json_rpc")) with
  | error e => rfl
  | ok url => rfl

/-- C11 (the code at every input): `getblockheaderbyhash` and
`get_block_by_hash` build `params.hash`, but the request they make carries no
`params` at all: the hash never reaches the outgoing request. -/
theorem hash_methods_send_no_params (self : Client) (net : Net) (h : JSVal) :
    Daemon.hashParams h = [("hash", h)] ∧
    (Daemon.getblockheaderbyhash self net h).sentParams = none ∧
    (Daemon.get_block_by_hash self net h).sentParams = none ∧
    (Daemon.getblockheaderbyhash defaultClient (fun _ _ => .failure) (.str "e22c")).sentBody =
      some (.obj [("jsonrpc", .str "2.0"), ("id", .str "0"),
        ("method", .str "getblockheaderbyhash")]) ∧
    (Daemon.get_block_by_hash defaultClient (fun _ _ => .failure) (.str "e22c")).sentBody =
      some (.obj [("jsonrpc", .str "2.0"), ("id", .str "0"), ("method", .str "get_block")]) :=
  ⟨rfl, daemon_request_no_params self net _, daemon_request_no_params self net _, rfl, rfl⟩

theorem dflt_of_defined (v d : JSVal) (h : v.isUndefined = false) : dflt v d = v := by
  simp [dflt, h]

/-- C13: `label_address(i, j, l)` sends the method `label_address` with
`params.index = {major: i, minor: j}` and `params.label = l`; an omitted
argument is replaced by `0`, `0` and `''`. -/
theorem label_address_params (self : Client) (net : Net) (i j l : JSVal) (url : String)
    (hurl : self.url (.str "json_rpc") = .ok url) :
    (Wallet.label_address self net i j l).sentBody =
      some (.obj [("jsonrpc", .str "2.0"), ("id", .str "0"), ("method", .str "label_address"),
        ("params", .obj [("index", .obj [("major", dflt i (.num (.ofNat 0))),
            ("minor", dflt j (.num (.ofNat 0)))]),
          ("label", dflt l (.str ""))])]) ∧
    (i.isUndefined = false → j.isUndefined = false → l.isUndefined = false →
      (Wallet.label_address self net i j l).sentParams =
        some (.obj [("index", .obj [("major", i), ("minor", j)]), ("label", l)])) ∧
    (Wallet.label_address self net .undefined .undefined .undefined).sentParams =
      some (.obj [("index", .obj [("major", .num (.ofNat 0)), ("minor", .num (.ofNat 0))]),
        ("label", .str "")]) := by
  refine ⟨?_, ?_, ?_⟩
  · rw [Wallet.label_address, wallet_request_posted _ _ _ _ url hurl]
    simp only [Call.sentBody, wallet_options_json]
    rfl
  · intro hi hj hl
    rw [Wallet.label_address, sentParams_wallet_request _ _ _ (.obj _) url hurl rfl,
      dflt_of_defined i _ hi, dflt_of_defined j _ hj, dflt_of_defined l _ hl]
  · rw [Wallet.label_address, sentParams_wallet_request _ _ _ (.obj _) url hurl rfl]
    rfl

/-- C13 (witness): `label_address(0, 3, "main")` with the default wallet. -/
theorem label_address_params_witness :
    (Wallet.label_address defaultClient (fun _ _ => .failure)
        (.num (.ofNat 0)) (.num (.ofNat 3)) (.str "main")).sentParams =
      some (.obj [("index", .obj [("major", .num (.ofNat 0)), ("minor", .num (.ofNat 3))]),
        ("label", .str "main")]) :=
  (label_address_params defaultClient (fun _ _ => .failure)
    (.num (.ofNat 0)) (.num (.ofNat 3)) (.str "main") defaultUrl defaultClient_url).2.1
    rfl rfl rfl

/-! ## The configuration of a client -/

/-- C14: a client built with no arguments has hostname `127.0.0.1`, port
18082, timeout 5000 and empty user and password; in general each field is
the argument when the argument is truthy and the default otherwise; and a
method call, of the wallet or of the daemon, leaves the client as it was. -/
theorem client_configuration (h p u w t : JSVal) (self : Client) (net : Net)
    (wm : WalletMethod) (dm : DaemonMethod) :
    ((Client.create .undefined .undefined .undefined .undefined .undefined).hostname =
        .str "127.0.0.1" ∧
      (Client.create .undefined .undefined .undefined .undefined .undefined).port =
        .num (.ofNat 18082) ∧
      (Client.create .undefined .undefined .undefined .undefined .undefined).user = .str "" ∧
      (Client.create .undefined .undefined .undefined .undefined .undefined).pass = .str "" ∧
      (Client.create .undefined .undefined .undefined .undefined .undefined).timeout =
        .num (.ofNat 5000)) ∧
    ((Client.create h p u w t).hostname = (if h.truthy then h else .str "127.0.0.1") ∧
      (Client.create h p u w t).port = (if p.truthy then p else .num (.ofNat 18082)) ∧
      (Client.create h p u w t).user = (if u.truthy then u else .str "") ∧
      (Client.create h p u w t).pass = (if w.truthy then w else .str "") ∧
      (Client.create h p u w t).timeout = (if t.truthy then t else .num (.ofNat 5000))) ∧
    (Wallet.step self net wm).1 = self ∧
    (Daemon.step self net dm).1 = self :=
  ⟨⟨rfl, rfl, rfl, rfl, rfl⟩, ⟨rfl, rfl, rfl, rfl, rfl⟩, rfl, rfl⟩

/-! ## Failures of the transport -/

theorem settle_failed (error : JSVal) :
    settle (Response.failed error).reply = .rejected (.error "Server is not reachable.") :=
  rfl

theorem wallet_request_rejects (self : Client) (fault : String → Options → JSVal)
    (method params : JSVal) :
    (Wallet._request self (fun u o => (Response.failed (fault u o)).reply)
      method params).rejectsUnreachable := by
  intro p hp
  unfold Wallet._request at hp
  cases hu : self.url (.str "json_rpc") with
  | error e => simp [hu, Call.promise] at hp
  | ok url =>
    simp only [hu, Call.promise, Option.some.injEq] at hp
    rw [← hp]
    rfl

theorem wallet_send_rejects (self : Client) (fault : String → Options → JSVal)
    (method : String) (params : Except JSError (List (String × JSVal))) :
    (Wallet.send self (fun u o => (Response.failed (fault u o)).reply)
      method params).rejectsUnreachable := by
  cases params with
  | error e => intro p hp; simp [Wallet.send, Call.promise] at hp
  | ok fields => exact wallet_request_rejects self fault _ _

theorem daemon_request_rejects (self : Client) (fault : String → Options → JSVal)
    (method params iface : JSVal) :
    (Daemon._request self (fun u o => (Response.failed (fault u o)).reply)
      method params iface).rejectsUnreachable := by
  intro p hp
  unfold Daemon._request at hp
  cases ho : Daemon.options self method params iface with
  | error e => simp [ho, Call.promise] at hp
  | ok o =>
    cases hu : self.url (dflt iface (.str "json_rpc")) with
    | error e => simp [ho, hu, Call.promise] at hp
    | ok url =>
      simp only [ho, hu, Call.promise, Option.some.injEq] at hp
      rw [← hp]
      rfl

theorem wallet_init_rejects (self : Client) (fault : String → Options → JSVal) :
    (Wallet.init self (fun u o => (Response.failed (fault u o)).reply)).rejectsUnreachable := by
  intro p hp
  have h := wallet_request_rejects self fault (.str "get_balance") .undefined
  unfold Wallet.init at hp
  cases hc : Wallet._request self (fun u o => (Response.failed (fault u o)).reply)
      (.str "get_balance") .undefined with
  | thrown e => simp [hc, Call.promise] at hp
  | posted url o q =>
    have hq := h q (by simp [hc, Call.promise])
    simp only [hc, Call.promise, Option.some.injEq] at hp
    rw [← hp, hq]

/-- C12 (amended): when the HTTP request fails, whatever the error it fails
with, every wallet method and every daemon method other than `init` that
made the request rejects with the one error `Server is not reachable.`, which
carries nothing of the cause. -/
theorem transport_failure_rejects (self : Client) (fault : String → Options → JSVal) :
    (∀ (m : WalletMethod) (p : Settled),
      (Wallet.call self (fun u o => (Response.failed (fault u o)).reply) m).promise = some p →
      p = .rejected (.error "Server is not reachable.")) ∧
    (∀ (m : DaemonMethod), m ≠ .init → ∀ (p : Settled),
      (Daemon.call self (fun u o => (Response.failed (fault u o)).reply) m).promise = some p →
      p = .rejected (.error "Server is not reachable.")) := by
  constructor
  · intro m
    cases m <;>
      first
        | exact wallet_init_rejects self fault
        | exact wallet_request_rejects self fault _ _
        | exact wallet_send_rejects self fault _ _
  · intro m hm
    cases m <;>
      first
        | exact absurd rfl hm
        | (simp only [Daemon.call, Daemon.getblockcount, Daemon.get_coinbase_tx_sum,
             Daemon.on_getblockhash, Daemon.getlastblockheader, Daemon.getblockheaderbyhash,
             Daemon.getblockheaderbyheight, Daemon.get_block_by_hash,
             Daemon.get_block_by_height, Daemon.get_connections, Daemon.get_info,
             Daemon.set_bans, Daemon.get_bans, Daemon.get_transactions]
           exact daemon_request_rejects self fault _ _ _)

/-- C12 (witness): `get_height` of the default wallet and `get_info` of the
default daemon, on a request that times out. -/
theorem transport_failure_rejects_witness :
    (Wallet.call defaultClient (fun _ _ => (Response.failed (.str "ETIMEDOUT")).reply)
        .get_height).promise = some (.rejected (.error "Server is not reachable.")) ∧
    (Daemon.call defaultClient (fun _ _ => (Response.failed (.str "ETIMEDOUT")).reply)
        .get_info).promise = some (.rejected (.error "Server is not reachable.")) :=
  have h := transport_failure_rejects defaultClient (fun _ _ => .str "ETIMEDOUT")
  ⟨congrArg some (h.1 .get_height _ rfl), congrArg some (h.2 .get_info (by simp) _ rfl)⟩

/-- C12 (counterexample): `init` of the daemon, on a request that is refused,
resolves to `undefined`: its `catch` handler is empty. -/
theorem transport_failure_counterexample :
    (Daemon.call defaultClient (fun _ _ => (Response.failed (.str "ECONNREFUSED")).reply)
        .init).promise = some (.resolved .undefined) ∧
    Settled.resolved .undefined ≠ Settled.rejected (.error "Server is not reachable.") :=
  ⟨rfl, by simp⟩

/-! ## Sweeps and transfer queries -/

theorem intOption_record (fields : List (String × JSVal)) (key : String) (d : Nat)
    (h : (fields.all fun f => f.2.isPrimitive) = true) :
    ∃ x, ((JSVal.lookup key fields).getD .undefined).parseInt = .ok x ∧
      intOption (.obj fields) key d = .ok ((JSVal.num x).or (.num (.ofNat d))) := by
  obtain ⟨x, hx⟩ := parseInt_primitive _ (lookup_primitive key fields h)
  exact ⟨x, hx, by simp [intOption, JSVal.get, bind, Except.bind, hx]⟩

theorem optionFields_record (fields : List (String × JSVal))
    (h : (fields.all fun f => f.2.isPrimitive) = true) :
    ∃ v1 v2 v3 v4 v5 v6 v7 v8, optionFields (.obj fields) =
      .ok [("priority", v1), ("mixin", v2), ("ring_size", v3), ("unlock_time", v4),
        ("do_not_relay", v5), ("get_tx_hex", v6), ("get_tx_keys", v7),
        ("get_tx_metadata", v8)] := by
  obtain ⟨v1, h1⟩ := intOption_obj fields "priority" 0 h
  obtain ⟨v2, h2⟩ := intOption_obj fields "mixin" 10 h
  obtain ⟨v3, h3⟩ := intOption_obj fields "ring_size" 11 h
  obtain ⟨v4, h4⟩ := intOption_obj fields "unlockTime" 0 h
  obtain ⟨v5, h5⟩ := flagOption_obj fields "do_not_relay"
  obtain ⟨v6, h6⟩ := flagOption_obj fields "get_tx_hex"
  obtain ⟨v7, h7⟩ := flagOption_obj fields "get_tx_key"
  obtain ⟨v8, h8⟩ := flagOption_obj fields "get_tx_metadata"
  exact ⟨v1, v2, v3, v4, v5, v6, v7, v8,
    by simp only [optionFields, h1, h2, h3, h4, h5, h6, h7, h8, bind, Except.bind]⟩

theorem belowAmount_record (fields params : List (String × JSVal))
    (hp : JSVal.lookup "below_amount" params = none) :
    ∃ out, belowAmount (.obj fields) params = .ok out ∧
      JSVal.lookup "below_amount" out =
        (if ((JSVal.lookup "below_amount" fields).getD .undefined).isNumber then
          some ((JSVal.lookup "below_amount" fields).getD .undefined)
        else none) := by
  by_cases hn : ((JSVal.lookup "below_amount" fields).getD .undefined).isNumber = true
  · exact ⟨JSVal.assign "below_amount" ((JSVal.lookup "below_amount" fields).getD .undefined)
        params,
      by simp [belowAmount, JSVal.get, bind, Except.bind, hn],
      by simp [hn, lookup_assign_same]⟩
  · exact ⟨params, by simp [belowAmount, JSVal.get, bind, Except.bind, hn],
      by simp [hn, hp]⟩

/-- C15: for `sweep_all`, `sweep_single` and `offshore_sweep_all` called with
an options record, the `params` sent have a `below_amount` key exactly when
`options.below_amount` is of type number, and then carry that value
unchanged; a numeric string or an absent value adds no key. -/
theorem below_amount_only_if_number (self : Client) (net : Net)
    (address keyImage ai si : JSVal) (fields : List (String × JSVal)) (url : String)
    (hf : (fields.all fun f => f.2.isPrimitive) = true)
    (hurl : self.url (.str "json_rpc") = .ok url) :
    (∃ params, (Wallet.sweep_all self net address ai si (.obj fields)).sentParams =
        some (.obj params) ∧
      JSVal.lookup "below_amount" params =
        (if ((JSVal.lookup "below_amount" fields).getD .undefined).isNumber then
          some ((JSVal.lookup "below_amount" fields).getD .undefined)
        else none)) ∧
    (∃ params, (Wallet.sweep_single self net address keyImage ai si (.obj fields)).sentParams =
        some (.obj params) ∧
      JSVal.lookup "below_amount" params =
        (if ((JSVal.lookup "below_amount" fields).getD .undefined).isNumber then
          some ((JSVal.lookup "below_amount" fields).getD .undefined)
        else none)) ∧
    (∃ params, (Wallet.offshore_sweep_all self net address ai si (.obj fields)).sentParams =
        some (.obj params) ∧
      JSVal.lookup "below_amount" params =
        (if ((JSVal.lookup "below_amount" fields).getD .undefined).isNumber then
          some ((JSVal.lookup "below_amount" fields).getD .undefined)
        else none)) := by
  obtain ⟨v1, v2, v3, v4, v5, v6, v7, v8, hopts⟩ := optionFields_record fields hf
  obtain ⟨out, hout, hl⟩ := belowAmount_record fields
    ([("address", address), ("account_index", dflt ai zero),
      ("subaddr_indices", dflt si zero)] ++
      [("priority", v1), ("mixin", v2), ("ring_size", v3), ("unlock_time", v4),
        ("do_not_relay", v5), ("get_tx_hex", v6), ("get_tx_keys", v7),
        ("get_tx_metadata", v8)]) (by simp [JSVal.lookup])
  obtain ⟨out2, hout2, hl2⟩ := belowAmount_record fields
    ([("address", address), ("key_image", keyImage), ("account_index", dflt ai zero),
      ("subaddr_indices", dflt si zero)] ++
      [("priority", v1), ("mixin", v2), ("ring_size", v3), ("unlock_time", v4),
        ("do_not_relay", v5), ("get_tx_hex", v6), ("get_tx_keys", v7),
        ("get_tx_metadata", v8)]) (by simp [JSVal.lookup])
  have hs : Wallet.sweepParams address ai si (.obj fields) = .ok out := by
    simp only [Wallet.sweepParams, hopts, bind, Except.bind, hout]
  have hs2 : Wallet.sweepSingleParams address keyImage ai si (.obj fields) = .ok out2 := by
    simp only [Wallet.sweepSingleParams, hopts, bind, Except.bind, hout2]
  refine ⟨⟨out, ?_, hl⟩, ⟨out2, ?_, hl2⟩, ⟨out, ?_, hl⟩⟩
  · rw [Wallet.sweep_all, hs, sentParams_send _ _ _ _ url hurl]
  · rw [Wallet.sweep_single, hs2, sentParams_send _ _ _ _ url hurl]
  · rw [Wallet.offshore_sweep_all, hs, sentParams_send _ _ _ _ url hurl]

/-- C15 (witness): `sweep_all` of the default wallet with
`{below_amount: 5}`. -/
theorem below_amount_only_if_number_witness :
    ∃ params, (Wallet.sweep_all defaultClient (fun _ _ => .failure) (.str "hvx1")
        .undefined .undefined (.obj [("below_amount", .num (.ofNat 5))])).sentParams =
        some (.obj params) ∧
      JSVal.lookup "below_amount" params = some (.num (.ofNat 5)) :=
  (below_amount_only_if_number defaultClient (fun _ _ => .failure) (.str "hvx1") (.str "img")
    .undefined .undefined [("below_amount", .num (.ofNat 5))] defaultUrl rfl
    defaultClient_url).1

/-- C18: in `get_transfers` the positional `min_height` and `max_height` do
not reach the request: two calls that differ only in them do the same, the
heights sent are `parseInt(options.min_height)` and
`parseInt(options.max_height)`, and with the options omitted the call throws
before any request is built. -/
theorem get_transfers_heights (self : Client) (net : Net)
    (txIn txOut txPending txFailed txPool filterByHeight ai si : JSVal)
    (min1 max1 min2 max2 : JSVal) (options : JSVal) (fields : List (String × JSVal))
    (url : String)
    (hf : (fields.all fun f => f.2.isPrimitive) = true)
    (hurl : self.url (.str "json_rpc") = .ok url) :
    Wallet.get_transfers self net txIn txOut txPending txFailed txPool filterByHeight
        min1 max1 ai si options =
      Wallet.get_transfers self net txIn txOut txPending txFailed txPool filterByHeight
        min2 max2 ai si options ∧
    (∃ lo hi, ((JSVal.lookup "min_height" fields).getD .undefined).parseInt = .ok lo ∧
      ((JSVal.lookup "max_height" fields).getD .undefined).parseInt = .ok hi ∧
      (Wallet.get_transfers self net txIn txOut txPending txFailed txPool filterByHeight
        min1 max1 ai si (.obj fields)).sentField "min_height" = some (.num lo) ∧
      (Wallet.get_transfers self net txIn txOut txPending txFailed txPool filterByHeight
        min1 max1 ai si (.obj fields)).sentField "max_height" = some (.num hi)) ∧
    Wallet.get_transfers self net txIn txOut txPending txFailed txPool filterByHeight
        min1 max1 ai si .undefined = .thrown .typeError := by
  refine ⟨rfl, ?_, rfl⟩
  obtain ⟨lo, hlo⟩ := parseInt_primitive _ (lookup_primitive "min_height" fields hf)
  obtain ⟨hi, hhi⟩ := parseInt_primitive _ (lookup_primitive "max_height" fields hf)
  refine ⟨lo, hi, hlo, hhi, ?_, ?_⟩
  · simp [Wallet.get_transfers, Wallet.getTransfersParams, JSVal.get, bind, Except.bind,
      hlo, hhi, sentField_send _ _ _ _ url _ hurl, JSVal.lookup]
  · simp [Wallet.get_transfers, Wallet.getTransfersParams, JSVal.get, bind, Except.bind,
      hlo, hhi, sentField_send _ _ _ _ url _ hurl, JSVal.lookup]

/-- C18 (witness): two calls of the default wallet with different positional
heights and the options `{min_height: 5, max_height: "9"}`: the same call,
sending the heights 5 and 9. -/
theorem get_transfers_heights_witness :
    Wallet.get_transfers defaultClient (fun _ _ => .failure) (.bool true) .undefined
        .undefined .undefined .undefined (.bool true) (.num (.ofNat 100)) (.num (.ofNat 200))
        .undefined .undefined (.obj [("min_height", .num (.ofNat 5)), ("max_height", .str "9")]) =
      Wallet.get_transfers defaultClient (fun _ _ => .failure) (.bool true) .undefined
        .undefined .undefined .undefined (.bool true) (.num (.ofNat 1)) (.num (.ofNat 2))
        .undefined .undefined (.obj [("min_height", .num (.ofNat 5)), ("max_height", .str "9")]) ∧
    (Wallet.get_transfers defaultClient (fun _ _ => .failure) (.bool true) .undefined
        .undefined .undefined .undefined (.bool true) (.num (.ofNat 100)) (.num (.ofNat 200))
        .undefined .undefined
        (.obj [("min_height", .num (.ofNat 5)), ("max_height", .str "9")])).sentField
      "min_height" = some (.num (.ofNat 5)) ∧
    (Wallet.get_transfers defaultClient (fun _ _ => .failure) (.bool true) .undefined
        .undefined .undefined .undefined (.bool true) (.num (.ofNat 100)) (.num (.ofNat 200))
        .undefined .undefined
        (.obj [("min_height", .num (.ofNat 5)), ("max_height", .str "9")])).sentField
      "max_height" = some (.num (.ofNat 9)) := by
  obtain ⟨h0, ⟨lo, hi, hlo, hhi, h1, h2⟩, _⟩ :=
    get_transfers_heights defaultClient (fun _ _ => .failure) (.bool true) .undefined
      .undefined .undefined .undefined (.bool true) .undefined .undefined
      (.num (.ofNat 100)) (.num (.ofNat 200)) (.num (.ofNat 1)) (.num (.ofNat 2))
      (.obj [("min_height", .num (.ofNat 5)), ("max_height", .str "9")])
      [("min_height", .num (.ofNat 5)), ("max_height", .str "9")] defaultUrl rfl
      defaultClient_url
  have e1 : lo = .ofNat 5 := Except.ok.inj (hlo.symm.trans rfl)
  have e2 : hi = .ofNat 9 := Except.ok.inj (hhi.symm.trans rfl)
  rw [e1] at h1
  rw [e2] at h2
  exact ⟨h0, h1, h2⟩

/-! ## In-place conversion of the caller's destinations -/

theorem normalize_eq_mutate (destinations : Destinations) :
    normalizeDestinations destinations =
      (mutateDestinations destinations).map
        (fun m => if destinations.isArray then m.read else .arr [m.read]) := by
  cases destinations with
  | shared objects slots =>
    simp only [normalizeDestinations, normalizeArray, mutateDestinations]
    cases convertAll objects slots <;> rfl
  | value v =>
    cases v with
    | arr items =>
      simp only [normalizeDestinations, normalizeArray, mutateDestinations]
      cases convertAll items (List.range items.length) <;> rfl
    | undefined => rfl
    | null => rfl
    | bool b => rfl
    | num x => rfl
    | str s => rfl
    | obj fields =>
      simp only [normalizeDestinations, mutateDestinations]
      cases convertAmount (.obj fields) <;> rfl

/-- C16: the destination-taking methods write the converted amount into the
caller's own destination object: after `transfer(d)` with `d.amount = x` the
caller's `d.amount` is `convert(x)`, and that mutated object is what the call
sent.  Passing the same object to `transfer` again converts again: the second
call sends `convert(convert(x))`. The list every destination-taking method
sends is the caller's mutated argument, wrapped when it is a single object. -/
theorem transfer_overwrites_amount (self : Client) (net : Net)
    (fields : List (String × JSVal)) (x ai si options : JSVal) (destinations : Destinations)
    (url : String)
    (hx : JSVal.lookup "amount" fields = some x)
    (hp : x.isPrimitive = true)
    (ho : isOptionsBag options = true)
    (hurl : self.url (.str "json_rpc") = .ok url) :
    (∃ (c1 c2 : JSNum) (d1 d2 : JSVal),
      convert x = .ok c1 ∧ convert (.num c1) = .ok c2 ∧
      mutateDestinations (.value (.obj fields)) = .ok (.value d1) ∧
      d1.get "amount" = .ok (.num c1) ∧
      (Wallet.transfer self net (.value (.obj fields)) ai si options).sentField
        "destinations" = some (.arr [d1]) ∧
      mutateDestinations (.value d1) = .ok (.value d2) ∧ d2.get "amount" = .ok (.num c2) ∧
      (Wallet.transfer self net (.value d1) ai si options).sentField "destinations" =
        some (.arr [d2])) ∧
    normalizeDestinations destinations =
      (mutateDestinations destinations).map
        (fun m => if destinations.isArray then m.read else .arr [m.read]) := by
  refine ⟨?_, normalize_eq_mutate destinations⟩
  obtain ⟨c1, hc1⟩ := convert_primitive x hp
  obtain ⟨c2, hc2⟩ := convert_primitive (.num c1) rfl
  have hc1' : convert ((JSVal.lookup "amount" fields).getD .undefined) = .ok c1 := by
    simpa [hx] using hc1
  have hc2' : convert ((JSVal.lookup "amount"
      (JSVal.assign "amount" (.num c1) fields)).getD .undefined) = .ok c2 := by
    simpa [lookup_assign_same] using hc2
  refine ⟨c1, c2, .obj (JSVal.assign "amount" (.num c1) fields),
    .obj (JSVal.assign "amount" (.num c2) (JSVal.assign "amount" (.num c1) fields)),
    hc1, hc2, ?_, ?_, ?_, ?_, ?_, ?_⟩
  · simp only [mutateDestinations, convertAmount_obj fields c1 hc1', Except.map]
  · simp [JSVal.get, lookup_assign_same]
  · exact (methods_destinations self net _ _ .undefined ai si options url
      (normalize_single fields c1 hc1') ho hurl).1
  · simp only [mutateDestinations, convertAmount_obj _ c2 hc2', Except.map]
  · simp [JSVal.get, lookup_assign_same]
  · exact (methods_destinations self net _ _ .undefined ai si options url
      (normalize_single _ c2 hc2') ho hurl).1

set_option maxRecDepth 100000 in
/-- C16 (witness): the destination `{address: "hvx1", amount: 1}` with the
default wallet; one unit becomes `10^12`, and converted again the number
nearest to `10^24`. -/
theorem transfer_overwrites_amount_witness :
    (∃ (c1 c2 : JSNum) (d1 d2 : JSVal),
      convert (.num (.ofNat 1)) = .ok c1 ∧ convert (.num c1) = .ok c2 ∧
      mutateDestinations
          (.value (.obj [("address", .str "hvx1"), ("amount", .num (.ofNat 1))])) =
        .ok (.value d1) ∧
      d1.get "amount" = .ok (.num c1) ∧
      (Wallet.transfer defaultClient (fun _ _ => .failure)
        (.value (.obj [("address", .str "hvx1"), ("amount", .num (.ofNat 1))]))
        .undefined .undefined .undefined).sentField "destinations" = some (.arr [d1]) ∧
      mutateDestinations (.value d1) = .ok (.value d2) ∧ d2.get "amount" = .ok (.num c2) ∧
      (Wallet.transfer defaultClient (fun _ _ => .failure) (.value d1)
        .undefined .undefined .undefined).sentField "destinations" = some (.arr [d2])) ∧
    convert (.num (.ofNat 1)) = .ok (.ofNat 1000000000000) ∧
    convert (.num (.ofNat 1000000000000)) = .ok (JSNum.round false (10 ^ 24) 1) :=
  ⟨(transfer_overwrites_amount defaultClient (fun _ _ => .failure)
      [("address", .str "hvx1"), ("amount", .num (.ofNat 1))] (.num (.ofNat 1))
      .undefined .undefined .undefined (.value .undefined) defaultUrl rfl rfl rfl
      defaultClient_url).1, by rfl, by rfl⟩

/-! ## The text of an integer and `parseInt` -/

theorem digitsVal_foldl (ds : List Nat) (a : Nat) :
    ds.foldl (fun acc d => 10 * acc + d) a = a * 10 ^ ds.length + digitsVal 10 ds := by
  induction ds generalizing a with
  | nil => simp [digitsVal]
  | cons d ds ih =>
    simp only [List.foldl_cons, List.length_cons, digitsVal]
    rw [ih (10 * a + d), ih (10 * 0 + d)]
    simp only [digitsVal]
    ring

theorem digitsVal_cons (d : Nat) (ds : List Nat) :
    digitsVal 10 (d :: ds) = d * 10 ^ ds.length + digitsVal 10 ds := by
  have := digitsVal_foldl ds (10 * 0 + d)
  simp only [digitsVal, List.foldl_cons] at this ⊢
  rw [this]
  ring

theorem digitsVal_lt (ds : List Nat) (h : ∀ d ∈ ds, d < 10) :
    digitsVal 10 ds < 10 ^ ds.length := by
  induction ds with
  | nil => simp [digitsVal]
  | cons d ds ih =>
    rw [digitsVal_cons, List.length_cons, pow_succ]
    have hd := h d (List.mem_cons_self _ _)
    have := ih (fun e he => h e (List.mem_cons_of_mem _ he))
    nlinarith

theorem digitsVal_append_zeros (ds : List Nat) (z : Nat) :
    digitsVal 10 (ds ++ List.replicate z 0) = digitsVal 10 ds * 10 ^ z := by
  induction z with
  | zero => simp
  | succ z ih =>
    rw [List.replicate_succ', ← List.append_assoc, digitsVal_append, ih, pow_succ]
    ring

theorem natDigitsAux_lead (f n : Nat) (acc : List Char) (hpos : 0 < n) (h : n < f) :
    ∃ (d : Nat) (ds : List Nat), natDigitsAux f n acc = digitChar d :: (ds.map digitChar ++ acc) ∧
      0 < d ∧ d < 10 ∧ (∀ e ∈ ds, e < 10) ∧ digitsVal 10 (d :: ds) = n := by
  induction f generalizing n acc with
  | zero => omega
  | succ f ih =>
    by_cases h10 : n < 10
    · exact ⟨n, [], by simp [natDigitsAux, h10], hpos, h10, by simp, by simp [digitsVal]⟩
    · obtain ⟨d, ds, h1, h2, h3, h4, h5⟩ :=
        ih (n / 10) (digitChar (n % 10) :: acc) (by omega) (by omega)
      refine ⟨d, ds ++ [n % 10], ?_, h2, h3, ?_, ?_⟩
      · simp [natDigitsAux, h10, h1]
      · intro e he
        rcases List.mem_append.1 he with he | he
        · exact h4 e he
        · simp at he; omega
      · rw [← List.cons_append, digitsVal_append, h5]; omega

theorem natDigits_lead (n : Nat) (hpos : 0 < n) :
    ∃ (d : Nat) (ds : List Nat), natDigits n = (d :: ds).map digitChar ∧
      0 < d ∧ d < 10 ∧ (∀ e ∈ ds, e < 10) ∧ digitsVal 10 (d :: ds) = n := by
  obtain ⟨d, ds, h1, h2, h3, h4, h5⟩ := natDigitsAux_lead (n + 1) n [] hpos (by omega)
  exact ⟨d, ds, by simpa [natDigits] using h1, h2, h3, h4, h5⟩

theorem natDigits_bounds (n : Nat) (hpos : 0 < n) :
    10 ^ ((natDigits n).length - 1) ≤ n ∧ n < 10 ^ (natDigits n).length ∧
      0 < (natDigits n).length := by
  obtain ⟨d, ds, h1, h2, h3, h4, h5⟩ := natDigits_lead n hpos
  have hl : (natDigits n).length = ds.length + 1 := by simp [h1]
  have hv := digitsVal_lt ds h4
  rw [digitsVal_cons] at h5
  rw [hl]
  refine ⟨?_, ?_, by omega⟩
  · simp only [Nat.add_sub_cancel]
    nlinarith
  · rw [pow_succ]
    nlinarith

theorem natDigits_length (n k : Nat) (hlo : 10 ^ (k - 1) ≤ n) (hhi : n < 10 ^ k)
    (hk : 0 < k) : (natDigits n).length = k := by
  have hpos : 0 < n := lt_of_lt_of_le (by positivity) hlo
  obtain ⟨h1, h2, h3⟩ := natDigits_bounds n hpos
  have a : 10 ^ ((natDigits n).length - 1) < 10 ^ k := lt_of_le_of_lt h1 hhi
  have b : 10 ^ (k - 1) < 10 ^ (natDigits n).length := lt_of_le_of_lt hlo h2
  have a' := (Nat.pow_lt_pow_iff_right (by norm_num : 1 < 10)).1 a
  have b' := (Nat.pow_lt_pow_iff_right (by norm_num : 1 < 10)).1 b
  omega

namespace JSNum

theorem round_ten_pow_21 : round false (10 ^ 21) 1 = fin false (10 ^ 21) 0 := by rfl

/-- The shortest digits of an integer that is a number: whatever the search
returns, the digits followed by the zeros of the exponent have at most 21
places and read back as the integer. -/
theorem shortestAux_integer (N L : Nat) (hL : 0 < L) (hL21 : L ≤ 21)
    (hlo : 10 ^ (L - 1) ≤ N) (hhi : N < 10 ^ L)
    (hrep : round false N 1 = fin false N 0) (fuel kd : Nat) (hkd : 1 ≤ kd) (hkL : kd ≤ L) :
    ∃ s z : Nat, shortestAux N 0 (L : Int) fuel kd = (s, (((natDigits s).length + z : Nat) : Int)) ∧
      (natDigits s).length + z ≤ 21 ∧ round false (s * 10 ^ z) 1 = fin false N 0 := by
  induction fuel generalizing kd with
  | zero =>
    refine ⟨N, 0, ?_, ?_, by simpa using hrep⟩
    · simp [shortestAux, natDigits_length N L hlo hhi hL]
    · simp [natDigits_length N L hlo hhi hL, hL21]
  | succ fuel ih =>
    have he1 : ((kd : Int) - (L : Int)).toNat = 0 := by omega
    have he2 : (-((kd : Int) - (L : Int))).toNat = L - kd := by omega
    have hj : 10 ^ L = 10 ^ kd * 10 ^ (L - kd) := by
      rw [← pow_add]; congr 1; omega
    have hj' : 10 ^ (L - 1) = 10 ^ (kd - 1) * 10 ^ (L - kd) := by
      rw [← pow_add]; congr 1; omega
    have hjpos : 0 < 10 ^ (L - kd) := by positivity
    have hlo_lt : N / 10 ^ (L - kd) < 10 ^ kd := by
      rw [Nat.div_lt_iff_lt_mul hjpos, ← hj]; exact hhi
    have hlo_ge : 10 ^ (kd - 1) ≤ N / 10 ^ (L - kd) := by
      rw [Nat.le_div_iff_mul_le hjpos, ← hj']; exact hlo
    have hcast : (((kd + (L - kd) : Nat) : Int)) = (L : Int) := by
      have : kd + (L - kd) = L := by omega
      rw [this]
    rw [shortestAux, he1, he2]
    simp only [pow_zero, Nat.mul_one, Nat.one_mul]
    split
    · -- the lower candidate is taken
      rename_i h
      simp only [Bool.and_eq_true, decide_eq_true_eq] at h
      refine ⟨N / 10 ^ (L - kd), L - kd, ?_, ?_, h.1.2⟩
      · rw [natDigits_length _ kd hlo_ge hlo_lt hkd, hcast]
      · rw [natDigits_length _ kd hlo_ge hlo_lt hkd]; omega
    · rename_i hA
      split
      · -- the upper candidate is taken
        rename_i h
        simp only [decide_eq_true_eq] at h
        split
        · rename_i hten
          have hval : (N / 10 ^ (L - kd) + 1) * 10 ^ (L - kd) = 10 ^ L := by
            rw [hten, ← hj]
          have hlen : (natDigits (10 ^ (kd - 1))).length = kd :=
            natDigits_length _ kd (le_refl _)
              (Nat.pow_lt_pow_right (by norm_num) (by omega)) hkd
          have hL20 : L ≤ 20 := by
            by_contra hc
            have hL' : L = 21 := by omega
            rw [hval, hL', round_ten_pow_21] at h
            have : 10 ^ 21 = N := by injection h
            rw [hL'] at hhi
            omega
          refine ⟨10 ^ (kd - 1), L - kd + 1, ?_, ?_, ?_⟩
          · rw [hlen]
            congr 1
            push_cast
            omega
          · rw [hlen]; omega
          · rw [hval] at h
            have : 10 ^ (kd - 1) * 10 ^ (L - kd + 1) = 10 ^ L := by
              rw [← pow_add]; congr 1; omega
            rw [this]
            exact h
        · rename_i hten
          have hlt : N / 10 ^ (L - kd) + 1 < 10 ^ kd := by omega
          have hge : 10 ^ (kd - 1) ≤ N / 10 ^ (L - kd) + 1 := by omega
          refine ⟨N / 10 ^ (L - kd) + 1, L - kd, ?_, ?_, h⟩
          · rw [natDigits_length _ kd hge hlt hkd, hcast]
          · rw [natDigits_length _ kd hge hlt hkd]; omega
      · -- the search goes on with one more digit
        have hlt : kd < L := by
          by_contra hc
          have hkeq : kd = L := by omega
          apply hA
          subst hkeq
          simp only [Nat.sub_self, pow_zero, Nat.div_one, Nat.mul_one, Nat.mod_one,
            Bool.and_eq_true, decide_eq_true_eq, Bool.or_eq_true]
          exact ⟨⟨hlo, hrep⟩, Or.inl (Or.inl (by norm_num))⟩
        exact ih (kd + 1) (by omega) (by omega)

end JSNum

theorem parseInt_num (x : JSNum) :
    (JSVal.num x).parseInt = (JSVal.str (String.mk x.toChars)).parseInt := by
  rfl

theorem digits_all_decimal (ds : List Nat) :
    ∀ c ∈ ds.map digitChar, isDecimalChar c = true := by
  intro c hc
  obtain ⟨d, _, rfl⟩ := List.mem_map.1 hc
  exact isDecimalChar_digitChar d

theorem parseInt_sign_digits (cs : List Char) (hall : ∀ c ∈ cs, isDecimalChar c = true) :
    JSVal.parseInt.match_1 (fun _ => Bool × List Char) cs (fun t => (true, t))
      (fun t => (false, t)) (fun t => (false, t)) = (false, cs) := by
  revert hall
  split
  · intro hall
    exact absurd (hall '-' (by simp)) (by decide)
  · intro hall
    exact absurd (hall '+' (by simp)) (by decide)
  · intro _
    rfl

theorem parseInt_base_digits (cs : List Char) (hall : ∀ c ∈ cs, isDecimalChar c = true) :
    JSVal.parseInt.match_2 (fun _ => Nat × List Char) cs (fun t => (16, t))
      (fun t => (16, t)) (fun t => (10, t)) = (10, cs) := by
  revert hall
  split
  · intro hall
    exact absurd (hall 'x' (by simp)) (by decide)
  · intro hall
    exact absurd (hall 'X' (by simp)) (by decide)
  · intro _
    rfl

theorem parseInt_digits (ds : List Nat) (h : ∀ d ∈ ds, d < 10) (hne : ds ≠ []) :
    (JSVal.str (String.mk (ds.map digitChar))).parseInt =
      .ok (JSNum.round false (digitsVal 10 ds) 1) := by
  have hall := digits_all_decimal ds
  have hws : ∀ c ∈ ds.map digitChar, isWhiteSpace c = false :=
    fun c hc => isWhiteSpace_of_decimal c (hall c hc)
  have hspan : spanDigits 10 (ds.map digitChar) = (ds, []) := by
    simpa using spanDigits_digits ds [] h (Or.inl rfl)
  unfold JSVal.parseInt
  simp only [JSVal.toStr, Except.map, trimStart_of_all _ hws, parseInt_sign_digits _ hall,
    parseInt_base_digits _ hall, hspan]
  cases ds with
  | nil => exact absurd rfl hne
  | cons d ds => rfl

theorem parseInt_neg_digits (ds : List Nat) (h : ∀ d ∈ ds, d < 10) (hne : ds ≠ []) :
    (JSVal.str (String.mk ('-' :: ds.map digitChar))).parseInt =
      .ok (JSNum.round true (digitsVal 10 ds) 1) := by
  have hall := digits_all_decimal ds
  have hspan : spanDigits 10 (ds.map digitChar) = (ds, []) := by
    simpa using spanDigits_digits ds [] h (Or.inl rfl)
  unfold JSVal.parseInt
  simp only [JSVal.toStr, Except.map, trimStart_cons '-' _ rfl, parseInt_base_digits _ hall,
    hspan]
  cases ds with
  | nil => exact absurd rfl hne
  | cons d ds => rfl

namespace JSNum

theorem mkFin_sign (s t : Bool) (n k n' k' : Nat) (h : mkFin s n k = fin s n' k') :
    mkFin t n k = fin t n' k' := by
  induction k generalizing n with
  | zero =>
    simp only [mkFin, fin.injEq, true_and] at h ⊢
    exact h
  | succ k ih =>
    by_cases h2 : n % 2 = 0
    · simp only [mkFin, h2, if_true] at h ⊢
      exact ih _ h
    · simp only [mkFin, h2, if_false, fin.injEq, true_and] at h ⊢
      exact h

theorem round_sign (s t : Bool) (p d n k : Nat) (h : round s p d = fin s n k) :
    round t p d = fin t n k := by
  unfold round at h ⊢
  by_cases hp : p = 0
  · simp only [hp, if_true, fin.injEq, true_and] at h ⊢
    exact h
  · simp only [hp, if_false] at h ⊢
    unfold roundPos at h ⊢
    simp only at h ⊢
    split at h
    · simp at h
    · rename_i hc
      rw [if_neg hc]
      exact mkFin_sign s t _ _ _ _ h

theorem formatPos_digits (ds : List Char) (z : Nat) (h : ds.length + z ≤ 21) :
    formatPos ds ((ds.length + z : Nat) : Int) = ds ++ List.replicate z '0' := by
  unfold formatPos
  simp only
  have h1 : ((ds.length : Nat) : Int) ≤ ((ds.length + z : Nat) : Int) ∧
      ((ds.length + z : Nat) : Int) ≤ 21 := by omega
  have h2 : (((ds.length + z : Nat) : Int) - ((ds.length : Nat) : Int)).toNat = z := by omega
  rw [if_pos h1, h2]

/-- The text of a non-zero integer below `10^21` that is a number: an
optional sign and decimal digits which read back as the integer. -/
theorem toChars_integer (neg : Bool) (N : Nat) (hpos : 0 < N) (hlt : N < 10 ^ 21)
    (hrep : round false N 1 = fin false N 0) :
    ∃ ds : List Nat, (∀ d ∈ ds, d < 10) ∧ ds ≠ [] ∧
      toChars (fin neg N 0) = (if neg then ['-'] else []) ++ ds.map digitChar ∧
      round false (digitsVal 10 ds) 1 = fin false N 0 := by
  obtain ⟨hb1, hb2, hb3⟩ := natDigits_bounds N hpos
  have hL21 : (natDigits N).length ≤ 21 := by
    have : 10 ^ ((natDigits N).length - 1) < 10 ^ 21 := lt_of_le_of_lt hb1 hlt
    have := (Nat.pow_lt_pow_iff_right (by norm_num : 1 < 10)).1 this
    omega
  obtain ⟨s, z, hs, hlen, hval⟩ := shortestAux_integer N (natDigits N).length hb3 hL21 hb1 hb2
    hrep 17 1 (le_refl 1) hb3
  obtain ⟨ds, hd1, hd2, hd3, hd4⟩ := natDigits_spec s
  have hexp : exp10 N (2 ^ 0) = ((natDigits N).length : Int) := by
    simp [exp10, Nat.one_le_iff_ne_zero.2 (Nat.ne_of_gt hpos)]
  refine ⟨ds ++ List.replicate z 0, ?_, by simp [hd2], ?_, ?_⟩
  · intro d hd
    rcases List.mem_append.1 hd with hd | hd
    · exact hd1 d hd
    · rw [List.mem_replicate] at hd
      omega
  · unfold toChars
    simp only [Nat.ne_of_gt hpos, if_false, hexp, hs, formatPos_digits _ z hlen]
    simp [hd3, digitChar]
  · rw [digitsVal_append_zeros, hd4]
    exact hval

end JSNum

/-- `parseInt` of a non-zero integer below `10^21` in magnitude that is a
number gives the integer back. -/
theorem parseInt_integer (neg : Bool) (N : Nat) (hpos : 0 < N) (hlt : N < 10 ^ 21)
    (hrep : JSNum.round false N 1 = .fin false N 0) :
    (JSVal.num (.fin neg N 0)).parseInt = .ok (.fin neg N 0) := by
  obtain ⟨ds, h1, h2, h3, h4⟩ := JSNum.toChars_integer neg N hpos hlt hrep
  rw [parseInt_num, h3]
  cases neg with
  | false =>
    simp only [Bool.false_eq_true, if_false, List.nil_append]
    rw [parseInt_digits ds h1 h2, h4]
  | true =>
    simp only [if_true, List.singleton_append]
    rw [parseInt_neg_digits ds h1 h2, JSNum.round_sign false true _ _ _ _ h4]

/-! ## The numeric options of the transfer family -/

theorem belowAmount_other (fields params : List (String × JSVal)) :
    ∃ out, belowAmount (.obj fields) params = .ok out ∧
      ∀ key, key ≠ "below_amount" → JSVal.lookup key out = JSVal.lookup key params := by
  by_cases hn : ((JSVal.lookup "below_amount" fields).getD .undefined).isNumber = true
  · exact ⟨JSVal.assign "below_amount" ((JSVal.lookup "below_amount" fields).getD .undefined)
        params,
      by simp [belowAmount, JSVal.get, bind, Except.bind, hn],
      fun key hk => lookup_assign_other _ _ _ _ hk⟩
  · exact ⟨params, by simp [belowAmount, JSVal.get, bind, Except.bind, hn], fun _ _ => rfl⟩

theorem family_option_fields (self : Client) (net : Net) (destinations : Destinations)
    (dests address keyImage assetType ai si : JSVal)
    (fields : List (String × JSVal)) (url : String) (v1 v2 v3 v4 v5 v6 v7 v8 : JSVal)
    (hn : normalizeDestinations destinations = .ok dests)
    (hopts : optionFields (.obj fields) =
      .ok [("priority", v1), ("mixin", v2), ("ring_size", v3), ("unlock_time", v4),
        ("do_not_relay", v5), ("get_tx_hex", v6), ("get_tx_keys", v7),
        ("get_tx_metadata", v8)])
    (hurl : self.url (.str "json_rpc") = .ok url) (c : Call)
    (hc : c ∈ Wallet.transferFamily self net destinations address keyImage assetType ai si
      (.obj fields)) :
    c.sentField "priority" = some v1 ∧ c.sentField "mixin" = some v2 ∧
      c.sentField "ring_size" = some v3 ∧ c.sentField "unlock_time" = some v4 := by
  have hb : bag (.obj fields) = .obj fields := rfl
  have hopts' : optionFields (bag (.obj fields)) = _ := hopts
  have halg : ∃ alg, newAlgorithm (bag (.obj fields)) = .ok [("new_algorithm", alg)] :=
    ⟨_, rfl⟩
  obtain ⟨alg, halg⟩ := halg
  obtain ⟨out, hout, hl⟩ := belowAmount_other fields
    ([("address", address), ("account_index", dflt ai zero),
      ("subaddr_indices", dflt si zero)] ++
      [("priority", v1), ("mixin", v2), ("ring_size", v3), ("unlock_time", v4),
        ("do_not_relay", v5), ("get_tx_hex", v6), ("get_tx_keys", v7),
        ("get_tx_metadata", v8)])
  obtain ⟨out2, hout2, hl2⟩ := belowAmount_other fields
    ([("address", address), ("key_image", keyImage), ("account_index", dflt ai zero),
      ("subaddr_indices", dflt si zero)] ++
      [("priority", v1), ("mixin", v2), ("ring_size", v3), ("unlock_time", v4),
        ("do_not_relay", v5), ("get_tx_hex", v6), ("get_tx_keys", v7),
        ("get_tx_metadata", v8)])
  have hs : Wallet.sweepParams address ai si (.obj fields) = .ok out := by
    simp only [Wallet.sweepParams, hopts, bind, Except.bind, hout]
  have hs2 : Wallet.sweepSingleParams address keyImage ai si (.obj fields) = .ok out2 := by
    simp only [Wallet.sweepSingleParams, hopts, bind, Except.bind, hout2]
  simp only [Wallet.transferFamily, List.mem_cons, List.mem_singleton, List.not_mem_nil,
    or_false] at hc
  rcases hc with rfl | rfl | rfl | rfl | rfl | rfl | rfl | rfl | rfl | rfl | rfl
  all_goals
    first
      | (simp [Wallet.transfer, transferParams_ok _ _ ai si _ _ hn hopts',
          sentField_send _ _ _ _ url _ hurl, JSVal.lookup])
      | (simp [Wallet.transfer_split, Wallet.onshore, Wallet.offshore, Wallet.offshore_transfer,
          splitParams_ok _ _ ai si _ _ _ hn hopts' halg,
          sentField_send _ _ _ _ url _ hurl, JSVal.lookup])
      | (simp [Wallet.xusd_to_xasset, Wallet.xasset_to_xusd, Wallet.xasset_transfer,
          assetParams_ok _ _ assetType ai si _ _ _ hn hopts' halg,
          sentField_send _ _ _ _ url _ hurl, JSVal.lookup])
      | (simp [Wallet.sweep_all, Wallet.offshore_sweep_all, hs,
          sentField_send _ _ _ _ url _ hurl, hl, JSVal.lookup])
      | (simp [Wallet.sweep_single, hs2,
          sentField_send _ _ _ _ url _ hurl, hl2, JSVal.lookup])

namespace JSNum

theorem floorLog2_one (N : Nat) (hpos : 0 < N) : floorLog2 N 1 = (bitLen N : Int) - 1 := by
  have hb1 := bitLen_pos N hpos
  have hlow := two_pow_bitLen_le N hpos
  unfold floorLog2
  simp only [bitLen_one]
  have h1 : ((bitLen N : Int) - ((1 : Nat) : Int)).toNat = bitLen N - 1 := by omega
  have h2 : (-((bitLen N : Int) - ((1 : Nat) : Int))).toNat = 0 := by omega
  rw [h1, h2, if_pos]
  · simp
  · have : 2 ^ bitLen N = 2 * 2 ^ (bitLen N - 1) := by
      conv_lhs => rw [show bitLen N = (bitLen N - 1) + 1 by omega]
      rw [pow_succ]; ring
    omega

theorem mkFin_zero (s : Bool) (n : Nat) : mkFin s n 0 = fin s n 0 := by
  simp [mkFin]

/-- Rounding a natural number gives an integer or an infinity. -/
theorem round_one_whole (s : Bool) (V : Nat) : (round s V 1).isWhole = true := by
  unfold round
  by_cases h0 : V = 0
  · simp [h0, isWhole]
  · rw [if_neg h0]
    by_cases hlt : V < 2 ^ 53
    · rw [roundPos_nat s V (Nat.pos_of_ne_zero h0) hlt]
      rfl
    · have hb : 53 < bitLen V := by
        have h1 := lt_two_pow_bitLen V
        have h2 : 2 ^ 53 < 2 ^ bitLen V := by omega
        exact (Nat.pow_lt_pow_iff_right (by norm_num : 1 < 2)).1 h2
      unfold roundPos
      simp only [floorLog2_one V (Nat.pos_of_ne_zero h0)]
      have hq : (-(max ((bitLen V : Int) - 1) (-1022) - 52)).toNat = 0 := by
        rw [max_eq_left (by omega)]
        omega
      rw [hq]
      split
      · rfl
      · rw [mkFin_zero]
        rfl

end JSNum

/-- `parseInt` gives `NaN`, an integer or an infinity, never a fraction. -/
theorem parseInt_whole (v : JSVal) (x : JSNum) (h : v.parseInt = .ok x) :
    x = .nan ∨ x.isWhole = true := by
  unfold JSVal.parseInt at h
  cases hs : v.toStr with
  | error e => simp [hs, Except.map] at h
  | ok s =>
    simp only [hs, Except.map, Except.ok.injEq] at h
    rw [← h]
    split
    · exact Or.inl rfl
    · exact Or.inr (JSNum.round_one_whole _ _)

theorem intOption_value (fields : List (String × JSVal)) (key : String) (d : Nat)
    (h : (fields.all fun f => f.2.isPrimitive) = true) :
    ∃ x, ((JSVal.lookup key fields).getD .undefined).parseInt = .ok x ∧
      intOption (.obj fields) key d = .ok (.num (if x.isFalsy then .ofNat d else x)) := by
  obtain ⟨x, hx, hi⟩ := intOption_record fields key d h
  refine ⟨x, hx, ?_⟩
  rw [hi]
  cases hf : x.isFalsy <;> simp [JSVal.or, JSVal.truthy, hf]

theorem intOption_props (fields : List (String × JSVal)) (key : String) (d : Nat)
    (hf : (fields.all fun f => f.2.isPrimitive) = true) :
    ∃ r : JSNum, intOption (.obj fields) key d = .ok (.num r) ∧
      (d ≠ 0 → r.isFalsy = false) ∧ r.isWhole = true ∧
      (∀ x, ((JSVal.lookup key fields).getD .undefined).parseInt = .ok x →
        x.isFalsy = true → r = .ofNat d) ∧
      (∀ (s : Bool) (N : Nat), 0 < N → N < 10 ^ 21 →
        JSNum.round false N 1 = .fin false N 0 →
        JSVal.lookup key fields = some (.num (.fin s N 0)) → r = .fin s N 0) := by
  obtain ⟨x, hx, hi⟩ := intOption_value fields key d hf
  refine ⟨_, hi, ?_, ?_, ?_, ?_⟩
  · intro hd
    cases hfx : x.isFalsy
    · simpa using hfx
    · simp [JSNum.ofNat, JSNum.isFalsy, hd]
  · cases hfx : x.isFalsy
    · rcases parseInt_whole _ x hx with h | h
      · rw [h] at hfx
        simp [JSNum.isFalsy] at hfx
      · simpa using h
    · rfl
  · intro y hy hfy
    have : x = y := Except.ok.inj (hx.symm.trans hy)
    rw [this, hfy]
    rfl
  · intro s N hpos hlt hrep hl
    rw [hl] at hx
    have hp := parseInt_integer s N hpos hlt hrep
    have : x = .fin s N 0 := Except.ok.inj (hx.symm.trans hp)
    rw [this]
    have : (JSNum.fin s N 0).isFalsy = false := by
      simp [JSNum.isFalsy]; omega
    rw [this]
    rfl

/-- C17 (amended): for every options record of primitive values passed to a
method of the transfer family, the `priority`, `mixin`, `ring_size` and
`unlock_time` sent are numbers that are never `NaN` and never fractional (an
integer, or an infinity); `mixin` and `ring_size` are never 0.  A value that
`parseInt` reads as `NaN` or 0, an explicit 0 among them, is replaced by the
default 0, 10, 11 and 0; and a non-zero integer number below `10^21` in
magnitude is sent unchanged. -/
theorem option_numbers_sent (self : Client) (net : Net) (destinations : Destinations)
    (address keyImage assetType ai si : JSVal)
    (fields : List (String × JSVal)) (url : String)
    (hd : isDestinations destinations = true)
    (hf : (fields.all fun f => f.2.isPrimitive) = true)
    (hurl : self.url (.str "json_rpc") = .ok url) :
    ∃ pr mx rs ul : JSNum,
      (∀ c ∈ Wallet.transferFamily self net destinations address keyImage assetType ai si
          (.obj fields),
        c.sentField "priority" = some (.num pr) ∧ c.sentField "mixin" = some (.num mx) ∧
        c.sentField "ring_size" = some (.num rs) ∧ c.sentField "unlock_time" = some (.num ul)) ∧
      (mx.isFalsy = false ∧ rs.isFalsy = false) ∧
      (pr.isWhole = true ∧ mx.isWhole = true ∧ rs.isWhole = true ∧ ul.isWhole = true) ∧
      ((∀ x, ((JSVal.lookup "priority" fields).getD .undefined).parseInt = .ok x →
          x.isFalsy = true → pr = .ofNat 0) ∧
        (∀ x, ((JSVal.lookup "mixin" fields).getD .undefined).parseInt = .ok x →
          x.isFalsy = true → mx = .ofNat 10) ∧
        (∀ x, ((JSVal.lookup "ring_size" fields).getD .undefined).parseInt = .ok x →
          x.isFalsy = true → rs = .ofNat 11) ∧
        (∀ x, ((JSVal.lookup "unlockTime" fields).getD .undefined).parseInt = .ok x →
          x.isFalsy = true → ul = .ofNat 0)) ∧
      ((JSVal.lookup "mixin" fields = some (.num (.ofNat 0)) → mx = .ofNat 10) ∧
        (JSVal.lookup "ring_size" fields = some (.num (.ofNat 0)) → rs = .ofNat 11)) ∧
      (∀ (s : Bool) (N : Nat), 0 < N → N < 10 ^ 21 →
        JSNum.round false N 1 = .fin false N 0 →
        (JSVal.lookup "priority" fields = some (.num (.fin s N 0)) → pr = .fin s N 0) ∧
        (JSVal.lookup "mixin" fields = some (.num (.fin s N 0)) → mx = .fin s N 0) ∧
        (JSVal.lookup "ring_size" fields = some (.num (.fin s N 0)) → rs = .fin s N 0) ∧
        (JSVal.lookup "unlockTime" fields = some (.num (.fin s N 0)) → ul = .fin s N 0)) := by
  obtain ⟨dests, hn⟩ := normalize_ok destinations hd
  obtain ⟨pr, h1, _, w1, d1, u1⟩ := intOption_props fields "priority" 0 hf
  obtain ⟨mx, h2, z2, w2, d2, u2⟩ := intOption_props fields "mixin" 10 hf
  obtain ⟨rs, h3, z3, w3, d3, u3⟩ := intOption_props fields "ring_size" 11 hf
  obtain ⟨ul, h4, _, w4, d4, u4⟩ := intOption_props fields "unlockTime" 0 hf
  obtain ⟨v5, h5⟩ := flagOption_obj fields "do_not_relay"
  obtain ⟨v6, h6⟩ := flagOption_obj fields "get_tx_hex"
  obtain ⟨v7, h7⟩ := flagOption_obj fields "get_tx_key"
  obtain ⟨v8, h8⟩ := flagOption_obj fields "get_tx_metadata"
  have hopts : optionFields (.obj fields) =
      .ok [("priority", .num pr), ("mixin", .num mx), ("ring_size", .num rs),
        ("unlock_time", .num ul), ("do_not_relay", v5), ("get_tx_hex", v6),
        ("get_tx_keys", v7), ("get_tx_metadata", v8)] := by
    simp only [optionFields, h1, h2, h3, h4, h5, h6, h7, h8, bind, Except.bind]
  refine ⟨pr, mx, rs, ul, ?_, ⟨z2 (by norm_num), z3 (by norm_num)⟩, ⟨w1, w2, w3, w4⟩,
    ⟨d1, d2, d3, d4⟩, ⟨?_, ?_⟩, ?_⟩
  · intro c hc
    exact family_option_fields self net destinations dests address keyImage assetType ai si
      fields url _ _ _ _ _ _ _ _ hn hopts hurl c hc
  · intro hl
    exact d2 (.ofNat 0) (by rw [hl]; rfl) rfl
  · intro hl
    exact d3 (.ofNat 0) (by rw [hl]; rfl) rfl
  · intro s N hpos hlt hrep
    exact ⟨u1 s N hpos hlt hrep, u2 s N hpos hlt hrep, u3 s N hpos hlt hrep,
      u4 s N hpos hlt hrep⟩

theorem option_numbers_sent_witness :
    ((Wallet.transfer defaultClient (fun _ _ => .failure)
          (.value (.obj [("address", .str "hvx1"), ("amount", .num (.ofNat 1))]))
          .undefined .undefined
          (.obj [("priority", .num (.ofNat 2)), ("mixin", .num (.ofNat 0)),
            ("ring_size", .num (.fin true 7 0))])).sentField "priority" =
        some (.num (.ofNat 2)) ∧
      (Wallet.transfer defaultClient (fun _ _ => .failure)
          (.value (.obj [("address", .str "hvx1"), ("amount", .num (.ofNat 1))]))
          .undefined .undefined
          (.obj [("priority", .num (.ofNat 2)), ("mixin", .num (.ofNat 0)),
            ("ring_size", .num (.fin true 7 0))])).sentField "mixin" =
        some (.num (.ofNat 10)) ∧
      (Wallet.transfer defaultClient (fun _ _ => .failure)
          (.value (.obj [("address", .str "hvx1"), ("amount", .num (.ofNat 1))]))
          .undefined .undefined
          (.obj [("priority", .num (.ofNat 2)), ("mixin", .num (.ofNat 0)),
            ("ring_size", .num (.fin true 7 0))])).sentField "ring_size" =
        some (.num (.fin true 7 0)) ∧
      (Wallet.transfer defaultClient (fun _ _ => .failure)
          (.value (.obj [("address", .str "hvx1"), ("amount", .num (.ofNat 1))]))
          .undefined .undefined
          (.obj [("priority", .num (.ofNat 2)), ("mixin", .num (.ofNat 0)),
            ("ring_size", .num (.fin true 7 0))])).sentField "unlock_time" =
        some (.num (.ofNat 0))) ∧
    (Wallet.sweep_single defaultClient (fun _ _ => .failure) (.str "hvx1") (.str "ab12")
        .undefined .undefined
        (.obj [("priority", .num (.ofNat 2)), ("mixin", .num (.ofNat 0)),
          ("ring_size", .num (.fin true 7 0))])).sentField "mixin" =
      some (.num (.ofNat 10)) := by
  obtain ⟨pr, mx, rs, ul, hall, _, _, ⟨_, _, _, d4⟩, ⟨m0, _⟩, hu⟩ :=
    option_numbers_sent defaultClient (fun _ _ => .failure)
      (.value (.obj [("address", .str "hvx1"), ("amount", .num (.ofNat 1))]))
      (.str "hvx1")
      (.str "ab12") (.str "XAU") .undefined .undefined
      [("priority", .num (.ofNat 2)), ("mixin", .num (.ofNat 0)),
        ("ring_size", .num (.fin true 7 0))] defaultUrl rfl rfl rfl
  have hpr : pr = .ofNat 2 := (hu false 2 (by norm_num) (by norm_num) rfl).1 rfl
  have hmx : mx = .ofNat 10 := m0 rfl
  have hrs : rs = .fin true 7 0 := (hu true 7 (by norm_num) (by norm_num) rfl).2.2.1 rfl
  have hul : ul = .ofNat 0 := d4 .nan rfl rfl
  rw [hpr, hmx, hrs, hul] at hall
  have hm : Wallet.sweep_single defaultClient (fun _ _ => .failure) (.str "hvx1")
      (.str "ab12") .undefined .undefined
      (.obj [("priority", .num (.ofNat 2)), ("mixin", .num (.ofNat 0)),
        ("ring_size", .num (.fin true 7 0))]) ∈
      Wallet.transferFamily defaultClient (fun _ _ => .failure)
        (.value (.obj [("address", .str "hvx1"), ("amount", .num (.ofNat 1))]))
        (.str "hvx1")
        (.str "ab12") (.str "XAU") .undefined .undefined
        (.obj [("priority", .num (.ofNat 2)), ("mixin", .num (.ofNat 0)),
          ("ring_size", .num (.fin true 7 0))]) := by
    simp [Wallet.transferFamily]
  exact ⟨hall _ (by simp [Wallet.transferFamily]), (hall _ hm).2.1⟩

set_option exponentiation.threshold 2000 in
set_option maxRecDepth 1000000 in
/-- C17, the claim as first stated fails: a `mixin` of `10^21`, a non-zero
integer, is sent as 1, because `parseInt` reads the text `1e+21` of the number;
and a `priority` of 309 nines is sent as `Infinity`, which is not an integer. -/
theorem option_numbers_counterexample :
    (Wallet.transfer defaultClient (fun _ _ => .failure)
        (.value (.obj [("address", .str "hvx1"), ("amount", .num (.ofNat 1))]))
        .undefined .undefined
        (.obj [("mixin", .num (.fin false (10 ^ 21) 0))])).sentField "mixin" =
      some (.num (.ofNat 1)) ∧
    JSNum.round false (10 ^ 21) 1 = .fin false (10 ^ 21) 0 ∧
    JSNum.ofNat 1 ≠ .fin false (10 ^ 21) 0 ∧
    (Wallet.transfer defaultClient (fun _ _ => .failure)
        (.value (.obj [("address", .str "hvx1"), ("amount", .num (.ofNat 1))]))
        .undefined .undefined
        (.obj [("priority", .str (String.mk (List.replicate 309 '9')))])).sentField
      "priority" = some (.num (.inf false)) := by
  refine ⟨by rfl, by rfl, ?_, by rfl⟩
  intro h
  have h2 : (1 : Nat) = 10 ^ 21 := by
    simp only [JSNum.ofNat] at h
    injection h
  norm_num at h2

end Haven
